import Mathlib

/-!
# IsaacPlugin (picongpu) : a shallow embedding of the control plane

The development embeds `src/include/picongpu/plugins/IsaacPlugin.hpp`.

* C `int` values are integers reduced with `wrapInt32` wherever the source does
  arithmetic on them; `uint32_t` values are naturals reduced with `wrapUInt32`.
* The member functions of `IsaacPlugin` become functions on the record
  `IsaacPlugin`.  Everything the outside world supplies (the clock, the message
  returned by `doVisualization`, the values gathered from the other ranks, the
  grid geometry) is an explicit argument.
* The `do ... while(pause)` loop of `notify` consumes one `Frame` per pass; when the
  frames run out while the loop is still running the outcome is `blocked`.
* Console output (`std::cout`, `log<...>`) and floating point arguments of the
  visualization constructor are not part of the embedding.
-/

namespace picongpu
namespace isaacP

/-! ## Machine integers -/

/-- Two's complement reduction of an integer to the range of a 32 bit `int`: the
residue modulo `2^32`, taken as negative from `2^31` on. -/
def wrapInt32 (x : Int) : Int :=
  if (x % 4294967296).toNat < 2147483648 then x % 4294967296 else x % 4294967296 - 4294967296

/-- Reduction of an integer to the range of a `uint32_t`. -/
def wrapUInt32 (x : Int) : Nat := (x % 4294967296).toNat

/-- Reduction of an integer to the range of a `uint64_t`. -/
def wrapUInt64 (x : Int) : Nat := (x % 18446744073709551616).toNat

/-- The constant `std::numeric_limits<int>::max()`. -/
def INT_MAX : Int := 2147483647

/-- The constant `std::numeric_limits<int>::min()`. -/
def INT_MIN : Int := -2147483648

/-- Membership in the range of a 32 bit `int`. -/
def isInt32 (x : Int) : Prop := INT_MIN ≤ x ∧ x ≤ INT_MAX

instance (x : Int) : Decidable (isInt32 x) := by unfold isInt32; infer_instance

/-! ## JSON values (the part of the jansson interface the plugin uses) -/

/-- JSON values as jansson represents them (`json_t`). -/
inductive Json where
  | null
  | jtrue
  | jfalse
  | integer (v : Int)
  | real (v : Rat)
  | string (s : String)
  | array (items : List Json)
  | object (members : List (String × Json))

/-- A `json_t*`: `none` is the null pointer. -/
abbrev JsonPtr := Option Json

/-- Lookup of a key in the member list of an object. -/
def lookupKey (key : String) : List (String × Json) → Option Json
  | [] => none
  | (k, v) :: rest => if k = key then some v else lookupKey key rest

/-- `json_object_get`: null for a null pointer, for a value that is not an
object and for an absent key. -/
def json_object_get (j : JsonPtr) (key : String) : JsonPtr :=
  match j with
  | some (Json.object members) => lookupKey key members
  | _ => none

/-- `json_integer_value`: the value of a JSON integer, `0` for anything else
(the null pointer included). -/
def json_integer_value (j : JsonPtr) : Int :=
  match j with
  | some (Json.integer v) => v
  | _ => 0

/-- `json_boolean_value` (jansson defines it as `json_is_true`). -/
def json_boolean_value (j : JsonPtr) : Bool :=
  match j with
  | some Json.jtrue => true
  | _ => false

/-- `json_boolean`. -/
def json_boolean (b : Bool) : Json := if b then Json.jtrue else Json.jfalse

/-- Replacement of the value stored under `key`, when the key is present. -/
def replaceKey (key : String) (value : Json) : List (String × Json) → List (String × Json)
  | [] => []
  | (k, v) :: rest =>
    if k = key then (k, value) :: rest else (k, v) :: replaceKey key value rest

/-- `json_object_set_new` on the member list of an object: an existing key gets
the new value, a new key is added. -/
def json_object_set_new (members : List (String × Json)) (key : String) (value : Json) :
    List (String × Json) :=
  match lookupKey key members with
  | some _ => replaceKey key value members
  | none => members ++ [(key, value)]

/-! ## The benchmark sink (`std::ofstream timingsFile`) -/

/-- One `operator<<` on the sink: an `int` or a piece of text. -/
inductive Chunk where
  | int (v : Int)
  | text (s : String)
  deriving DecidableEq, Repr

/-- The state of a `std::ofstream`: whether a file is open, the merged
`failbit`/`badbit`, and what has been written to the file. -/
structure OFStream where
  isOpen : Bool := false
  fail : Bool := false
  content : List Chunk := []
  deriving DecidableEq, Repr

namespace OFStream

/-- The conversion `if(timingsFile)`: true when no error flag is set. -/
def good (f : OFStream) : Bool := !f.fail

/-- The call `open(name, out | trunc)`; `ok` says whether the file system lets
the file be opened. -/
def openTrunc (f : OFStream) (ok : Bool) : OFStream :=
  if f.isOpen then { f with fail := true }
  else if ok then { f with isOpen := true, content := [] }
  else { f with fail := true }

/-- One `operator<<`: nothing is written once an error flag is set, and writing
without an open file sets the error flag. -/
def put (f : OFStream) (c : Chunk) : OFStream :=
  if f.fail then f
  else if f.isOpen then { f with content := f.content ++ [c] }
  else { f with fail := true }

/-- The call `close()`. -/
def close (f : OFStream) : OFStream :=
  if f.isOpen then { f with isOpen := false } else { f with fail := true }

/-- The number of line ends written to the file. -/
def lineCount (f : OFStream) : Nat := f.content.count (Chunk.text "\n")

end OFStream

/-! ## `writeTimes`: the reduction on the coordinating process -/

/-- The three local variables `min`, `max`, `average` of `writeTimes`. -/
structure Timing where
  min : Int
  max : Int
  average : Int
  deriving DecidableEq, Repr

/-- The body of the `for` loop of `writeTimes` for one entry of `times`. -/
def accumulate (a : Timing) (t : Int) : Timing :=
  { min := if t < a.min then t else a.min
    max := if t > a.max then t else a.max
    average := wrapInt32 (a.average + t) }

/-- The computation of `writeTimes` on rank 0 from the gathered array `times`:
the loop over the first `numProc` entries, then `average /= numProc`. -/
def reduceTimes (numProc : Nat) (times : List Int) : Timing :=
  let a := (times.take numProc).foldl accumulate { min := INT_MAX, max := 0, average := 0 }
  { a with average := wrapInt32 (Int.tdiv a.average (numProc : Int)) }

/-! ## Geometry supplied by the grid subsystem -/

/-- A three component integer vector (`isaac_int3`, `DataSpace<simDim>`). -/
structure Vec3 where
  x : Int
  y : Int
  z : Int
  deriving DecidableEq, Repr

/-- The component access `v[i]`. -/
def Vec3.get (v : Vec3) (i : Nat) : Int :=
  match i with
  | 0 => v.x
  | 1 => v.y
  | _ => v.z

/-- The vector whose components are `f 0`, `f 1`, `f 2` (a loop `i < 3`
assigning `v[i]`). -/
def Vec3.ofFn (f : Nat → Int) : Vec3 := { x := f 0, y := f 1, z := f 2 }

/-- What the plugin reads from `MovingWindow`, `SubGrid` and `GridController`. -/
structure Grid where
  /-- The member `getWindow(step).globalDimensions.size`. -/
  windowGlobalSize : Nat → Vec3
  /-- The member `getWindow(step).localDimensions.offset`. -/
  windowLocalOffset : Nat → Vec3
  /-- The member `getWindow(step).localDimensions.size`. -/
  windowLocalSize : Nat → Vec3
  /-- The member `subGrid.getLocalDomain().size`. -/
  localDomainSize : Vec3
  /-- The member `subGrid.getLocalDomain().offset`. -/
  localDomainOffset : Vec3
  /-- The run time value `SuperCellSize::toRT()`. -/
  superCellSize : Vec3
  /-- The value `gc.getPosition()`. -/
  gcPosition : Vec3
  /-- The function `gc.getCommunicator().ExchangeTypeToRank`. -/
  exchangeTypeToRank : Nat → Int

/-- The loop `for(exchange = 0u; exchange < 27; ++exchange)` filling
`neighbourIds.array`. -/
def neighbourIds (grid : Grid) : List Int := (List.range 27).map grid.exchangeTypeToRank

/-! ## The visualization object as the plugin sees it -/

/-- The timing members of `IsaacVisualization` that `benchmark` reads. -/
structure VisTimes where
  kernelTime : Int := 0
  mergeTime : Int := 0
  videoSendTime : Int := 0
  copyTime : Int := 0
  sortingTime : Int := 0
  bufferTime : Int := 0
  advectionTime : Int := 0
  advectionBorderTime : Int := 0
  optimizationBufferTime : Int := 0
  deriving DecidableEq, Repr

/-- The `IsaacVisualization` object: the constructor arguments the plugin passes
and what the plugin later stores into it or reads from it. -/
structure Visualization where
  name : String
  url : String
  port : Nat
  framebufferSize : Nat × Nat
  globalSize : Vec3
  localSize : Vec3
  particleSize : Vec3
  position : Vec3
  jpegQuality : Nat := 0
  /-- What `updateNeighbours` stored last. -/
  neighbours : List Int := []
  /-- The number of `updateBounding` calls. -/
  boundingUpdates : Nat := 0
  /-- The object behind `getJsonMetaRoot()`. -/
  jsonMetaRoot : List (String × Json) := []
  /-- The messages handed to `getCommunicator()->setMessage`, oldest first. -/
  messages : List Json := []
  times : VisTimes := {}
  /-- The calls `doVisualization(META_MASTER, &currentStep, redraw)`, oldest first. -/
  calls : List (Nat × Bool) := []

/-- The argument of `visualization->init`. -/
inductive CommunicatorSetting where
  | RetryEverySend
  | ReturnAtError
  deriving DecidableEq, Repr

/-! ## The plugin object -/

/-- The data members of `IsaacPlugin`, followed by the two effects that leave
the object: the contributions to `MPI_Gather` and the period registered with
the plugin connector. -/
structure IsaacPlugin where
  visualization : Option Visualization
  notifyPeriod : String
  url : String
  name : String
  port : Nat
  width : Nat
  height : Nat
  jpeg_quality : Nat
  rank : Int
  numProc : Nat
  movingWindow : Bool
  renderInterval : Nat
  step : Nat
  drawingTime : Int
  simulationTime : Int
  directPause : Bool
  cellCount : Int
  particleCount : Int
  lastNotify : Nat
  reconnect : Bool
  timingsFileExist : Bool
  recording : Bool
  runSteps : Int
  timingsFile : OFStream
  timingsFilename : String
  /-- The value each `MPI_Gather` call of this process contributed, oldest first. -/
  gathers : List Int
  /-- The last argument of `setNotificationPeriod`, once it has been called. -/
  notificationPeriod : Option String

/-- The constructor `IsaacPlugin()`; the members filled from the command line
have the defaults of `pluginRegisterHelp`, `rank` and `numProc` are set by
`pluginLoad`. -/
def IsaacPlugin.new : IsaacPlugin :=
  { visualization := none
    notifyPeriod := ""
    url := "localhost"
    name := "default"
    port := 2460
    width := 1024
    height := 768
    jpeg_quality := 90
    rank := 0
    numProc := 0
    movingWindow := false
    renderInterval := 1
    step := 0
    drawingTime := 0
    simulationTime := 0
    directPause := false
    cellCount := 0
    particleCount := 0
    lastNotify := 0
    reconnect := true
    timingsFileExist := false
    recording := false
    runSteps := -10
    timingsFile := {}
    timingsFilename := ""
    gathers := []
    notificationPeriod := none }

/-- The function `writeTimes(time)`; `others` holds what ranks `1 .. numProc-1`
contribute to the gather, so the array `times` on rank 0 is `time :: others`. -/
def writeTimes (others : List Int) (time : Int) (p : IsaacPlugin) : IsaacPlugin :=
  if p.rank = 0 then
    let r := reduceTimes p.numProc (time :: others)
    { p with
      gathers := p.gathers ++ [time]
      timingsFile :=
        (((((p.timingsFile.put (Chunk.int r.min)).put (Chunk.text ",")).put
          (Chunk.int r.max)).put (Chunk.text ",")).put (Chunk.int r.average)).put
          (Chunk.text ",") }
  else
    { p with gathers := p.gathers ++ [time] }

/-- The array stored under the key `rotation axis` by `benchmark`. -/
def benchmarkAxis (runSteps : Int) : List Json :=
  (if runSteps < 360 then [Json.real 1, Json.real 0, Json.real 0]
   else if runSteps < 720 then [Json.real 0, Json.real 1, Json.real 0]
   else if runSteps < 1080 then [Json.real 0, Json.real 0, Json.real 1]
   else [Json.real 1, Json.real 1, Json.real 1]) ++ [Json.real 1]

/-- The eleven values `benchmark` passes to `writeTimes`, in the order of the
calls: `simulationTime`, `drawingTime`, then the timing members of the
visualization. -/
def benchmarkTimes (p : IsaacPlugin) (v : Visualization) : List Int :=
  [p.simulationTime, p.drawingTime, v.times.kernelTime, v.times.mergeTime,
   v.times.videoSendTime, v.times.copyTime, v.times.sortingTime, v.times.bufferTime,
   v.times.advectionTime, v.times.advectionBorderTime, v.times.optimizationBufferTime]

/-- Consecutive calls `writeTimes(t)` for the values of a list; the call number
`k` of the pass gathers `gathered k` from the other ranks. -/
def writeAllTimes (gathered : Nat → List Int) : Nat → List Int → IsaacPlugin → IsaacPlugin
  | _, [], p => p
  | k, t :: ts, p => writeAllTimes gathered (k + 1) ts (writeTimes (gathered k) t p)

/-- The first block `if(rank == 0)` of `benchmark`, on the visualization: the
rotation axis of the benchmark phase is set as message. -/
def benchmarkMessage (p : IsaacPlugin) (v : Visualization) : Visualization :=
  if p.rank = 0 then
    { v with
      messages := v.messages ++
        [Json.object [("rotation axis", Json.array (benchmarkAxis p.runSteps))]] }
  else v

/-- The first block `if(rank == 0)` of `benchmark`, on the plugin: the run step
counter and a comma are written to the benchmark file. -/
def benchmarkHead (p : IsaacPlugin) : IsaacPlugin :=
  if p.rank = 0 then
    { p with timingsFile := (p.timingsFile.put (Chunk.int p.runSteps)).put (Chunk.text ",") }
  else p

/-- The statement `timingsFile << "\n"`. -/
def endRow (p : IsaacPlugin) : IsaacPlugin :=
  { p with timingsFile := p.timingsFile.put (Chunk.text "\n") }

/-- The block `if(rank == 0 && timingsFile && runSteps == 1440)` that ends
`benchmark`. -/
def benchmarkClose (p : IsaacPlugin) : IsaacPlugin :=
  if p.rank = 0 ∧ p.timingsFile.good = true ∧ p.runSteps = 1440 then
    { p with timingsFile := p.timingsFile.close, recording := false }
  else p

/-- The function `benchmark(pause)`; `gathered k` holds what the other ranks
contribute to the `k`-th `writeTimes` call of this pass. -/
def benchmark (gathered : Nat → List Int) (pause : Bool) (p : IsaacPlugin)
    (v : Visualization) : IsaacPlugin × Visualization :=
  if p.recording && !pause && decide (0 ≤ p.runSteps) then
    (benchmarkClose (endRow (writeAllTimes gathered 0 (benchmarkTimes p v) (benchmarkHead p))),
     benchmarkMessage p v)
  else (p, v)

/-! ## `notify` -/

/-- What the outside world supplies during one pass of the loop
`do ... while(pause)`. -/
structure Frame where
  /-- The clock read before `doVisualization`. -/
  ticksBefore : Nat
  /-- The clock read after `doVisualization`. -/
  ticksAfter : Nat
  /-- The pointer `doVisualization` returns. -/
  message : JsonPtr
  /-- The timing members of the visualization after the call. -/
  times : VisTimes
  /-- What ranks `1 .. numProc-1` contribute to the `k`-th gather of the pass. -/
  gathered : Nat → List Int

/-- What the outside world supplies during one call of `notify`. -/
structure NotifyEnv where
  /-- The clock read on entry. -/
  ticksEntry : Nat
  /-- One frame per pass of the loop. -/
  frames : List Frame
  /-- The clock read before returning. -/
  ticksExit : Nat
  grid : Grid

/-- The variables a pass of the loop works on: the local `pause`, the plugin
members and the object `*visualization`. -/
structure LoopState where
  pause : Bool
  plugin : IsaacPlugin
  vis : Visualization

/-- The plugin with the visualization object written back. -/
def LoopState.store (s : LoopState) : IsaacPlugin :=
  { s.plugin with visualization := some s.vis }

/-- How a piece of `notify` ends: it goes on, or it has called `exit(1)`. -/
inductive Decoded where
  | next (s : LoopState)
  | exit (s : LoopState)

/-- The variables at the point where the piece ends. -/
def Decoded.state : Decoded → LoopState
  | Decoded.next s => s
  | Decoded.exit s => s

/-- How a call of `notify` ends: it returns, it terminates the process with
`exit(code)`, it is still inside the loop when the frames run out, or it
dereferences the null `visualization`. -/
inductive Outcome where
  | returned (p : IsaacPlugin)
  | exited (code : Int) (p : IsaacPlugin)
  | blocked (p : IsaacPlugin)
  | fault (p : IsaacPlugin)

/-- The position forwarded to `updatePosition` in a moving window run. -/
def windowPosition (grid : Grid) (currentStep : Nat) : Vec3 :=
  Vec3.ofFn fun i =>
    if grid.gcPosition.get 1 = 0 then
      wrapInt32 (wrapInt32 ((grid.windowLocalOffset currentStep).get i
        + (grid.windowLocalSize currentStep).get i) - grid.localDomainSize.get i)
    else (grid.windowLocalOffset currentStep).get i

/-- The block `if(movingWindow)` of the loop. -/
def updateWindow (grid : Grid) (currentStep : Nat) (v : Visualization) : Visualization :=
  { v with
    position := windowPosition grid currentStep
    boundingUpdates := v.boundingUpdates + 1
    neighbours := neighbourIds grid }

/-- The block `if(rank == 0 && visualization->kernelTime)` of the loop. -/
def updateMeta (currentStep : Nat) (p : IsaacPlugin) (root : List (String × Json)) :
    List (String × Json) :=
  json_object_set_new
    (json_object_set_new
      (json_object_set_new
        (json_object_set_new
          (json_object_set_new root "time step" (Json.integer currentStep))
          "drawing_time" (Json.integer p.drawingTime))
        "simulation_time" (Json.integer p.simulationTime))
      "cell count" (Json.integer p.cellCount))
    "particle count" (Json.integer p.particleCount)

/-- The statement `if(meta && (jsonPause = json_object_get(meta, "pause")) &&
json_boolean_value(jsonPause)) pause = !pause;`. -/
def decodePause (message : JsonPtr) (pause : Bool) : Bool :=
  if message.isSome && (json_object_get message "pause").isSome
      && json_boolean_value (json_object_get message "pause") then !pause
  else pause

/-- The condition of `if(meta && json_integer_value(json_object_get(meta, "exit")))`. -/
def exitRequested (message : JsonPtr) : Bool :=
  message.isSome && decide (json_integer_value (json_object_get message "exit") ≠ 0)

/-- The value `math::max(int(1), int(json_integer_value(js)))` as it is stored
in the `uint32_t` member `renderInterval`. -/
def requestedInterval (js : Json) : Nat :=
  wrapUInt32 (max 1 (wrapInt32 (json_integer_value (some js))))

/-- The block `if(meta && (js = json_object_get(meta, "interval")))`. -/
def decodeInterval (message : JsonPtr) (s : LoopState) : LoopState :=
  match (if message.isSome then json_object_get message "interval" else none) with
  | some js =>
    let renderInterval := requestedInterval js
    { s with
      plugin := { s.plugin with renderInterval := renderInterval }
      vis :=
        if s.plugin.rank = 0 then
          { s.vis with
            jsonMetaRoot :=
              json_object_set_new s.vis.jsonMetaRoot "interval" (Json.integer renderInterval) }
        else s.vis }
  | none => s

/-- The decoding of the message returned by `doVisualization`: the pause
toggle, the exit request, the interval. -/
def decodeMessage (message : JsonPtr) (s : LoopState) : Decoded :=
  let s1 : LoopState := { s with pause := decodePause message s.pause }
  if exitRequested message then Decoded.exit s1
  else Decoded.next (decodeInterval message s1)

/-- The block `if(directPause)` that ends a pass. -/
def applyDirectPause (s : LoopState) : LoopState :=
  if s.plugin.directPause then
    { s with pause := true, plugin := { s.plugin with directPause := false } }
  else s

/-- The end of a pass, from the decoding of the message to the block
`if(directPause)`. -/
def finishPass (message : JsonPtr) (s : LoopState) : Decoded :=
  match decodeMessage message s with
  | Decoded.exit s2 => Decoded.exit s2
  | Decoded.next s2 => Decoded.next (applyDirectPause s2)

/-- The first part of a pass: the moving window block, the metadata block, the
call of `doVisualization` and the measurement of `drawingTime`. -/
def beginPass (grid : Grid) (currentStep : Nat) (f : Frame) (s : LoopState) : LoopState :=
  let v1 := if s.plugin.movingWindow then updateWindow grid currentStep s.vis else s.vis
  let v2 : Visualization :=
    if s.plugin.rank = 0 ∧ v1.times.kernelTime ≠ 0 then
      { v1 with jsonMetaRoot := updateMeta currentStep s.plugin v1.jsonMetaRoot }
    else v1
  { s with
    plugin :=
      { s.plugin with
        drawingTime := wrapInt32 (wrapUInt64 ((f.ticksAfter : Int) - (f.ticksBefore : Int))) }
    vis := { v2 with calls := v2.calls ++ [(currentStep, !s.pause)], times := f.times } }

/-- The call `benchmark(pause)` inside a pass. -/
def benchmarkPass (f : Frame) (s : LoopState) : LoopState :=
  { s with
    plugin := (benchmark f.gathered s.pause s.plugin s.vis).1
    vis := (benchmark f.gathered s.pause s.plugin s.vis).2 }

/-- One pass of the loop body. -/
def renderPass (grid : Grid) (currentStep : Nat) (f : Frame) (s : LoopState) : Decoded :=
  finishPass f.message (benchmarkPass f (beginPass grid currentStep f s))

/-- The loop `do ... while(pause)`, one frame per pass. -/
def renderLoop (grid : Grid) (currentStep : Nat) : List Frame → LoopState → Outcome
  | [], s => Outcome.blocked s.store
  | f :: fs, s =>
    match renderPass grid currentStep f s with
    | Decoded.exit s1 => Outcome.exited 1 s1.store
    | Decoded.next s1 =>
      if s1.pause then renderLoop grid currentStep fs s1 else Outcome.returned s1.store

/-- The two statements that end `notify`. -/
def finishNotify (ticksExit : Nat) (p : IsaacPlugin) : IsaacPlugin :=
  { p with runSteps := wrapInt32 (p.runSteps + 1), lastNotify := ticksExit }

/-- The first two statements of `notify`: the measurement of `simulationTime`
and `step++`. -/
def enterNotify (env : NotifyEnv) (p : IsaacPlugin) : IsaacPlugin :=
  { p with
    simulationTime := wrapInt32 (wrapUInt64 ((env.ticksEntry : Int) - (p.lastNotify : Int)))
    step := wrapUInt32 ((p.step : Int) + 1) }

/-- The variables at the start of the loop: `step = 0; bool pause = false;`. -/
def startCycle (p : IsaacPlugin) (v : Visualization) : LoopState :=
  { pause := false, plugin := { p with step := 0 }, vis := v }

/-- The function `notify(currentStep)`. -/
def notify (env : NotifyEnv) (currentStep : Nat) (p : IsaacPlugin) : Outcome :=
  if (enterNotify env p).step ≥ (enterNotify env p).renderInterval then
    match (enterNotify env p).visualization with
    | none => Outcome.fault (enterNotify env p)
    | some v =>
      match renderLoop env.grid currentStep env.frames (startCycle (enterNotify env p) v) with
      | Outcome.returned p2 => Outcome.returned (finishNotify env.ticksExit p2)
      | o => o
  else Outcome.returned (finishNotify env.ticksExit (enterNotify env p))

/-! ## `pluginLoad` and `pluginUnload` -/

/-- What the outside world supplies during `pluginLoad`. -/
structure LoadEnv where
  /-- The result of `MPI_Comm_rank`. -/
  rank : Int
  /-- The result of `MPI_Comm_size`. -/
  numProc : Nat
  /-- The value `MovingWindow::getInstance().isEnabled()`. -/
  movingWindowEnabled : Bool
  grid : Grid
  /-- The return value of `visualization->init`. -/
  initResult : CommunicatorSetting → Int
  /-- The product of the components of the grid layout without guard. -/
  localNrOfCells : Int
  /-- The constant `particles::TYPICAL_PARTICLES_PER_CELL`. -/
  typicalParticlesPerCell : Int
  /-- The number of entries of `VectorAllSpecies`. -/
  numSpecies : Int
  /-- The clock read after a successful `init`. -/
  ticks : Nat
  /-- Whether the file system lets the benchmark file be opened. -/
  fileOpens : Bool

/-- The header line `pluginLoad` writes to the benchmark file. -/
def timingsHeader : List String :=
  ["Timestep,",
   "min-sim,max-sim,average-sim,",
   "min-vis,max-vis,average-vis,",
   "min-kernel,max-kernel,average-kernel,",
   "min-merge,max-merge,average-merge,",
   "min-videoSend,max-videoSend,average-videoSend,",
   "min-copy,max-copy,average-copy,",
   "min-sorting,max-sorting,average-sorting,",
   "min-buffer,max-buffer,average-buffer,",
   "min-advection,max-advection,average-advection,",
   "min-advectionBorder,max-advectionBorder,average-advectionBorder,",
   "min-optimizationBuffer,max-optimizationBuffer,average-optimizationBuffer",
   "\n"]

/-- The entries `pluginLoad` defines on rank 0 under the comment
"Defining the later periodicly sent meta data". -/
def defineMeta (root : List (String × Json)) : List (String × Json) :=
  json_object_set_new
    (json_object_set_new
      (json_object_set_new
        (json_object_set_new
          (json_object_set_new root "time step" (Json.string "Time step"))
          "drawing time" (Json.string "Drawing time in us"))
        "simulation time" (Json.string "Simulation time in us"))
      "cell count" (Json.string "Total numbers of cells"))
    "particle count" (Json.string "Total numbers of particles")

/-- The first message `pluginLoad` sets on rank 0. -/
def initialAxisMessage : Json :=
  Json.object
    [("rotation axis", Json.array [Json.real 1, Json.real 1, Json.real 0, Json.real 1])]

/-- The message `pluginLoad` sets on rank 0 when a benchmark file is configured. -/
def benchmarkSetupMessage : Json :=
  Json.object
    [("weight",
        Json.array [Json.real 7, Json.real 7, Json.real 7, Json.real 0, Json.real 0]),
     ("iso threshold", Json.array [Json.real 1, Json.real 1, Json.real 1]),
     ("interpolation", json_boolean true),
     ("distance relative", Json.real (5 / 2))]

/-- The visualization object right after `new VisualizationType(...)` and
`setJpegQuality`. -/
def newVisualization (env : LoadEnv) (p : IsaacPlugin) : Visualization :=
  { name := p.name
    url := p.url
    port := p.port
    framebufferSize := (p.width, p.height)
    globalSize := Vec3.ofFn fun i => (env.grid.windowGlobalSize 0).get i
    localSize := Vec3.ofFn fun i => env.grid.localDomainSize.get i
    particleSize :=
      Vec3.ofFn fun i => Int.tdiv (env.grid.localDomainSize.get i) (env.grid.superCellSize.get i)
    position := Vec3.ofFn fun i => env.grid.localDomainOffset.get i
    jpegQuality := p.jpeg_quality }

/-- The part of `pluginLoad` guarded by `if(rank == 0)` after `init`: the
rotation axis message, the opening of the benchmark file with its header, and
the rendering defaults. -/
def loadRankZero (env : LoadEnv) (p : IsaacPlugin) (v : Visualization) :
    IsaacPlugin × Visualization :=
  if p.rank = 0 then
    let v1 : Visualization := { v with messages := v.messages ++ [initialAxisMessage] }
    if p.timingsFilename ≠ "" then
      let f := timingsHeader.foldl (fun f s => f.put (Chunk.text s))
        (p.timingsFile.openTrunc env.fileOpens)
      ({ p with timingsFile := f },
       { v1 with messages := v1.messages ++ [benchmarkSetupMessage] })
    else (p, v1)
  else (p, v)

/-- The start of `pluginLoad`: rank, process count and the moving window flag. -/
def loadIdentity (env : LoadEnv) (p : IsaacPlugin) : IsaacPlugin :=
  { p with
    rank := env.rank
    numProc := env.numProc
    movingWindow := if env.movingWindowEnabled then true else p.movingWindow }

/-- The visualization object `pluginLoad` builds before calling `init`: created,
given the neighbour table and, on rank 0, the metadata definitions. -/
def loadVisualization (env : LoadEnv) (p : IsaacPlugin) : Visualization :=
  let v1 : Visualization := { newVisualization env p with neighbours := neighbourIds env.grid }
  if p.rank = 0 then { v1 with jsonMetaRoot := defineMeta v1.jsonMetaRoot } else v1

/-- The value `reconnect ? RetryEverySend : ReturnAtError`. -/
def communicatorBehaviour (p : IsaacPlugin) : CommunicatorSetting :=
  if p.reconnect then CommunicatorSetting.RetryEverySend else CommunicatorSetting.ReturnAtError

/-- The statement `if(visualization->init(communicatorBehaviour) != 0)` with
both branches. -/
def loadInit (env : LoadEnv) (p : IsaacPlugin) : IsaacPlugin :=
  if env.initResult (communicatorBehaviour p) ≠ 0 then { p with notifyPeriod := "" }
  else
    { p with
      cellCount := wrapInt32 (env.localNrOfCells * (p.numProc : Int))
      particleCount :=
        wrapInt32 (wrapInt32 (wrapInt32 (env.localNrOfCells * env.typicalParticlesPerCell)
          * env.numSpecies) * (p.numProc : Int))
      lastNotify := env.ticks }

/-- The statement `if(!timingsFilename.empty()) recording = true;`. -/
def loadRecording (p : IsaacPlugin) : IsaacPlugin :=
  if p.timingsFilename ≠ "" then { p with recording := true } else p

/-- The body of `if(!notifyPeriod.empty())` in `pluginLoad`. -/
def loadEnabled (env : LoadEnv) (p : IsaacPlugin) : IsaacPlugin :=
  let p1 := loadIdentity env p
  let r := loadRankZero env (loadInit env p1) (loadVisualization env p1)
  loadRecording { r.1 with visualization := some r.2 }

/-- The call `setNotificationPeriod(this, notifyPeriod)` that ends `pluginLoad`. -/
def registerPeriod (p : IsaacPlugin) : IsaacPlugin :=
  { p with notificationPeriod := some p.notifyPeriod }

/-- The function `pluginLoad()`. -/
def pluginLoad (env : LoadEnv) (p : IsaacPlugin) : IsaacPlugin :=
  registerPeriod (if p.notifyPeriod ≠ "" then loadEnabled env p else p)

/-- The function `pluginUnload()`. -/
def pluginUnload (p : IsaacPlugin) : IsaacPlugin :=
  if p.notifyPeriod ≠ "" then { p with visualization := none } else p

/-! ## Runs of several `notify` calls -/

/-- The plugin after the calls `notify(currentStep)` listed in `calls`, made one
after the other; `none` when one of them does not return. -/
def runNotify : List (NotifyEnv × Nat) → IsaacPlugin → Option IsaacPlugin
  | [], p => some p
  | (env, currentStep) :: rest, p =>
    match notify env currentStep p with
    | Outcome.returned p1 => runNotify rest p1
    | _ => none

/-- The number of `doVisualization` calls made so far. -/
def visCalls (p : IsaacPlugin) : Nat :=
  match p.visualization with
  | some v => v.calls.length
  | none => 0

/-- The number of `MPI_Gather` calls made so far. -/
def gatherCalls (p : IsaacPlugin) : Nat := p.gathers.length

/-! ## Concrete inputs used in the examples -/

/-- A grid of one process with a 64 x 64 x 64 domain. -/
def sampleGrid : Grid :=
  { windowGlobalSize := fun _ => { x := 64, y := 64, z := 64 }
    windowLocalOffset := fun _ => { x := 0, y := 0, z := 0 }
    windowLocalSize := fun _ => { x := 64, y := 64, z := 64 }
    localDomainSize := { x := 64, y := 64, z := 64 }
    localDomainOffset := { x := 0, y := 0, z := 0 }
    superCellSize := { x := 8, y := 8, z := 4 }
    gcPosition := { x := 0, y := 0, z := 0 }
    exchangeTypeToRank := fun _ => 0 }

/-- A frame in which `doVisualization` takes 5 microseconds and returns the
given message. -/
def sampleFrame (message : JsonPtr) : Frame :=
  { ticksBefore := 100
    ticksAfter := 105
    message := message
    times := { kernelTime := 3 }
    gathered := fun _ => [7] }

/-- A `notify` environment with the given frames. -/
def sampleEnv (frames : List Frame) : NotifyEnv :=
  { ticksEntry := 90, frames := frames, ticksExit := 110, grid := sampleGrid }

/-- A start of the plugin on the given rank of two processes. -/
def sampleLoadEnv (rank : Int) (initResult : Int) : LoadEnv :=
  { rank := rank
    numProc := 2
    movingWindowEnabled := false
    grid := sampleGrid
    initResult := fun _ => initResult
    localNrOfCells := 262144
    typicalParticlesPerCell := 2
    numSpecies := 1
    ticks := 50
    fileOpens := true }

/-- The visualization object of the examples. -/
def sampleVisualization : Visualization :=
  newVisualization (sampleLoadEnv 0 0) IsaacPlugin.new

/-- The variables of a pass of the examples: not paused, on the given rank of two
processes. -/
def sampleLoop (rank : Int) : LoopState :=
  { pause := false
    plugin := { IsaacPlugin.new with notifyPeriod := "1", rank := rank, numProc := 2 }
    vis := sampleVisualization }

/-- A message with a single integer member. -/
def integerMessage (key : String) (value : Int) : JsonPtr :=
  some (Json.object [(key, Json.integer value)])

/-- The message that toggles the pause. -/
def pauseMessage : JsonPtr := some (Json.object [("pause", Json.jtrue)])

/-- A plugin as it is after a successful `pluginLoad` on rank 0 of the examples
(render interval 1, no benchmark file). -/
def sampleStarted : IsaacPlugin :=
  pluginLoad (sampleLoadEnv 0 0) { IsaacPlugin.new with notifyPeriod := "1" }

/-- Whether a call of `notify` returned. -/
def Outcome.isReturned (o : Outcome) : Bool :=
  match o with
  | Outcome.returned _ => true
  | _ => false

/-- The plugin `notify` leaves, or the given one when `notify` does not return. -/
def Outcome.returnedOr (o : Outcome) (p : IsaacPlugin) : IsaacPlugin :=
  match o with
  | Outcome.returned q => q
  | _ => p

/-- The example plugin after one `notify` whose message requests the interval 5. -/
def sampleIntervalFive : IsaacPlugin :=
  (notify (sampleEnv [sampleFrame (integerMessage "interval" 5)]) 0 sampleStarted).returnedOr
    sampleStarted

/-- Ten `notify` calls, for the steps 1 to 10, whose frames carry no message. -/
def sampleCalls : List (NotifyEnv × Nat) :=
  (List.range 10).map fun i => (sampleEnv [sampleFrame none], i + 1)

/-- The example plugin after the interval 5 message and `k` further calls. -/
def sampleAfter (k : Nat) : IsaacPlugin :=
  (runNotify (sampleCalls.take k) sampleIntervalFive).getD sampleIntervalFive

/-- The plugin at the point where a call of `notify` ends, however it ends. -/
def Outcome.plugin (o : Outcome) : IsaacPlugin :=
  match o with
  | Outcome.returned p => p
  | Outcome.exited _ p => p
  | Outcome.blocked p => p
  | Outcome.fault p => p

/-- The example plugin after a `pluginLoad` on rank 0 whose `init` fails with
code 1. -/
def sampleFailed : IsaacPlugin :=
  pluginLoad (sampleLoadEnv 0 1) { IsaacPlugin.new with notifyPeriod := "1", reconnect := false }

/-- The six chunks one `writeTimes` call writes on rank 0. -/
def timingChunks (t : Timing) : List Chunk :=
  [Chunk.int t.min, Chunk.text ",", Chunk.int t.max, Chunk.text ",", Chunk.int t.average,
    Chunk.text ","]

/-- The chunks consecutive `writeTimes` calls write on rank 0 for the values
`ts`, the call number `k` gathering `gathered k` from the other ranks. -/
def timesChunks (numProc : Nat) (gathered : Nat → List Int) : Nat → List Int → List Chunk
  | _, [] => []
  | k, t :: ts =>
    timingChunks (reduceTimes numProc (t :: gathered k)) ++ timesChunks numProc gathered (k + 1) ts

/-- The data row `benchmark` writes on rank 0: the run step counter, the
thirty-three timing values, the line end. -/
def benchmarkRow (gathered : Nat → List Int) (p : IsaacPlugin) (v : Visualization) : List Chunk :=
  [Chunk.int p.runSteps, Chunk.text ","]
    ++ timesChunks p.numProc gathered 0 (benchmarkTimes p v) ++ [Chunk.text "\n"]

/-- The example plugin after a successful `pluginLoad` of a benchmark run (a
benchmark file is configured) on the given rank of two processes. -/
def benchStart (rank : Int) : IsaacPlugin :=
  pluginLoad (sampleLoadEnv rank 0)
    { IsaacPlugin.new with notifyPeriod := "1", timingsFilename := "timings.csv" }

/-- The benchmark run of the examples at the moment its run step counter has the
value `r`. -/
def benchAt (rank : Int) (r : Int) : IsaacPlugin :=
  { benchStart rank with runSteps := r }

/-- A `notify` call of the examples: one frame without message. -/
def quietEnv : NotifyEnv := sampleEnv [sampleFrame none]

/-- The example benchmark run at counter value `r`, one `notify` call later. -/
def benchNext (rank : Int) (r : Int) : IsaacPlugin :=
  (notify quietEnv 0 (benchAt rank r)).returnedOr (benchAt rank r)

/-- The example benchmark run at counter value `r`, two `notify` calls later. -/
def benchNextNext (rank : Int) (r : Int) : IsaacPlugin :=
  (notify quietEnv 0 (benchNext rank r)).returnedOr (benchNext rank r)

/-- Twelve `notify` calls of the examples. -/
def quietCalls : List (NotifyEnv × Nat) := List.replicate 12 (quietEnv, 0)

/-- The `notify` calls of a whole benchmark run of the examples: 1451 calls, the
last one with run step counter 1440. -/
def budgetCalls : List (NotifyEnv × Nat) := List.replicate 1451 (quietEnv, 0)

/-- A `notify` call of the examples whose one frame carries a message with the
`interval` 2. -/
def intervalTwoEnv : NotifyEnv := sampleEnv [sampleFrame (integerMessage "interval" 2)]

/-- The first two `notify` calls of the example run with a change of interval:
a call without message, then the call whose message sets the render interval
to 2. -/
def intervalTwoCalls : List (NotifyEnv × Nat) := [(quietEnv, 0), (intervalTwoEnv, 0)]

/-- The example benchmark run on rank 0, started by `pluginLoad`, after these
two calls. -/
def benchIntervalTwo : IsaacPlugin :=
  (runNotify intervalTwoCalls (benchStart 0)).getD (benchStart 0)

/-- The 1450 `notify` calls without message that follow the two. -/
def laterCalls : List (NotifyEnv × Nat) := List.replicate 1450 (quietEnv, 0)

/-- The whole example run with a change of interval: 1452 `notify` calls, one
more than the benchmark run with interval 1 needs to reach its end. -/
def intervalTwoRun : List (NotifyEnv × Nat) := intervalTwoCalls ++ laterCalls

/-! ## Source adapters -/

/-- The component-wise sum of two index vectors, in `int` arithmetic. -/
def Vec3.add (a b : Vec3) : Vec3 :=
  { x := wrapInt32 (a.x + b.x), y := wrapInt32 (a.y + b.y), z := wrapInt32 (a.z + b.z) }

/-- The component-wise product of two index vectors, in `int` arithmetic. -/
def Vec3.mul (a b : Vec3) : Vec3 :=
  { x := wrapInt32 (a.x * b.x), y := wrapInt32 (a.y * b.y), z := wrapInt32 (a.z * b.z) }

/-- A data box on the device: what `box[z][y][x]` reads at the index
`(x, y, z)`. -/
structure DataBox (α : Type) where
  read : Vec3 → α

/-- The call `dataBox.shift(offset)`: the box whose origin is moved by `offset`. -/
def DataBox.shift {α : Type} (b : DataBox α) (offset : Vec3) : DataBox α :=
  { read := fun i => b.read (i.add offset) }

/-- A three component value of a field (`float3_X`); `F` stands for the floating
point type. -/
structure Float3 (F : Type) where
  x : F
  y : F
  z : F

/-- The part of `MappingDesc` the sources use. -/
structure MappingDesc where
  guardingSuperCells : Vec3

/-- What the simulation holds while a source is updated: the box of the field
behind `dc.get<FieldType>`, the box of `FieldTmp` slot 0, the particles box,
and the number of times `waitForFinished` has been called. -/
structure SimData (F Box : Type) where
  fieldBox : DataBox (Float3 F)
  fieldTmpBox : DataBox F
  particlesBox : Box
  waits : Nat

/-- The constants and solvers a source update uses: `SuperCellSize::toRT()`,
`GuardSize::toRT()`, and the content `FieldTmp` has after `setValue(0)`,
`computeValue` for the given step and the communication of its borders. -/
structure SourceEnv (F : Type) where
  superCellSize : Vec3
  guardSize : Vec3
  computeValue : Nat → DataBox F

/-- The class `TFieldSource<FieldType>` (and, member for member,
`TVectorFieldSource<FieldType>`). -/
structure TFieldSource (F : Type) where
  shifted : DataBox (Float3 F)
  cellDescription : Option MappingDesc

/-- The function `TFieldSource::update(enabled, pointer)`; `none` stands for the
dereference of a null `cellDescription`. -/
def TFieldSource.update {F Box : Type} (enabled : Bool) (env : SourceEnv F)
    (sim : SimData F Box) (s : TFieldSource F) : Option (TFieldSource F × SimData F Box) :=
  if enabled then
    match s.cellDescription with
    | none => none
    | some cd =>
      some ({ s with shifted := sim.fieldBox.shift (env.superCellSize.mul cd.guardingSuperCells) },
        { sim with waits := sim.waits + 1 })
  else some (s, sim)

/-- The function `TFieldSource::operator[]`: the three components of
`shifted[nIndex.z][nIndex.y][nIndex.x]`. -/
def TFieldSource.sample {F : Type} (s : TFieldSource F) (nIndex : Vec3) : Float3 F :=
  { x := (s.shifted.read nIndex).x, y := (s.shifted.read nIndex).y,
    z := (s.shifted.read nIndex).z }

/-- The class `TVectorFieldSource<FieldType>`. -/
structure TVectorFieldSource (F : Type) where
  shifted : DataBox (Float3 F)
  cellDescription : Option MappingDesc

/-- The function `TVectorFieldSource::update(enabled, pointer)`. -/
def TVectorFieldSource.update {F Box : Type} (enabled : Bool) (env : SourceEnv F)
    (sim : SimData F Box) (s : TVectorFieldSource F) :
    Option (TVectorFieldSource F × SimData F Box) :=
  if enabled then
    match s.cellDescription with
    | none => none
    | some cd =>
      some ({ s with shifted := sim.fieldBox.shift (env.superCellSize.mul cd.guardingSuperCells) },
        { sim with waits := sim.waits + 1 })
  else some (s, sim)

/-- The function `TVectorFieldSource::operator[]`. -/
def TVectorFieldSource.sample {F : Type} (s : TVectorFieldSource F) (nIndex : Vec3) : Float3 F :=
  { x := (s.shifted.read nIndex).x, y := (s.shifted.read nIndex).y,
    z := (s.shifted.read nIndex).z }

/-- The specialization `TFieldSource<FieldTmpOperation<...>>`. -/
structure TFieldTmpSource (F : Type) where
  shifted : DataBox F
  cellDescription : Option MappingDesc

/-- The function `update(enabled, pointer)` of the `FieldTmpOperation`
specialization; `currentStep` is what `pointer` points to.  The derived field
is recomputed before the box is taken. -/
def TFieldTmpSource.update {F Box : Type} (enabled : Bool) (currentStep : Nat)
    (env : SourceEnv F) (sim : SimData F Box) (s : TFieldTmpSource F) :
    Option (TFieldTmpSource F × SimData F Box) :=
  if enabled then
    let sim1 : SimData F Box :=
      { sim with fieldTmpBox := env.computeValue currentStep, waits := sim.waits + 1 }
    match s.cellDescription with
    | none => none
    | some cd =>
      some ({ s with
              shifted := sim1.fieldTmpBox.shift (env.superCellSize.mul cd.guardingSuperCells) },
        sim1)
  else some (s, sim)

/-- The function `operator[]` of the `FieldTmpOperation` specialization: the one
component of `shifted[nIndex.z][nIndex.y][nIndex.x]`. -/
def TFieldTmpSource.sample {F : Type} (s : TFieldTmpSource F) (nIndex : Vec3) : F :=
  s.shifted.read nIndex

/-- The part of a particles box the iterator uses: the particle count and the
first frame of a super cell, and the frame that follows a frame. -/
structure ParticlesBox (Frame : Type) where
  numParticles : Vec3 → Nat
  getFirstFrame : Vec3 → Frame
  getNextFrame : Frame → Frame

/-- The class `ParticleIterator`. -/
structure ParticleIterator (Frame : Type) where
  size : Nat
  pb : ParticlesBox Frame
  frame : Frame
  i : Int
  frameSize : Int

/-- The function `ParticleIterator::next()`. -/
def ParticleIterator.next {Frame : Type} (it : ParticleIterator Frame) : ParticleIterator Frame :=
  if wrapInt32 (it.i + 1) ≥ it.frameSize then
    { it with frame := it.pb.getNextFrame it.frame, i := 0 }
  else { it with i := wrapInt32 (it.i + 1) }

/-- The class `ParticleSource<ParticlesType>`. -/
structure ParticleSource (Frame : Type) where
  guarding : Vec3
  pb : ParticlesBox Frame

/-- The function `ParticleSource::update(enabled, pointer)`. -/
def ParticleSource.update {F Frame : Type} (enabled : Bool) (env : SourceEnv F)
    (sim : SimData F (ParticlesBox Frame)) (s : ParticleSource Frame) :
    ParticleSource Frame × SimData F (ParticlesBox Frame) :=
  if enabled then ({ s with pb := sim.particlesBox, guarding := env.guardSize }, sim)
  else (s, sim)

/-- The function `ParticleSource::getIterator(local_grid_coord)`; `frameSize` is
the volume of the super cell. -/
def ParticleSource.getIterator {Frame : Type} (frameSize : Nat) (s : ParticleSource Frame)
    (local_grid_coord : Vec3) : ParticleIterator Frame :=
  { size := s.pb.numParticles (local_grid_coord.add s.guarding)
    pb := s.pb
    frame := s.pb.getFirstFrame (local_grid_coord.add s.guarding)
    i := 0
    frameSize := wrapInt32 (frameSize : Int) }

/-- The iterator after `k` calls of `next()`. -/
def ParticleIterator.advance {Frame : Type} : Nat → ParticleIterator Frame → ParticleIterator Frame
  | 0, it => it
  | k + 1, it => (ParticleIterator.advance k it).next

/-- A particles box whose frames are numbered: every super cell starts at frame
0 and frame `n + 1` follows frame `n`. -/
def sampleParticlesBox : ParticlesBox Nat :=
  { numParticles := fun _ => 300, getFirstFrame := fun _ => 0, getNextFrame := fun n => n + 1 }

/-- A particle source on the numbered frames with one guard super cell. -/
def sampleParticleSource : ParticleSource Nat :=
  { guarding := { x := 1, y := 1, z := 1 }, pb := sampleParticlesBox }

/-- The keys of a JSON object, in the order of its members (no key for a value
that is not an object). -/
def Json.keys : Json → List String
  | Json.object members => members.map Prod.fst
  | _ => []

/-- The keys of the messages a plugin has handed to the communicator, message by
message. -/
def messageKeys (p : IsaacPlugin) : List (List String) :=
  match p.visualization with
  | some v => v.messages.map Json.keys
  | none => []

/-- A grid of a moving window run: a local domain of 64 x 128 x 64 cells of
which the window covers the 96 cells from offset 32 on along `y`; `gcY` is the
position of the process along `y`. -/
def sampleWindowGrid (gcY : Int) : Grid :=
  { windowGlobalSize := fun _ => { x := 64, y := 224, z := 64 }
    windowLocalOffset := fun _ => { x := 0, y := 32, z := 0 }
    windowLocalSize := fun _ => { x := 64, y := 96, z := 64 }
    localDomainSize := { x := 64, y := 128, z := 64 }
    localDomainOffset := { x := 0, y := 0, z := 0 }
    superCellSize := { x := 8, y := 8, z := 4 }
    gcPosition := { x := 0, y := gcY, z := 0 }
    exchangeTypeToRank := fun e => if e = 0 then 0 else -1 }

/-- The variables of a pass of the examples in a moving window run. -/
def sampleWindowLoop : LoopState :=
  { sampleLoop 0 with plugin := { (sampleLoop 0).plugin with movingWindow := true } }

/-- The variables of the first pass of the examples when `directPause` is set. -/
def sampleDirectPause : LoopState :=
  { sampleLoop 0 with plugin := { (sampleLoop 0).plugin with directPause := true } }

/-- The keys of the JSON meta root of the visualization of a plugin, in the
order of the members. -/
def metaKeys (p : IsaacPlugin) : List String :=
  match p.visualization with
  | some v => v.jsonMetaRoot.map Prod.fst
  | none => []

/-- The two passes of the examples that end a loop paused by `directPause`: a
frame without message, then a frame whose message toggles the pause. -/
def sampleResumeFrames : List Frame := [sampleFrame none, sampleFrame pauseMessage]

/-! ## `CartNavigator` (`pmacc/cuSTL/cursor/navigator/CartNavigator.hpp`) -/

/-- The type `math::Int<dim>`: a vector of `dim` components of type `int`. -/
abbrev IntVec (dim : Nat) : Type := Fin dim → Int

/-- The vector `math::Int<dim>::create(0)`, all of whose components are 0. -/
def IntVec.zero {dim : Nat} : IntVec dim := fun _ => 0

/-- Modelled from the spec: the operator `+` of `math::Int<dim>`, declared in
`pmacc/math/vector`, which is not among the sources: the componentwise sum,
computed in `int`. -/
def IntVec.add {dim : Nat} (a b : IntVec dim) : IntVec dim :=
  fun i => wrapInt32 (a i + b i)

/-- Modelled from the spec: the helper `pmacc::math::dot` of `pmacc/math/vector`,
which is not among the sources: the sum of the componentwise products of two
vectors of the same dimension, accumulated in `int` from the first component
on. -/
def math.dot {dim : Nat} (lhs rhs : IntVec dim) : Int :=
  (List.finRange dim).foldl (fun result i => wrapInt32 (result + wrapInt32 (lhs i * rhs i))) 0

/-- The sum of the componentwise products as an integer of unbounded size: the
number of bytes a jump stands for. -/
def byteOffset {dim : Nat} (jump factor : IntVec dim) : Int :=
  ((List.finRange dim).map fun i => jump i * factor i).sum

/-- The class `CartNavigator<T_dim>`: its one member is `factor`. -/
structure CartNavigator (dim : Nat) where
  factor : IntVec dim

/-- The constructor `CartNavigator(math::Int<dim> factor)`. -/
def CartNavigator.new {dim : Nat} (factor : IntVec dim) : CartNavigator dim :=
  { factor := factor }

/-- The member function `getFactor()`. -/
def CartNavigator.getFactor {dim : Nat} (n : CartNavigator dim) : IntVec dim := n.factor

/-- The call operator `operator()(data, jump)`, `data` being the address the
pointer holds: the pointer is cast to `char*`, the `int` that `dot` returns is
added to it, and the result is cast back.  Addresses have 64 bits. -/
def CartNavigator.navigate {dim : Nat} (n : CartNavigator dim) (data : Nat)
    (jump : IntVec dim) : Nat :=
  wrapUInt64 ((data : Int) + math.dot jump n.factor)

/-- A navigator over rows of 1 MiB (one dimension). -/
def sampleNavigator : CartNavigator 1 := CartNavigator.new fun _ => 1048576

/-- A jump over 1536 rows. -/
def sampleJump : IntVec 1 := fun _ => 1536

/-- The stride factor of the pitched example buffer: 4 bytes per element, 256
bytes per row. -/
def samplePitch : IntVec 2 := fun i => if i = 0 then 4 else 256

/-- A jump by 3 elements and 2 rows. -/
def sampleJumpA : IntVec 2 := fun i => if i = 0 then 3 else 2

/-- A jump back by 1 element and on by 1 row. -/
def sampleJumpB : IntVec 2 := fun i => if i = 0 then -1 else 1

/-- Modelled from the spec: the `onStep` of the specification, which in the
code is the dispatch of the plugin connector (`PluginConnector`, in
`pmacc/pluginSystem`, not among the sources).  The connector notifies a plugin
only under the period the plugin registered with `setNotificationPeriod`: a
plugin that registered no period or the empty period is not called and the
step goes on at once; otherwise `notify` is called when the step-multiple
predicate `due` of the period holds for the step. -/
def onStep (due : String → Nat → Bool) (env : NotifyEnv) (currentStep : Nat)
    (p : IsaacPlugin) : Outcome :=
  match p.notificationPeriod with
  | some period =>
    if period ≠ "" ∧ due period currentStep = true then notify env currentStep p
    else Outcome.returned p
  | none => Outcome.returned p

/-! ## Machine integer facts -/

/-- The reduction `wrapInt32` written with a shift: the usual formula for the
two's complement value. -/
theorem wrapInt32_eq (x : Int) :
    wrapInt32 x = (x + 2147483648) % 4294967296 - 2147483648 := by
  unfold wrapInt32
  split <;> omega

theorem wrapInt32_of_isInt32 {x : Int} (h : isInt32 x) : wrapInt32 x = x := by
  unfold isInt32 INT_MIN INT_MAX at h
  rw [wrapInt32_eq]
  omega

theorem wrapInt32_add_left (a t : Int) : wrapInt32 (wrapInt32 a + t) = wrapInt32 (a + t) := by
  rw [wrapInt32_eq, wrapInt32_eq, wrapInt32_eq]
  omega

theorem isInt32_wrapInt32 (x : Int) : isInt32 (wrapInt32 x) := by
  unfold isInt32 INT_MIN INT_MAX
  rw [wrapInt32_eq]
  omega

/-! ## The loop of `writeTimes` -/

theorem foldl_accumulate_average (ts : List Int) (a : Timing) :
    wrapInt32 (ts.foldl accumulate a).average = wrapInt32 (a.average + ts.sum) := by
  induction ts generalizing a with
  | nil => simp
  | cons t ts ih =>
    rw [List.foldl_cons, ih, List.sum_cons]
    show wrapInt32 (wrapInt32 (a.average + t) + ts.sum) = _
    rw [wrapInt32_add_left, add_assoc]

theorem foldl_accumulate_average_isInt32 (ts : List Int) (a : Timing) (h : isInt32 a.average) :
    isInt32 (ts.foldl accumulate a).average := by
  induction ts generalizing a with
  | nil => simpa using h
  | cons t ts ih =>
    rw [List.foldl_cons]
    exact ih _ (isInt32_wrapInt32 _)

theorem foldl_accumulate_min (ts : List Int) (a : Timing) :
    ((ts.foldl accumulate a).min = a.min ∨ (ts.foldl accumulate a).min ∈ ts)
      ∧ (ts.foldl accumulate a).min ≤ a.min
      ∧ ∀ t ∈ ts, (ts.foldl accumulate a).min ≤ t := by
  induction ts generalizing a with
  | nil => simp
  | cons t ts ih =>
    rw [List.foldl_cons]
    obtain ⟨h1, h2, h3⟩ := ih (accumulate a t)
    have hm : (accumulate a t).min = if t < a.min then t else a.min := rfl
    refine ⟨?_, ?_, ?_⟩
    · rcases h1 with h1 | h1
      · rw [h1, hm]
        split
        · right; simp
        · left; rfl
      · right; exact List.mem_cons_of_mem _ h1
    · rw [hm] at h2
      split at h2 <;> omega
    · intro u hu
      rcases List.mem_cons.mp hu with rfl | hu
      · rw [hm] at h2
        split at h2 <;> omega
      · exact h3 u hu

theorem foldl_accumulate_max (ts : List Int) (a : Timing) :
    ((ts.foldl accumulate a).max = a.max ∨ (ts.foldl accumulate a).max ∈ ts)
      ∧ a.max ≤ (ts.foldl accumulate a).max
      ∧ ∀ t ∈ ts, t ≤ (ts.foldl accumulate a).max := by
  induction ts generalizing a with
  | nil => simp
  | cons t ts ih =>
    rw [List.foldl_cons]
    obtain ⟨h1, h2, h3⟩ := ih (accumulate a t)
    have hm : (accumulate a t).max = if t > a.max then t else a.max := rfl
    refine ⟨?_, ?_, ?_⟩
    · rcases h1 with h1 | h1
      · rw [h1, hm]
        split
        · right; simp
        · left; rfl
      · right; exact List.mem_cons_of_mem _ h1
    · rw [hm] at h2
      split at h2 <;> omega
    · intro u hu
      rcases List.mem_cons.mp hu with rfl | hu
      · rw [hm] at h2
        split at h2 <;> omega
      · exact h3 u hu

theorem sum_ge_length_mul (ts : List Int) (m : Int) (h : ∀ t ∈ ts, m ≤ t) :
    (ts.length : Int) * m ≤ ts.sum := by
  induction ts with
  | nil => simp
  | cons t ts ih =>
    have h1 := h t (List.mem_cons_self _ _)
    have h2 := ih fun u hu => h u (List.mem_cons_of_mem _ hu)
    simp only [List.length_cons, List.sum_cons]
    push_cast
    linarith

theorem sum_le_length_mul (ts : List Int) (m : Int) (h : ∀ t ∈ ts, t ≤ m) :
    ts.sum ≤ (ts.length : Int) * m := by
  induction ts with
  | nil => simp
  | cons t ts ih =>
    have h1 := h t (List.mem_cons_self _ _)
    have h2 := ih fun u hu => h u (List.mem_cons_of_mem _ hu)
    simp only [List.length_cons, List.sum_cons]
    push_cast
    linarith

/-- Truncating division of a sum that lies between `n * lo` and `n * hi`, with
`hi` not negative, lies between `lo` and `hi`. -/
theorem tdiv_between (s lo hi : Int) (n : Nat) (hn : 1 ≤ n) (hlo : (n : Int) * lo ≤ s)
    (hhi : s ≤ (n : Int) * hi) (h0 : 0 ≤ hi) : lo ≤ Int.tdiv s n ∧ Int.tdiv s n ≤ hi := by
  have hnpos : (0 : Int) < n := by exact_mod_cast hn
  rcases le_or_lt 0 s with hs | hs
  · rw [Int.tdiv_eq_ediv hs (le_of_lt hnpos)]
    constructor
    · exact Int.le_ediv_of_mul_le hnpos (by linarith [mul_comm (n : Int) lo])
    · exact Int.ediv_le_of_le_mul hnpos (by linarith [mul_comm (n : Int) hi])
  · have hneg : Int.tdiv s n = -((-s) / (n : Int)) := by
      have h1 : s = -(-s) := by ring
      conv_lhs => rw [h1, Int.neg_tdiv]
      rw [Int.tdiv_eq_ediv (by linarith) (le_of_lt hnpos)]
    rw [hneg]
    have hq : 0 ≤ (-s) / (n : Int) := Int.ediv_nonneg (by linarith) (le_of_lt hnpos)
    constructor
    · have : (-s) / (n : Int) ≤ -lo :=
        Int.ediv_le_of_le_mul hnpos (by linarith [mul_comm (n : Int) lo])
      linarith
    · linarith

theorem reduceTimes_full (times : List Int) :
    reduceTimes times.length times =
      { (times.foldl accumulate { min := INT_MAX, max := 0, average := 0 }) with
        average := wrapInt32 (Int.tdiv
          (times.foldl accumulate { min := INT_MAX, max := 0, average := 0 }).average
          (times.length : Int)) } := by
  unfold reduceTimes
  simp

/-- Without overflow of the accumulator the values `writeTimes` computes on
rank 0 are ordered, `min ≤ average ≤ max`, for samples of either sign. -/
theorem reduceTimes_ordered (numProc : Nat) (times : List Int) (hP : 1 ≤ numProc)
    (hlen : times.length = numProc) (hint : ∀ t ∈ times, isInt32 t)
    (hsum : isInt32 times.sum) :
    (reduceTimes numProc times).min ≤ (reduceTimes numProc times).average
      ∧ (reduceTimes numProc times).average ≤ (reduceTimes numProc times).max := by
  subst hlen
  rw [reduceTimes_full]
  obtain ⟨hmin1, -, hmin3⟩ :=
    foldl_accumulate_min times { min := INT_MAX, max := 0, average := 0 }
  obtain ⟨hmax1, hmax2, hmax3⟩ :=
    foldl_accumulate_max times { min := INT_MAX, max := 0, average := 0 }
  have havg := foldl_accumulate_average times { min := INT_MAX, max := 0, average := 0 }
  have hin := foldl_accumulate_average_isInt32 times
    { min := INT_MAX, max := 0, average := 0 } (by decide)
  rw [wrapInt32_of_isInt32 hin] at havg
  simp only [zero_add] at havg
  rw [wrapInt32_of_isInt32 hsum] at havg
  generalize times.foldl accumulate { min := INT_MAX, max := 0, average := 0 } = r at *
  have hb := tdiv_between times.sum r.min r.max times.length hP
    (sum_ge_length_mul times r.min hmin3) (sum_le_length_mul times r.max hmax3) hmax2
  have hlo : INT_MIN ≤ r.min := by
    rcases hmin1 with h | h
    · rw [h]; decide
    · exact (hint _ h).1
  have hhi : r.max ≤ INT_MAX := by
    rcases hmax1 with h | h
    · rw [h]; decide
    · exact (hint _ h).2
  have hq : isInt32 (Int.tdiv r.average times.length) := by
    rw [havg]
    exact ⟨le_trans hlo hb.1, le_trans hb.2 hhi⟩
  show r.min ≤ wrapInt32 _ ∧ wrapInt32 _ ≤ r.max
  rw [wrapInt32_of_isInt32 hq, havg]
  exact hb

/-- C1 (the code breaks the claim): with two processes that each report
1500000000 microseconds the 32 bit accumulator `average` of `writeTimes` wraps
around, rank 0 writes minimum 1500000000, maximum 1500000000 and average
-647483648, and the minimum is not below the average. -/
theorem writeTimes_average_overflow :
    reduceTimes 2 [1500000000, 1500000000]
        = { min := 1500000000, max := 1500000000, average := -647483648 }
      ∧ (writeTimes [1500000000] 1500000000
          { IsaacPlugin.new with rank := 0, numProc := 2, timingsFile := { isOpen := true } }
          ).timingsFile.content
        = [Chunk.int 1500000000, Chunk.text ",", Chunk.int 1500000000, Chunk.text ",",
            Chunk.int (-647483648), Chunk.text ","]
      ∧ ¬ ((reduceTimes 2 [1500000000, 1500000000]).min
            ≤ (reduceTimes 2 [1500000000, 1500000000]).average) := by
  refine ⟨by decide, by decide, by decide⟩

theorem put_open (f : OFStream) (c : Chunk) (hopen : f.isOpen = true)
    (hgood : f.fail = false) :
    f.put c = { isOpen := true, fail := false, content := f.content ++ [c] } := by
  cases f
  simp_all [OFStream.put]

theorem writeTimes_rank_zero_open (others : List Int) (time : Int) (p : IsaacPlugin)
    (hrank : p.rank = 0) (hopen : p.timingsFile.isOpen = true)
    (hgood : p.timingsFile.fail = false) :
    writeTimes others time p =
      { p with
        gathers := p.gathers ++ [time]
        timingsFile :=
          { isOpen := true
            fail := false
            content := p.timingsFile.content ++
              [Chunk.int (reduceTimes p.numProc (time :: others)).min, Chunk.text ",",
               Chunk.int (reduceTimes p.numProc (time :: others)).max, Chunk.text ",",
               Chunk.int (reduceTimes p.numProc (time :: others)).average, Chunk.text ","] } } := by
  unfold writeTimes
  rw [if_pos hrank]
  simp [put_open, hopen, hgood]

/-- C2: for `numProc ≥ 1` samples that are not negative and whose sum fits in a
32 bit `int`, the computation of `writeTimes` on rank 0 yields a minimum that is
a sample below all samples, a maximum that is a sample above all samples, and
the quotient `sum / numProc` as average; these three values, each followed by a
comma, are what `writeTimes` appends to the open benchmark file. -/
theorem writeTimes_emits_min_max_mean (numProc : Nat) (times : List Int) (hP : 1 ≤ numProc)
    (hlen : times.length = numProc) (hnonneg : ∀ t ∈ times, 0 ≤ t)
    (hsum : times.sum ≤ INT_MAX) :
    ((reduceTimes numProc times).min ∈ times ∧ ∀ t ∈ times, (reduceTimes numProc times).min ≤ t)
      ∧ ((reduceTimes numProc times).max ∈ times
          ∧ ∀ t ∈ times, t ≤ (reduceTimes numProc times).max)
      ∧ (reduceTimes numProc times).average = times.sum / (numProc : Int)
      ∧ ∀ (p : IsaacPlugin) (time : Int) (others : List Int),
          p.rank = 0 → p.numProc = numProc → time :: others = times →
          p.timingsFile.isOpen = true → p.timingsFile.fail = false →
          (writeTimes others time p).timingsFile.content
            = p.timingsFile.content ++
              [Chunk.int (reduceTimes numProc times).min, Chunk.text ",",
               Chunk.int (reduceTimes numProc times).max, Chunk.text ",",
               Chunk.int (times.sum / (numProc : Int)), Chunk.text ","] := by
  have hsum0 : 0 ≤ times.sum := List.sum_nonneg hnonneg
  have hle : ∀ t ∈ times, t ≤ INT_MAX := by
    intro t ht
    have h1 := List.single_le_sum hnonneg t ht
    exact le_trans h1 hsum
  have hne : times ≠ [] := by
    intro h
    rw [h] at hlen
    simp at hlen
    omega
  have hint : ∀ t ∈ times, isInt32 t := fun t ht =>
    ⟨le_trans (by decide) (hnonneg t ht), hle t ht⟩
  have hsumInt : isInt32 times.sum := ⟨le_trans (by decide) hsum0, hsum⟩
  have havgEq : (reduceTimes numProc times).average = times.sum / (numProc : Int) := by
    subst hlen
    rw [reduceTimes_full]
    have havg := foldl_accumulate_average times { min := INT_MAX, max := 0, average := 0 }
    have hin := foldl_accumulate_average_isInt32 times
      { min := INT_MAX, max := 0, average := 0 } (by decide)
    rw [wrapInt32_of_isInt32 hin] at havg
    simp only [zero_add] at havg
    rw [wrapInt32_of_isInt32 hsumInt] at havg
    show wrapInt32 (Int.tdiv _ _) = _
    rw [havg, Int.tdiv_eq_ediv hsum0 (by omega)]
    apply wrapInt32_of_isInt32
    have hq0 : 0 ≤ times.sum / (times.length : Int) := Int.ediv_nonneg hsum0 (by omega)
    have hq1 : times.sum / (times.length : Int) ≤ times.sum :=
      Int.ediv_le_self _ hsum0
    exact ⟨le_trans (by decide) hq0, le_trans hq1 hsum⟩
  have hminmax :
      (reduceTimes numProc times).min
          = (times.foldl accumulate { min := INT_MAX, max := 0, average := 0 }).min
        ∧ (reduceTimes numProc times).max
          = (times.foldl accumulate { min := INT_MAX, max := 0, average := 0 }).max := by
    subst hlen
    rw [reduceTimes_full]
    exact ⟨rfl, rfl⟩
  obtain ⟨hmin1, -, hmin3⟩ :=
    foldl_accumulate_min times { min := INT_MAX, max := 0, average := 0 }
  obtain ⟨hmax1, -, hmax3⟩ :=
    foldl_accumulate_max times { min := INT_MAX, max := 0, average := 0 }
  obtain ⟨t0, ht0⟩ := List.exists_mem_of_ne_nil times hne
  refine ⟨⟨?_, ?_⟩, ⟨?_, ?_⟩, havgEq, ?_⟩
  · rw [hminmax.1]
    rcases hmin1 with h | h
    · have h1 := hmin3 t0 ht0
      have h2 := hle t0 ht0
      rw [h] at h1
      have h3 : t0 = INT_MAX := le_antisymm h2 h1
      rw [h, ← h3]
      exact ht0
    · exact h
  · rw [hminmax.1]
    exact hmin3
  · rw [hminmax.2]
    rcases hmax1 with h | h
    · have h1 := hmax3 t0 ht0
      have h2 := hnonneg t0 ht0
      rw [h] at h1
      have h3 : t0 = 0 := le_antisymm h1 h2
      rw [h, ← h3]
      exact ht0
    · exact h
  · rw [hminmax.2]
    exact hmax3
  · intro p time others hrank hnum htimes hopen hgood
    rw [writeTimes_rank_zero_open others time p hrank hopen hgood, hnum, htimes, havgEq]

/-- C2 at the samples 10, 20, 30, 40 of four processes: minimum 10, maximum 40,
average 25, written in this order to the open benchmark file. -/
theorem writeTimes_emits_min_max_mean_witness :
    reduceTimes 4 [10, 20, 30, 40] = { min := 10, max := 40, average := 25 }
      ∧ (writeTimes [20, 30, 40] 10
          { IsaacPlugin.new with rank := 0, numProc := 4, timingsFile := { isOpen := true } }
          ).timingsFile.content
        = [] ++ [Chunk.int (reduceTimes 4 [10, 20, 30, 40]).min, Chunk.text ",",
            Chunk.int (reduceTimes 4 [10, 20, 30, 40]).max, Chunk.text ",",
            Chunk.int (([10, 20, 30, 40] : List Int).sum / ((4 : Nat) : Int)), Chunk.text ","] :=
  ⟨by decide,
   (writeTimes_emits_min_max_mean 4 [10, 20, 30, 40] (by decide) (by decide) (by decide)
     (by decide)).2.2.2
     { IsaacPlugin.new with rank := 0, numProc := 4, timingsFile := { isOpen := true } }
     10 [20, 30, 40] rfl rfl rfl rfl rfl⟩

/-! ## The decoding of a message -/

theorem lookupKey_append_new (key : String) (value : Json) (members : List (String × Json))
    (h : lookupKey key members = none) :
    lookupKey key (members ++ [(key, value)]) = some value := by
  induction members with
  | nil => simp [lookupKey]
  | cons kv rest ih =>
    obtain ⟨k, v⟩ := kv
    by_cases hk : k = key
    · simp [lookupKey, hk] at h
    · simp only [lookupKey, hk, if_false, List.cons_append] at h ⊢
      exact ih h

theorem lookupKey_replaceKey (key : String) (value : Json) (members : List (String × Json))
    (h : (lookupKey key members).isSome = true) :
    lookupKey key (replaceKey key value members) = some value := by
  induction members with
  | nil => simp [lookupKey] at h
  | cons kv rest ih =>
    obtain ⟨k, v⟩ := kv
    by_cases hk : k = key
    · simp [lookupKey, replaceKey, hk]
    · simp only [lookupKey, replaceKey, hk, if_false] at h ⊢
      exact ih h

theorem lookupKey_set_new (members : List (String × Json)) (key : String) (value : Json) :
    lookupKey key (json_object_set_new members key value) = some value := by
  unfold json_object_set_new
  cases h : lookupKey key members with
  | none => exact lookupKey_append_new key value members h
  | some w => exact lookupKey_replaceKey key value members (by simp [h])

theorem lookupKey_absent (key : String) (members : List (String × Json))
    (h : ∀ kv ∈ members, kv.1 ≠ key) : lookupKey key members = none := by
  induction members with
  | nil => rfl
  | cons kv rest ih =>
    obtain ⟨k, v⟩ := kv
    have hk : k ≠ key := h (k, v) (List.mem_cons_self _ _)
    simp only [lookupKey, hk, if_false]
    exact ih fun kv hkv => h kv (List.mem_cons_of_mem _ hkv)

theorem clamp_interval (js : Json) :
    ((requestedInterval js : Nat) : Int) = max 1 (wrapInt32 (json_integer_value (some js))) := by
  have h := isInt32_wrapInt32 (json_integer_value (some js))
  unfold isInt32 INT_MIN INT_MAX at h
  unfold requestedInterval wrapUInt32
  rcases le_total 1 (wrapInt32 (json_integer_value (some js))) with h1 | h1
  · rw [max_eq_right h1]; omega
  · rw [max_eq_left h1]; omega

theorem decodePause_truthy (message : JsonPtr) (pause : Bool)
    (h : json_boolean_value (json_object_get message "pause") = true) :
    decodePause message pause = !pause := by
  unfold decodePause
  cases message with
  | none => simp [json_object_get, json_boolean_value] at h
  | some j =>
    cases hget : json_object_get (some j) "pause" with
    | none => rw [hget] at h; simp [json_boolean_value] at h
    | some w => rw [hget] at h; simp [h]

theorem decodePause_absent (message : JsonPtr) (pause : Bool)
    (h : json_object_get message "pause" = none) : decodePause message pause = pause := by
  unfold decodePause
  simp [h]

theorem decodeInterval_pause (message : JsonPtr) (s : LoopState) :
    (decodeInterval message s).pause = s.pause := by
  unfold decodeInterval
  split <;> rfl

theorem decodeInterval_absent (message : JsonPtr) (s : LoopState)
    (h : json_object_get message "interval" = none) : decodeInterval message s = s := by
  unfold decodeInterval
  simp [h]

theorem decodeInterval_directPause (message : JsonPtr) (s : LoopState) :
    (decodeInterval message s).plugin.directPause = s.plugin.directPause := by
  unfold decodeInterval
  split <;> rfl

theorem decodeInterval_present (message : JsonPtr) (js : Json) (s : LoopState)
    (h : json_object_get message "interval" = some js) :
    decodeInterval message s =
      { s with
        plugin :=
          { s.plugin with renderInterval := requestedInterval js }
        vis :=
          if s.plugin.rank = 0 then
            { s.vis with
              jsonMetaRoot :=
                json_object_set_new s.vis.jsonMetaRoot "interval"
                  (Json.integer (requestedInterval js)) }
          else s.vis } := by
  have hsome : message.isSome = true := by
    cases message with
    | none => simp [json_object_get] at h
    | some j => rfl
  unfold decodeInterval
  simp only [hsome, if_true, h]

theorem finishPass_state_pause (message : JsonPtr) (s : LoopState) :
    (finishPass message s).state.pause
      = (if exitRequested message = false ∧ s.plugin.directPause = true then true
         else decodePause message s.pause) := by
  unfold finishPass decodeMessage
  cases hexit : exitRequested message with
  | true => simp [Decoded.state]
  | false =>
    simp only [Bool.false_eq_true, if_false, Decoded.state, applyDirectPause, true_and]
    rw [decodeInterval_directPause]
    cases hd : s.plugin.directPause with
    | true => simp
    | false => simp [decodeInterval_pause]

theorem finishPass_next (message : JsonPtr) (s : LoopState)
    (hexit : exitRequested message = false) :
    finishPass message s
      = Decoded.next (applyDirectPause
          (decodeInterval message { s with pause := decodePause message s.pause })) := by
  unfold finishPass decodeMessage
  simp [hexit]

theorem finishPass_exit (message : JsonPtr) (s : LoopState)
    (hexit : exitRequested message = true) :
    finishPass message s = Decoded.exit { s with pause := decodePause message s.pause } := by
  unfold finishPass decodeMessage
  simp [hexit]

/-! ## What `writeTimes` and `benchmark` leave unchanged -/

theorem writeTimes_frame (others : List Int) (time : Int) (p : IsaacPlugin) :
    ∃ f, writeTimes others time p
      = { p with gathers := p.gathers ++ [time], timingsFile := f } := by
  unfold writeTimes
  split
  · exact ⟨_, rfl⟩
  · exact ⟨p.timingsFile, rfl⟩

theorem writeAllTimes_frame (gathered : Nat → List Int) (k : Nat) (ts : List Int)
    (p : IsaacPlugin) :
    ∃ f, writeAllTimes gathered k ts p
      = { p with gathers := p.gathers ++ ts, timingsFile := f } := by
  induction ts generalizing k p with
  | nil => exact ⟨p.timingsFile, by simp [writeAllTimes]⟩
  | cons t ts ih =>
    obtain ⟨f1, h1⟩ := writeTimes_frame (gathered k) t p
    obtain ⟨f2, h2⟩ := ih (k + 1) (writeTimes (gathered k) t p)
    refine ⟨f2, ?_⟩
    rw [writeAllTimes, h2, h1]
    simp

/-- The effect of `benchmark` on everything but the benchmark file: eleven
gathers when it is active, none otherwise; only `recording`, the file and the
outgoing messages can change besides. -/
theorem benchmark_frame (gathered : Nat → List Int) (pause : Bool) (p : IsaacPlugin)
    (v : Visualization) :
    ∃ f r ms, benchmark gathered pause p v
      = ({ p with
            gathers := p.gathers ++
              (if (p.recording && !pause && decide (0 ≤ p.runSteps)) = true
                then benchmarkTimes p v else [])
            timingsFile := f
            recording := r },
         { v with messages := ms }) := by
  by_cases hc : (p.recording && !pause && decide (0 ≤ p.runSteps)) = true
  · have hp0 : ∃ f0, benchmarkHead p = { p with timingsFile := f0 } := by
      unfold benchmarkHead
      split
      · exact ⟨_, rfl⟩
      · exact ⟨p.timingsFile, rfl⟩
    have hv1 : ∃ ms, benchmarkMessage p v = { v with messages := ms } := by
      unfold benchmarkMessage
      split
      · exact ⟨_, rfl⟩
      · exact ⟨v.messages, rfl⟩
    have hclose : ∀ q : IsaacPlugin, ∃ f r,
        benchmarkClose q = { q with timingsFile := f, recording := r } := by
      intro q
      unfold benchmarkClose
      split
      · exact ⟨_, _, rfl⟩
      · exact ⟨q.timingsFile, q.recording, rfl⟩
    obtain ⟨f0, hp0⟩ := hp0
    obtain ⟨ms, hv1⟩ := hv1
    obtain ⟨f1, h1⟩ := writeAllTimes_frame gathered 0 (benchmarkTimes p v)
      { p with timingsFile := f0 }
    obtain ⟨f2, r2, h2⟩ := hclose
      (endRow (writeAllTimes gathered 0 (benchmarkTimes p v) (benchmarkHead p)))
    refine ⟨f2, r2, ms, ?_⟩
    unfold benchmark
    rw [if_pos hc, if_pos hc, h2, hv1, hp0, h1]
    rfl
  · unfold benchmark
    rw [if_neg hc, if_neg hc]
    exact ⟨p.timingsFile, p.recording, v.messages, by simp⟩

theorem exitRequested_iff (message : JsonPtr) :
    exitRequested message = true ↔
      ∃ members v, message = some (Json.object members)
        ∧ lookupKey "exit" members = some (Json.integer v) ∧ v ≠ 0 := by
  constructor
  · intro h
    cases message with
    | none => simp [exitRequested] at h
    | some j =>
      cases j with
      | object members =>
        cases hl : lookupKey "exit" members with
        | none => simp [exitRequested, json_object_get, json_integer_value, hl] at h
        | some w =>
          cases w with
          | integer v =>
            refine ⟨members, v, rfl, hl, ?_⟩
            simpa [exitRequested, json_object_get, json_integer_value, hl] using h
          | _ => simp [exitRequested, json_object_get, json_integer_value, hl] at h
      | _ => simp [exitRequested, json_object_get, json_integer_value] at h
  · rintro ⟨members, v, rfl, hl, hv⟩
    simp [exitRequested, json_object_get, json_integer_value, hl, hv]

theorem applyDirectPause_directPause (s : LoopState) :
    (applyDirectPause s).plugin.directPause = false := by
  unfold applyDirectPause
  split
  · rfl
  · rename_i h
    simpa using h

theorem applyDirectPause_of_false (s : LoopState) (h : s.plugin.directPause = false) :
    applyDirectPause s = s := by
  unfold applyDirectPause
  simp [h]

theorem applyDirectPause_renderInterval (s : LoopState) :
    (applyDirectPause s).plugin.renderInterval = s.plugin.renderInterval
      ∧ (applyDirectPause s).vis = s.vis
      ∧ (applyDirectPause s).plugin.rank = s.plugin.rank := by
  unfold applyDirectPause
  split <;> exact ⟨rfl, rfl, rfl⟩

theorem decodeMessage_state_pause (message : JsonPtr) (s : LoopState) :
    (decodeMessage message s).state.pause = decodePause message s.pause := by
  unfold decodeMessage
  split
  · rfl
  · simp [Decoded.state, decodeInterval_pause]

/-- C3 (amended): a message with an `interval` key and no exit request is decoded
without terminating; afterwards the render interval is at least 1 and equals
`max(1, int(v))` for the requested value `v` converted to a 32 bit `int` (so
`max(1, v)` for every `v` in the `int` range, and 1 for a requested 0); on rank 0
the `interval` entry of the outbound metadata then holds that effective
interval, and on any other rank the visualization is left as it was. -/
theorem interval_clamped_and_echoed (message : JsonPtr) (js : Json) (s : LoopState)
    (hkey : json_object_get message "interval" = some js)
    (hexit : exitRequested message = false) :
    ∃ s1, finishPass message s = Decoded.next s1
      ∧ 1 ≤ s1.plugin.renderInterval
      ∧ (s1.plugin.renderInterval : Int) = max 1 (wrapInt32 (json_integer_value (some js)))
      ∧ (∀ v, js = Json.integer v → isInt32 v → (s1.plugin.renderInterval : Int) = max 1 v)
      ∧ (s.plugin.rank = 0 →
          lookupKey "interval" s1.vis.jsonMetaRoot
            = some (Json.integer s1.plugin.renderInterval))
      ∧ (s.plugin.rank ≠ 0 → s1.vis = s.vis) := by
  refine ⟨_, finishPass_next message s hexit, ?_⟩
  obtain ⟨hr, hv, -⟩ := applyDirectPause_renderInterval
    (decodeInterval message { s with pause := decodePause message s.pause })
  rw [hr, hv, decodeInterval_present message js _ hkey]
  have hc := clamp_interval js
  refine ⟨?_, hc, ?_, ?_, ?_⟩
  · have h1 : (1 : Int) ≤ max 1 (wrapInt32 (json_integer_value (some js))) := le_max_left _ _
    show 1 ≤ requestedInterval js
    omega
  · intro v hjs hv32
    show ((requestedInterval js : Nat) : Int) = _
    rw [hc, hjs]
    show max 1 (wrapInt32 v) = max 1 v
    rw [wrapInt32_of_isInt32 hv32]
  · intro h0
    show lookupKey "interval" (if s.plugin.rank = 0 then _ else s.vis).jsonMetaRoot = _
    rw [if_pos h0]
    exact lookupKey_set_new _ _ _
  · intro h0
    show (if s.plugin.rank = 0 then _ else s.vis) = s.vis
    rw [if_neg h0]

/-- C3 at a requested interval 0 on rank 0: the effective interval is 1. -/
theorem interval_clamped_and_echoed_witness :
    (finishPass (integerMessage "interval" 0) (sampleLoop 0)).state.plugin.renderInterval = 1
      ∧ ∃ s1, finishPass (integerMessage "interval" 0) (sampleLoop 0) = Decoded.next s1
        ∧ 1 ≤ s1.plugin.renderInterval
        ∧ (s1.plugin.renderInterval : Int)
            = max 1 (wrapInt32 (json_integer_value (some (Json.integer 0))))
        ∧ (∀ v, Json.integer 0 = Json.integer v → isInt32 v →
            (s1.plugin.renderInterval : Int) = max 1 v)
        ∧ ((sampleLoop 0).plugin.rank = 0 →
            lookupKey "interval" s1.vis.jsonMetaRoot
              = some (Json.integer s1.plugin.renderInterval))
        ∧ ((sampleLoop 0).plugin.rank ≠ 0 → s1.vis = (sampleLoop 0).vis) :=
  ⟨by decide,
   interval_clamped_and_echoed (integerMessage "interval" 0) (Json.integer 0) (sampleLoop 0)
     rfl rfl⟩

/-- C3 (as stated it fails): the requested interval 4294967296 is a JSON integer
outside the `int` range; the conversion `int(...)` turns it into 0 and the
effective interval is 1, not `max(1, 4294967296)`. -/
theorem interval_beyond_int_range :
    json_object_get (integerMessage "interval" 4294967296) "interval"
        = some (Json.integer 4294967296)
      ∧ (finishPass (integerMessage "interval" 4294967296) (sampleLoop 0)
          ).state.plugin.renderInterval = 1
      ∧ ((finishPass (integerMessage "interval" 4294967296) (sampleLoop 0)
          ).state.plugin.renderInterval : Int) ≠ max 1 4294967296 :=
  ⟨rfl, by decide, by decide⟩

/-- C4: a message whose `pause` value is true flips the pause flag.  For every
state the decoding of one such message changes the flag and the decoding of a
second one restores it; the same holds for the whole end of a pass (decoding
followed by the `directPause` block) in every state the loop can be in, that
is whenever `directPause` is set only while `pause` is still false. -/
theorem pause_toggle_involution (m1 m2 : JsonPtr) (s : LoopState)
    (h1 : json_boolean_value (json_object_get m1 "pause") = true)
    (h2 : json_boolean_value (json_object_get m2 "pause") = true) :
    decodePause m1 s.pause = !s.pause
      ∧ (decodeMessage m1 s).state.pause ≠ s.pause
      ∧ (decodeMessage m2 (decodeMessage m1 s).state).state.pause = s.pause
      ∧ ((s.plugin.directPause = true → s.pause = false) →
          (finishPass m1 s).state.pause ≠ s.pause
          ∧ (exitRequested m1 = false →
              (finishPass m2 (finishPass m1 s).state).state.pause = s.pause)) := by
  have hp1 := decodePause_truthy m1 s.pause h1
  refine ⟨hp1, ?_, ?_, ?_⟩
  · rw [decodeMessage_state_pause, hp1]
    cases s.pause <;> simp
  · rw [decodeMessage_state_pause, decodePause_truthy m2 _ h2, decodeMessage_state_pause, hp1]
    simp
  · intro hinv
    have hfirst : (finishPass m1 s).state.pause = !s.pause := by
      rw [finishPass_state_pause, hp1]
      split
      · rename_i hc
        rw [hinv hc.2]
        rfl
      · rfl
    refine ⟨?_, ?_⟩
    · rw [hfirst]
      cases s.pause <;> simp
    · intro hexit
      have hd : (finishPass m1 s).state.plugin.directPause = false := by
        rw [finishPass_next m1 s hexit]
        exact applyDirectPause_directPause _
      rw [finishPass_state_pause, decodePause_truthy m2 _ h2, hfirst, hd]
      simp

/-- C4 on the concrete pause message: two of them bring a pass that is not paused
back to not paused. -/
theorem pause_toggle_involution_witness :
    decodePause pauseMessage (sampleLoop 0).pause = !(sampleLoop 0).pause
      ∧ (decodeMessage pauseMessage (sampleLoop 0)).state.pause ≠ (sampleLoop 0).pause
      ∧ (decodeMessage pauseMessage (decodeMessage pauseMessage (sampleLoop 0)).state).state.pause
          = (sampleLoop 0).pause
      ∧ (((sampleLoop 0).plugin.directPause = true → (sampleLoop 0).pause = false) →
          (finishPass pauseMessage (sampleLoop 0)).state.pause ≠ (sampleLoop 0).pause
          ∧ (exitRequested pauseMessage = false →
              (finishPass pauseMessage (finishPass pauseMessage (sampleLoop 0)).state).state.pause
                = (sampleLoop 0).pause)) :=
  pause_toggle_involution pauseMessage pauseMessage (sampleLoop 0) rfl rfl

/-- C5: with `directPause` not set, the end of a pass leaves the render interval
(and the visualization) as it was when the message has no `interval` key,
leaves the pause flag as it was when the message has no `pause` key, and for a
null message or an object without the keys `pause`, `exit` and `interval` it
goes on, without terminating, in exactly the state it started from. -/
theorem absent_keys_keep_state (message : JsonPtr) (s : LoopState)
    (hd : s.plugin.directPause = false) :
    (json_object_get message "interval" = none →
        (finishPass message s).state.plugin.renderInterval = s.plugin.renderInterval
          ∧ (finishPass message s).state.vis = s.vis)
      ∧ (json_object_get message "pause" = none → (finishPass message s).state.pause = s.pause)
      ∧ ((message = none ∨ ∃ members, message = some (Json.object members)
            ∧ ∀ kv ∈ members, kv.1 ≠ "pause" ∧ kv.1 ≠ "exit" ∧ kv.1 ≠ "interval") →
          finishPass message s = Decoded.next s) := by
  refine ⟨?_, ?_, ?_⟩
  · intro hi
    cases hexit : exitRequested message with
    | true => rw [finishPass_exit message s hexit]; exact ⟨rfl, rfl⟩
    | false =>
      rw [finishPass_next message s hexit, decodeInterval_absent message _ hi]
      rw [applyDirectPause_of_false _ (show
        ({ s with pause := decodePause message s.pause } : LoopState).plugin.directPause = false
        from hd)]
      exact ⟨rfl, rfl⟩
  · intro hp
    rw [finishPass_state_pause, hd, decodePause_absent message _ hp]
    simp
  · intro h
    have hkeys : json_object_get message "pause" = none
        ∧ json_object_get message "exit" = none
        ∧ json_object_get message "interval" = none := by
      rcases h with rfl | ⟨members, rfl, hm⟩
      · exact ⟨rfl, rfl, rfl⟩
      · exact ⟨lookupKey_absent _ _ fun kv hkv => (hm kv hkv).1,
          lookupKey_absent _ _ fun kv hkv => (hm kv hkv).2.1,
          lookupKey_absent _ _ fun kv hkv => (hm kv hkv).2.2⟩
    have hexit : exitRequested message = false := by
      unfold exitRequested
      rw [hkeys.2.1]
      simp [json_integer_value]
    rw [finishPass_next message s hexit, decodeInterval_absent message _ hkeys.2.2,
      decodePause_absent message _ hkeys.1]
    rw [applyDirectPause_of_false _ hd]

/-- C5 on a message with the single unknown key `zoom`. -/
theorem absent_keys_keep_state_witness :
    (json_object_get (integerMessage "zoom" 3) "interval" = none →
        (finishPass (integerMessage "zoom" 3) (sampleLoop 1)).state.plugin.renderInterval
            = (sampleLoop 1).plugin.renderInterval
          ∧ (finishPass (integerMessage "zoom" 3) (sampleLoop 1)).state.vis = (sampleLoop 1).vis)
      ∧ (json_object_get (integerMessage "zoom" 3) "pause" = none →
          (finishPass (integerMessage "zoom" 3) (sampleLoop 1)).state.pause = (sampleLoop 1).pause)
      ∧ ((integerMessage "zoom" 3 = none ∨ ∃ members,
            integerMessage "zoom" 3 = some (Json.object members)
            ∧ ∀ kv ∈ members, kv.1 ≠ "pause" ∧ kv.1 ≠ "exit" ∧ kv.1 ≠ "interval") →
          finishPass (integerMessage "zoom" 3) (sampleLoop 1) = Decoded.next (sampleLoop 1)) :=
  absent_keys_keep_state (integerMessage "zoom" 3) (sampleLoop 1) rfl

/-! ## The pieces of a pass -/

theorem benchmarkPass_frame (f : Frame) (s : LoopState) :
    ∃ file r ms, benchmarkPass f s
      = { s with
          plugin :=
            { s.plugin with
              gathers := s.plugin.gathers ++
                (if (s.plugin.recording && !s.pause && decide (0 ≤ s.plugin.runSteps)) = true
                  then benchmarkTimes s.plugin s.vis else [])
              timingsFile := file
              recording := r }
          vis := { s.vis with messages := ms } } := by
  obtain ⟨file, r, ms, h⟩ := benchmark_frame f.gathered s.pause s.plugin s.vis
  refine ⟨file, r, ms, ?_⟩
  unfold benchmarkPass
  rw [h]

theorem beginPass_plugin (grid : Grid) (currentStep : Nat) (f : Frame) (s : LoopState) :
    (beginPass grid currentStep f s).plugin
      = { s.plugin with
          drawingTime :=
            wrapInt32 (wrapUInt64 ((f.ticksAfter : Int) - (f.ticksBefore : Int))) } := rfl

theorem beginPass_pause (grid : Grid) (currentStep : Nat) (f : Frame) (s : LoopState) :
    (beginPass grid currentStep f s).pause = s.pause := rfl

theorem benchmarkPass_renderInterval (f : Frame) (s : LoopState) :
    (benchmarkPass f s).plugin.renderInterval = s.plugin.renderInterval := by
  obtain ⟨file, r, ms, h⟩ := benchmarkPass_frame f s
  rw [h]

/-- C6: the end of a pass calls `exit` exactly when the message is an object
whose `exit` member is a JSON integer different from 0; the state at that
point has the plugin members and the visualization untouched by the message
(the `interval` of the same message is not applied, nothing is echoed), and
the loop ends in `exit(1)` with the render interval it started with. -/
theorem exit_iff_nonzero_exit_key (message : JsonPtr) (s : LoopState) :
    ((∃ s1, finishPass message s = Decoded.exit s1) ↔
        ∃ members v, message = some (Json.object members)
          ∧ lookupKey "exit" members = some (Json.integer v) ∧ v ≠ 0)
      ∧ (∀ s1, finishPass message s = Decoded.exit s1 → s1.plugin = s.plugin ∧ s1.vis = s.vis)
      ∧ ((∃ members v, message = some (Json.object members)
            ∧ lookupKey "exit" members = some (Json.integer v) ∧ v ≠ 0) →
          ∀ (grid : Grid) (currentStep : Nat) (f : Frame) (fs : List Frame) (s0 : LoopState),
            f.message = message →
            ∃ p, renderLoop grid currentStep (f :: fs) s0 = Outcome.exited 1 p
              ∧ p.renderInterval = s0.plugin.renderInterval) := by
  refine ⟨?_, ?_, ?_⟩
  · rw [← exitRequested_iff]
    cases hexit : exitRequested message with
    | true =>
      rw [finishPass_exit message s hexit]
      simp
    | false =>
      rw [finishPass_next message s hexit]
      simp
  · intro s1 h
    cases hexit : exitRequested message with
    | true =>
      rw [finishPass_exit message s hexit] at h
      injection h with h
      rw [← h]
      exact ⟨rfl, rfl⟩
    | false =>
      rw [finishPass_next message s hexit] at h
      cases h
  · intro hcond grid currentStep f fs s0 hf
    have hexit : exitRequested f.message = true := by
      rw [hf]
      exact (exitRequested_iff message).mpr hcond
    have hloop : renderLoop grid currentStep (f :: fs) s0
        = Outcome.exited 1
            (LoopState.store
              { benchmarkPass f (beginPass grid currentStep f s0) with
                pause := decodePause f.message
                  (benchmarkPass f (beginPass grid currentStep f s0)).pause }) := by
      rw [renderLoop, renderPass, finishPass_exit _ _ hexit]
    refine ⟨_, hloop, ?_⟩
    show (benchmarkPass f (beginPass grid currentStep f s0)).plugin.renderInterval = _
    rw [benchmarkPass_renderInterval, beginPass_plugin]

/-- C6 on the message with `exit` equal to 1 that also carries an interval. -/
theorem exit_discards_interval_example :
    (∃ s1,
        finishPass (some (Json.object [("exit", Json.integer 1), ("interval", Json.integer 5)]))
          (sampleLoop 0) = Decoded.exit s1)
      ∧ (finishPass (some (Json.object [("exit", Json.integer 1), ("interval", Json.integer 5)]))
          (sampleLoop 0)).state.plugin.renderInterval = 1 :=
  ⟨((exit_iff_nonzero_exit_key
      (some (Json.object [("exit", Json.integer 1), ("interval", Json.integer 5)]))
      (sampleLoop 0)).1).mpr ⟨_, 1, rfl, rfl, by decide⟩, by decide⟩

theorem beginPass_calls (grid : Grid) (currentStep : Nat) (f : Frame) (s : LoopState) :
    (beginPass grid currentStep f s).vis.calls = s.vis.calls ++ [(currentStep, !s.pause)] := by
  unfold beginPass
  dsimp only
  split <;> split <;> rfl

theorem applyDirectPause_frame (s : LoopState) :
    (∃ dp, (applyDirectPause s).plugin = { s.plugin with directPause := dp })
      ∧ (applyDirectPause s).vis = s.vis := by
  unfold applyDirectPause
  split
  · exact ⟨⟨_, rfl⟩, rfl⟩
  · exact ⟨⟨s.plugin.directPause, rfl⟩, rfl⟩

theorem decodeInterval_frame (message : JsonPtr) (s : LoopState) :
    (∃ ri, (decodeInterval message s).plugin = { s.plugin with renderInterval := ri })
      ∧ (∃ root, (decodeInterval message s).vis = { s.vis with jsonMetaRoot := root })
      ∧ ((decodeInterval message s).plugin.renderInterval = s.plugin.renderInterval
          ∨ ∃ js, json_object_get message "interval" = some js
              ∧ (decodeInterval message s).plugin.renderInterval = requestedInterval js) := by
  cases hi : json_object_get message "interval" with
  | none =>
    rw [decodeInterval_absent _ _ hi]
    exact ⟨⟨s.plugin.renderInterval, rfl⟩, ⟨s.vis.jsonMetaRoot, rfl⟩, Or.inl rfl⟩
  | some js =>
    rw [decodeInterval_present _ js _ hi]
    refine ⟨⟨_, rfl⟩, ?_, Or.inr ⟨js, rfl, rfl⟩⟩
    show ∃ root, (if s.plugin.rank = 0 then _ else s.vis) = _
    split
    · exact ⟨_, rfl⟩
    · exact ⟨s.vis.jsonMetaRoot, rfl⟩

/-- What the end of a pass that goes on can change: of the plugin members the
render interval and `directPause`, of the visualization the metadata. -/
theorem finishPass_next_frame (message : JsonPtr) (s s1 : LoopState)
    (h : finishPass message s = Decoded.next s1) :
    (∃ ri dp, s1.plugin = { s.plugin with renderInterval := ri, directPause := dp })
      ∧ (∃ root, s1.vis = { s.vis with jsonMetaRoot := root })
      ∧ (s1.plugin.renderInterval = s.plugin.renderInterval
          ∨ ∃ js, json_object_get message "interval" = some js
              ∧ s1.plugin.renderInterval = requestedInterval js) := by
  have hexit : exitRequested message = false := by
    cases hx : exitRequested message with
    | false => rfl
    | true => rw [finishPass_exit _ _ hx] at h; cases h
  rw [finishPass_next _ _ hexit] at h
  injection h with h
  subst h
  obtain ⟨⟨dp, hdp⟩, hv⟩ := applyDirectPause_frame
    (decodeInterval message { s with pause := decodePause message s.pause })
  obtain ⟨⟨ri, hri⟩, ⟨root, hroot⟩, hor⟩ := decodeInterval_frame message
    { s with pause := decodePause message s.pause }
  refine ⟨⟨ri, dp, ?_⟩, ⟨root, ?_⟩, ?_⟩
  · rw [hdp, hri]
  · rw [hv, hroot]
  · rw [hdp]
    exact hor

/-- What a pass that goes on can change of the plugin members: the render
interval, `directPause`, `drawingTime`, `recording`, the benchmark file and the
gather log; it adds exactly one `doVisualization` call. -/
theorem renderPass_next_frame (grid : Grid) (currentStep : Nat) (f : Frame) (s s1 : LoopState)
    (h : renderPass grid currentStep f s = Decoded.next s1) :
    (∃ ri dp dt file r g, s1.plugin
        = { s.plugin with
            renderInterval := ri, directPause := dp, drawingTime := dt, timingsFile := file,
            recording := r, gathers := g })
      ∧ s1.vis.calls = s.vis.calls ++ [(currentStep, !s.pause)]
      ∧ (s1.plugin.renderInterval = s.plugin.renderInterval
          ∨ ∃ js, json_object_get f.message "interval" = some js
              ∧ s1.plugin.renderInterval = requestedInterval js) := by
  unfold renderPass at h
  obtain ⟨⟨ri, dp, hplug⟩, ⟨root, hvis⟩, hri⟩ := finishPass_next_frame _ _ _ h
  obtain ⟨file, r, ms, hb⟩ := benchmarkPass_frame f (beginPass grid currentStep f s)
  have hbp : (benchmarkPass f (beginPass grid currentStep f s)).plugin
      = { (beginPass grid currentStep f s).plugin with
          gathers := (beginPass grid currentStep f s).plugin.gathers ++
            (if ((beginPass grid currentStep f s).plugin.recording
                && !(beginPass grid currentStep f s).pause
                && decide (0 ≤ (beginPass grid currentStep f s).plugin.runSteps)) = true
              then benchmarkTimes (beginPass grid currentStep f s).plugin
                (beginPass grid currentStep f s).vis else [])
          timingsFile := file
          recording := r } := by
    rw [hb]
  have hbv : (benchmarkPass f (beginPass grid currentStep f s)).vis
      = { (beginPass grid currentStep f s).vis with messages := ms } := by
    rw [hb]
  refine ⟨?_, ?_, ?_⟩
  · rw [hplug, hbp, beginPass_plugin]
    exact ⟨_, _, _, _, _, _, rfl⟩
  · rw [hvis, hbv]
    exact beginPass_calls grid currentStep f s
  · rw [benchmarkPass_renderInterval, beginPass_plugin] at hri
    exact hri

/-- A loop that returns has made at least one `doVisualization` call and has
left the plugin members outside the listed ones alone; when every interval a
message carries is the current one, the render interval is unchanged. -/
theorem renderLoop_returned_frame (grid : Grid) (currentStep : Nat) (frames : List Frame)
    (s : LoopState) (p2 : IsaacPlugin)
    (h : renderLoop grid currentStep frames s = Outcome.returned p2) :
    (∃ ri dp dt file r g v2, p2
        = { s.plugin with
            renderInterval := ri, directPause := dp, drawingTime := dt, timingsFile := file,
            recording := r, gathers := g, visualization := some v2 }
        ∧ s.vis.calls.length < v2.calls.length)
      ∧ ((∀ f ∈ frames, ∀ js, json_object_get f.message "interval" = some js →
            requestedInterval js = s.plugin.renderInterval) →
          p2.renderInterval = s.plugin.renderInterval) := by
  induction frames generalizing s with
  | nil => simp [renderLoop] at h
  | cons f fs ih =>
    rw [renderLoop] at h
    cases hp : renderPass grid currentStep f s with
    | exit s1 => rw [hp] at h; simp at h
    | next s1 =>
      rw [hp] at h
      obtain ⟨⟨ri, dp, dt, file, r, g, hs1⟩, hcalls, hri⟩ :=
        renderPass_next_frame grid currentStep f s s1 hp
      have hlen : s1.vis.calls.length = s.vis.calls.length + 1 := by
        rw [hcalls]; simp
      simp only [] at h
      by_cases hpause : s1.pause = true
      · rw [if_pos hpause] at h
        obtain ⟨⟨ri2, dp2, dt2, file2, r2, g2, v2, hp2, hv2⟩, hkeep⟩ := ih s1 h
        refine ⟨⟨ri2, dp2, dt2, file2, r2, g2, v2, ?_, by omega⟩, ?_⟩
        · rw [hp2, hs1]
        · intro hall
          have h1 : s1.plugin.renderInterval = s.plugin.renderInterval := by
            rcases hri with hri | ⟨js, hjs, hri⟩
            · exact hri
            · rw [hri]; exact hall f (List.mem_cons_self _ _) js hjs
          rw [← h1]
          apply hkeep
          intro f2 hf2 js hjs
          rw [h1]
          exact hall f2 (List.mem_cons_of_mem _ hf2) js hjs
      · rw [if_neg hpause] at h
        injection h with h
        subst h
        refine ⟨⟨ri, dp, dt, file, r, g, s1.vis, ?_, by omega⟩, ?_⟩
        · unfold LoopState.store
          rw [hs1]
        · intro hall
          show s1.plugin.renderInterval = _
          rcases hri with hri | ⟨js, hjs, hri⟩
          · exact hri
          · rw [hri]; exact hall f (List.mem_cons_self _ _) js hjs

theorem wrapUInt32_succ (k : Nat) (h : k + 1 < 4294967296) :
    wrapUInt32 ((k : Int) + 1) = k + 1 := by
  unfold wrapUInt32
  omega

theorem enterNotify_step (env : NotifyEnv) (p : IsaacPlugin) (h : p.step + 1 < 4294967296) :
    (enterNotify env p).step = p.step + 1 := by
  show wrapUInt32 ((p.step : Int) + 1) = p.step + 1
  exact wrapUInt32_succ p.step h

/-- A call of `notify` whose render cycle is due and whose visualization
exists is the loop followed by the two closing statements. -/
theorem notify_due (env : NotifyEnv) (currentStep : Nat) (p : IsaacPlugin) (v : Visualization)
    (hdue : (enterNotify env p).step ≥ (enterNotify env p).renderInterval)
    (hv : p.visualization = some v) :
    notify env currentStep p
      = match renderLoop env.grid currentStep env.frames (startCycle (enterNotify env p) v) with
        | Outcome.returned p2 => Outcome.returned (finishNotify env.ticksExit p2)
        | o => o := by
  have hv1 : (enterNotify env p).visualization = some v := hv
  unfold notify
  rw [if_pos hdue]
  split
  · rename_i h; rw [hv1] at h; cases h
  · rename_i w h
    rw [hv1] at h
    injection h with h
    rw [h]

/-- A call of `notify` whose render cycle is not due returns at once. -/
theorem notify_idle (env : NotifyEnv) (currentStep : Nat) (p : IsaacPlugin)
    (hidle : ¬ (enterNotify env p).step ≥ (enterNotify env p).renderInterval) :
    notify env currentStep p
      = Outcome.returned (finishNotify env.ticksExit (enterNotify env p)) := by
  unfold notify
  rw [if_neg hidle]

/-- One call of `notify` that returns, seen from the step counter: below the
render interval the counter advances and nothing is visualized; on reaching it
the counter is reset and at least one visualization is made. -/
theorem notify_returned_step (env : NotifyEnv) (currentStep : Nat) (p p1 : IsaacPlugin)
    (n : Nat) (hn32 : n < 4294967296) (hint : p.renderInterval = n) (hstep : p.step < n)
    (hkeep : ∀ f ∈ env.frames, ∀ js, json_object_get f.message "interval" = some js →
      requestedInterval js = n)
    (h : notify env currentStep p = Outcome.returned p1) :
    p1.renderInterval = n
      ∧ (p.step + 1 = n → p1.step = 0 ∧ visCalls p < visCalls p1)
      ∧ (p.step + 1 < n → p1.step = p.step + 1 ∧ visCalls p1 = visCalls p) := by
  have hs : (enterNotify env p).step = p.step + 1 := enterNotify_step env p (by omega)
  have hr : (enterNotify env p).renderInterval = n := hint
  by_cases hdue : p.step + 1 ≥ n
  · have heq : p.step + 1 = n := by omega
    have hdue1 : (enterNotify env p).step ≥ (enterNotify env p).renderInterval := by
      rw [hs, hr]; exact hdue
    cases hv : p.visualization with
    | none =>
      have hv1 : (enterNotify env p).visualization = none := hv
      unfold notify at h
      rw [if_pos hdue1] at h
      split at h
      · cases h
      · rename_i w hw; rw [hv1] at hw; cases hw
    | some v =>
      rw [notify_due env currentStep p v hdue1 hv] at h
      cases hl : renderLoop env.grid currentStep env.frames (startCycle (enterNotify env p) v) with
      | returned p2 =>
        rw [hl] at h
        injection h with h
        obtain ⟨⟨ri, dp, dt, file, r, g, v2, hp2, hv2⟩, hkeep2⟩ :=
          renderLoop_returned_frame _ _ _ _ _ hl
        have hri : p2.renderInterval = n := by
          rw [hkeep2 (by
            intro f hf js hjs
            rw [hkeep f hf js hjs]
            exact hint.symm)]
          exact hint
        subst h
        refine ⟨hri, ?_, ?_⟩
        · intro _
          refine ⟨?_, ?_⟩
          · show p2.step = 0
            rw [hp2]
            rfl
          · show visCalls p < visCalls (finishNotify env.ticksExit p2)
            have h1 : visCalls (finishNotify env.ticksExit p2) = v2.calls.length := by
              rw [hp2]; rfl
            have h2 : visCalls p = v.calls.length := by
              unfold visCalls; rw [hv]
            rw [h1, h2]
            exact hv2
        · intro hlt
          omega
      | exited c p2 => rw [hl] at h; cases h
      | blocked p2 => rw [hl] at h; cases h
      | fault p2 => rw [hl] at h; cases h
  · have hidle : ¬ (enterNotify env p).step ≥ (enterNotify env p).renderInterval := by
      rw [hs, hr]; exact hdue
    rw [notify_idle env currentStep p hidle] at h
    injection h with h
    subst h
    refine ⟨hint, ?_, ?_⟩
    · intro heq
      omega
    · intro _
      exact ⟨hs, rfl⟩

/-! ## Runs of `notify` calls -/

theorem runNotify_append (a b : List (NotifyEnv × Nat)) (p : IsaacPlugin) :
    runNotify (a ++ b) p = (runNotify a p).bind (runNotify b) := by
  induction a generalizing p with
  | nil => rfl
  | cons e rest ih =>
    obtain ⟨env, c⟩ := e
    simp only [List.cons_append, runNotify]
    cases notify env c p with
    | returned p1 => exact ih p1
    | exited code p1 => rfl
    | blocked p1 => rfl
    | fault p1 => rfl

theorem runNotify_take_succ (calls : List (NotifyEnv × Nat)) (k : Nat) (hk : k < calls.length)
    (p : IsaacPlugin) :
    runNotify (calls.take (k + 1)) p
      = (runNotify (calls.take k) p).bind fun pk =>
          match notify calls[k].1 calls[k].2 pk with
          | Outcome.returned p1 => some p1
          | _ => none := by
  rw [List.take_succ, runNotify_append, List.getElem?_eq_getElem hk]
  cases runNotify (calls.take k) p with
  | none => rfl
  | some pk =>
    simp only [Option.bind, Option.toList, runNotify]
    cases notify calls[k].1 calls[k].2 pk <;> rfl

/-- The step counter after `k` calls that all returned, when no message changed
the render interval `n`: it is `k mod n`. -/
theorem runNotify_step (n : Nat) (hn : 1 ≤ n) (hn32 : n < 4294967296)
    (calls : List (NotifyEnv × Nat)) (p : IsaacPlugin) (hstep : p.step = 0)
    (hint : p.renderInterval = n)
    (hkeep : ∀ e ∈ calls, ∀ f ∈ e.1.frames, ∀ js,
      json_object_get f.message "interval" = some js → requestedInterval js = n)
    (k : Nat) (hk : k ≤ calls.length) (pk : IsaacPlugin)
    (hpk : runNotify (calls.take k) p = some pk) :
    pk.renderInterval = n ∧ pk.step = k % n := by
  induction k generalizing pk with
  | zero =>
    simp [runNotify] at hpk
    subst hpk
    exact ⟨hint, by simp [hstep]⟩
  | succ k ih =>
    have hlt : k < calls.length := hk
    rw [runNotify_take_succ calls k hlt] at hpk
    cases hq : runNotify (calls.take k) p with
    | none => rw [hq] at hpk; simp at hpk
    | some q =>
      rw [hq] at hpk
      simp only [Option.bind] at hpk
      obtain ⟨hqi, hqs⟩ := ih (by omega) q hq
      have hmod : k % n < n := Nat.mod_lt _ (by omega)
      cases ho : notify calls[k].1 calls[k].2 q with
      | returned p1 =>
        rw [ho] at hpk
        injection hpk with hpk
        subst hpk
        obtain ⟨h1, h2, h3⟩ := notify_returned_step calls[k].1 calls[k].2 q p1 n hn32 hqi
          (by omega) (hkeep calls[k] (List.getElem_mem _)) ho
        refine ⟨h1, ?_⟩
        have hsucc : (k + 1) % n = (k % n + 1) % n := by
          conv_lhs => rw [← Nat.div_add_mod k n]
          rw [Nat.add_assoc, Nat.mul_add_mod]
        rw [hsucc]
        by_cases hc : k % n + 1 = n
        · rw [(h2 (by omega)).1, hc, Nat.mod_self]
        · have hlt2 : k % n + 1 < n := by omega
          rw [(h3 (by omega)).1, hqs, Nat.mod_eq_of_lt hlt2]
      | exited c p1 => rw [ho] at hpk; simp at hpk
      | blocked p1 => rw [ho] at hpk; simp at hpk
      | fault p1 => rw [ho] at hpk; simp at hpk

/-- C7: start with step counter 0 and render interval `n ≥ 1` and let no message
carry another interval.  Whenever the first `k` calls of `notify` have returned
and the next one returns, that call (number `k + 1`) leaves the interval at
`n` and the counter at `(k + 1) mod n`; it makes at least one visualization and
resets the counter to 0 when `n` divides `k + 1`, and it makes no
visualization otherwise. -/
theorem render_every_nth_call (n : Nat) (hn : 1 ≤ n) (hn32 : n < 4294967296)
    (calls : List (NotifyEnv × Nat)) (p : IsaacPlugin) (hstep : p.step = 0)
    (hint : p.renderInterval = n)
    (hkeep : ∀ e ∈ calls, ∀ f ∈ e.1.frames, ∀ js,
      json_object_get f.message "interval" = some js → requestedInterval js = n)
    (k : Nat) (hk : k < calls.length) (pk pk1 : IsaacPlugin)
    (hpk : runNotify (calls.take k) p = some pk)
    (hpk1 : notify calls[k].1 calls[k].2 pk = Outcome.returned pk1) :
    pk1.renderInterval = n
      ∧ pk1.step = (k + 1) % n
      ∧ (n ∣ k + 1 → pk1.step = 0 ∧ visCalls pk < visCalls pk1)
      ∧ (¬ n ∣ k + 1 → visCalls pk1 = visCalls pk) := by
  obtain ⟨hqi, hqs⟩ := runNotify_step n hn hn32 calls p hstep hint hkeep k (by omega) pk hpk
  have hnext : runNotify (calls.take (k + 1)) p = some pk1 := by
    rw [runNotify_take_succ calls k hk, hpk]
    simp only [Option.bind, hpk1]
  obtain ⟨hri, hst⟩ :=
    runNotify_step n hn hn32 calls p hstep hint hkeep (k + 1) (by omega) pk1 hnext
  have hmod : k % n < n := Nat.mod_lt _ (by omega)
  obtain ⟨-, h2, h3⟩ := notify_returned_step calls[k].1 calls[k].2 pk pk1 n hn32 hqi
    (by omega) (hkeep calls[k] (List.getElem_mem _)) hpk1
  refine ⟨hri, hst, ?_, ?_⟩
  · intro hdvd
    have h0 : (k + 1) % n = 0 := Nat.mod_eq_zero_of_dvd hdvd
    have hc : pk.step + 1 = n := by
      by_contra hne
      have hlt2 : pk.step + 1 < n := by omega
      have := (h3 hlt2).1
      rw [hst, h0] at this
      omega
    exact h2 hc
  · intro hndvd
    have hc : pk.step + 1 < n := by
      by_contra hne
      have heq : pk.step + 1 = n := by omega
      apply hndvd
      apply Nat.dvd_of_mod_eq_zero
      rw [← hst]
      exact (h2 heq).1
    exact (h3 hc).2

theorem eq_some_getD (o : Option IsaacPlugin) (d : IsaacPlugin) (h : o.isSome = true) :
    o = some (o.getD d) := by
  cases o with
  | none => cases h
  | some q => rfl

theorem Outcome.eq_returned (o : Outcome) (d : IsaacPlugin) (h : o.isReturned = true) :
    o = Outcome.returned (o.returnedOr d) := by
  cases o with
  | returned q => rfl
  | exited c q => cases h
  | blocked q => cases h
  | fault q => cases h

/-- C7 in the scenario of the specification: the message with interval 5 arrives
while the interval is 1; the plugin then has interval 5 and counter 0, and the
fifth call after it leaves the counter at 0 and is a call that visualizes. -/
theorem render_every_nth_call_witness :
    sampleStarted.renderInterval = 1
      ∧ sampleIntervalFive.renderInterval = 5
      ∧ ((notify sampleCalls[4].1 sampleCalls[4].2 (sampleAfter 4)).returnedOr
            (sampleAfter 4)).renderInterval = 5
      ∧ ((notify sampleCalls[4].1 sampleCalls[4].2 (sampleAfter 4)).returnedOr
            (sampleAfter 4)).step = (4 + 1) % 5
      ∧ (5 ∣ 4 + 1 →
          ((notify sampleCalls[4].1 sampleCalls[4].2 (sampleAfter 4)).returnedOr
              (sampleAfter 4)).step = 0
            ∧ visCalls (sampleAfter 4)
                < visCalls ((notify sampleCalls[4].1 sampleCalls[4].2 (sampleAfter 4)).returnedOr
                    (sampleAfter 4)))
      ∧ (¬ 5 ∣ 4 + 1 →
          visCalls ((notify sampleCalls[4].1 sampleCalls[4].2 (sampleAfter 4)).returnedOr
              (sampleAfter 4)) = visCalls (sampleAfter 4)) :=
  ⟨by decide, by decide,
   render_every_nth_call 5 (by decide) (by decide) sampleCalls sampleIntervalFive (by decide)
     (by decide)
     (by
       intro e he f hf js hjs
       simp only [sampleCalls, List.mem_map] at he
       obtain ⟨i, -, rfl⟩ := he
       simp only [sampleEnv, List.mem_singleton] at hf
       subst hf
       simp [sampleFrame, json_object_get] at hjs)
     4 (by decide) (sampleAfter 4)
     ((notify sampleCalls[4].1 sampleCalls[4].2 (sampleAfter 4)).returnedOr (sampleAfter 4))
     (eq_some_getD _ _ (by decide))
     (Outcome.eq_returned _ _ (by decide))⟩

/-! ## `pluginLoad` with a failing `init` -/

theorem loadRankZero_frame (env : LoadEnv) (p : IsaacPlugin) (v : Visualization) :
    (∃ file, (loadRankZero env p v).1 = { p with timingsFile := file })
      ∧ ∃ ms, (loadRankZero env p v).2 = { v with messages := ms } := by
  unfold loadRankZero
  split
  · split
    · exact ⟨⟨_, rfl⟩, ⟨_, rfl⟩⟩
    · exact ⟨⟨p.timingsFile, rfl⟩, ⟨_, rfl⟩⟩
  · exact ⟨⟨p.timingsFile, rfl⟩, ⟨v.messages, rfl⟩⟩

/-- The first pass of the loop is made whenever there is a frame: however the
loop ends, one more `doVisualization` call than before has been logged. -/
theorem renderLoop_calls_grow (grid : Grid) (currentStep : Nat) (frames : List Frame)
    (s : LoopState) :
    s.vis.calls.length + (if frames.isEmpty then 0 else 1)
      ≤ visCalls (renderLoop grid currentStep frames s).plugin := by
  induction frames generalizing s with
  | nil => simp [renderLoop, Outcome.plugin, LoopState.store, visCalls]
  | cons f fs ih =>
    rw [renderLoop]
    simp only [List.isEmpty_cons, Bool.false_eq_true, if_false]
    cases hp : renderPass grid currentStep f s with
    | exit s1 =>
      simp only [Outcome.plugin, LoopState.store, visCalls]
      unfold renderPass at hp
      have hexit : exitRequested f.message = true := by
        cases hx : exitRequested f.message with
        | true => rfl
        | false => rw [finishPass_next _ _ hx] at hp; cases hp
      rw [finishPass_exit _ _ hexit] at hp
      injection hp with hp
      subst hp
      obtain ⟨file, r, ms, hb⟩ := benchmarkPass_frame f (beginPass grid currentStep f s)
      show s.vis.calls.length + 1
        ≤ (benchmarkPass f (beginPass grid currentStep f s)).vis.calls.length
      rw [hb]
      show s.vis.calls.length + 1 ≤ (beginPass grid currentStep f s).vis.calls.length
      rw [beginPass_calls]
      simp
    | next s1 =>
      obtain ⟨-, hcalls, -⟩ := renderPass_next_frame grid currentStep f s s1 hp
      have hlen : s1.vis.calls.length = s.vis.calls.length + 1 := by
        rw [hcalls]; simp
      simp only []
      by_cases hpause : s1.pause = true
      · rw [if_pos hpause]
        have := ih s1
        omega
      · rw [if_neg hpause]
        simp only [Outcome.plugin, LoopState.store, visCalls]
        omega


theorem loadRecording_frame (p : IsaacPlugin) :
    ∃ r, loadRecording p = { p with recording := r } := by
  unfold loadRecording
  split
  · exact ⟨_, rfl⟩
  · exact ⟨p.recording, rfl⟩

/-- The plugin after a `pluginLoad` whose `init` fails: apart from rank, process
count and moving window flag only the notification period (cleared and
registered), the benchmark file, `recording` and the visualization pointer
differ from the plugin before. -/
theorem pluginLoad_failed_eq (env : LoadEnv) (p : IsaacPlugin) (hp : p.notifyPeriod ≠ "")
    (hfail : env.initResult (communicatorBehaviour p) ≠ 0) :
    ∃ file r v, pluginLoad env p
      = { p with
          rank := env.rank
          numProc := env.numProc
          movingWindow := if env.movingWindowEnabled then true else p.movingWindow
          notifyPeriod := ""
          timingsFile := file
          recording := r
          visualization := some v
          notificationPeriod := some "" } := by
  have hinit : loadInit env (loadIdentity env p)
      = { loadIdentity env p with notifyPeriod := "" } := by
    have hfail1 : env.initResult (communicatorBehaviour (loadIdentity env p)) ≠ 0 := hfail
    unfold loadInit
    rw [if_pos hfail1]
  obtain ⟨⟨file, hfile⟩, -⟩ := loadRankZero_frame env (loadInit env (loadIdentity env p))
    (loadVisualization env (loadIdentity env p))
  obtain ⟨r, hr⟩ := loadRecording_frame
    { (loadRankZero env (loadInit env (loadIdentity env p))
        (loadVisualization env (loadIdentity env p))).1 with
      visualization := some (loadRankZero env (loadInit env (loadIdentity env p))
        (loadVisualization env (loadIdentity env p))).2 }
  refine ⟨file, r, (loadRankZero env (loadInit env (loadIdentity env p))
    (loadVisualization env (loadIdentity env p))).2, ?_⟩
  unfold pluginLoad
  rw [if_pos hp]
  unfold loadEnabled
  simp only []
  rw [hr, hfile, hinit]
  rfl

/-- C8: when `init` fails in `pluginLoad`, the notification period is cleared and
the empty period is what is registered with the plugin connector; cell count,
particle count and the time of the last notify keep their values, and so do
the render interval and the step counter.  A plugin registered with the empty
period is not notified: every later `onStep`, whatever the step, the period
predicate and the answers the visualization would give (also none at all),
returns at once with the plugin unchanged, so without a `doVisualization`
call, without a gather and without entering the loop. -/
theorem failed_init_disables (env : LoadEnv) (p : IsaacPlugin) (hp : p.notifyPeriod ≠ "")
    (hfail : env.initResult (communicatorBehaviour p) ≠ 0) :
    (pluginLoad env p).notifyPeriod = ""
      ∧ (pluginLoad env p).notificationPeriod = some ""
      ∧ (pluginLoad env p).cellCount = p.cellCount
      ∧ (pluginLoad env p).particleCount = p.particleCount
      ∧ (pluginLoad env p).lastNotify = p.lastNotify
      ∧ (pluginLoad env p).renderInterval = p.renderInterval
      ∧ (pluginLoad env p).step = p.step
      ∧ (∀ (due : String → Nat → Bool) (nenv : NotifyEnv) (currentStep : Nat),
          onStep due nenv currentStep (pluginLoad env p) = Outcome.returned (pluginLoad env p)
            ∧ visCalls (onStep due nenv currentStep (pluginLoad env p)).plugin
                = visCalls (pluginLoad env p)
            ∧ gatherCalls (onStep due nenv currentStep (pluginLoad env p)).plugin
                = gatherCalls (pluginLoad env p)) := by
  obtain ⟨file, r, v, h⟩ := pluginLoad_failed_eq env p hp hfail
  have hnp : (pluginLoad env p).notificationPeriod = some "" := by rw [h]
  have hstay : ∀ (due : String → Nat → Bool) (nenv : NotifyEnv) (currentStep : Nat),
      onStep due nenv currentStep (pluginLoad env p) = Outcome.returned (pluginLoad env p) := by
    intro due nenv currentStep
    unfold onStep
    rw [hnp]
    simp
  refine ⟨by rw [h], hnp, by rw [h], by rw [h], by rw [h], by rw [h], by rw [h], ?_⟩
  intro due nenv currentStep
  rw [hstay due nenv currentStep]
  exact ⟨rfl, rfl, rfl⟩

/-- C8 at the example start with a failing `init`: the period is cleared, the
counts and the time of the last notify are 0, and no `onStep` does
anything. -/
theorem failed_init_disables_witness :
    sampleFailed.notifyPeriod = ""
      ∧ sampleFailed.notificationPeriod = some ""
      ∧ sampleFailed.cellCount = 0
      ∧ sampleFailed.particleCount = 0
      ∧ sampleFailed.lastNotify = 0
      ∧ sampleFailed.renderInterval = 1
      ∧ sampleFailed.step = 0
      ∧ (∀ (due : String → Nat → Bool) (nenv : NotifyEnv) (currentStep : Nat),
          onStep due nenv currentStep sampleFailed = Outcome.returned sampleFailed
            ∧ visCalls (onStep due nenv currentStep sampleFailed).plugin = visCalls sampleFailed
            ∧ gatherCalls (onStep due nenv currentStep sampleFailed).plugin
                = gatherCalls sampleFailed) :=
  failed_init_disables (sampleLoadEnv 0 1)
    { IsaacPlugin.new with notifyPeriod := "1", reconnect := false } (by decide) (by decide)

/-! ## The benchmark row -/

theorem writeAllTimes_rank_zero_open (gathered : Nat → List Int) (k : Nat) (ts : List Int)
    (p : IsaacPlugin) (hrank : p.rank = 0) (hopen : p.timingsFile.isOpen = true)
    (hgood : p.timingsFile.fail = false) :
    writeAllTimes gathered k ts p
      = { p with
          gathers := p.gathers ++ ts
          timingsFile :=
            { isOpen := true
              fail := false
              content := p.timingsFile.content ++ timesChunks p.numProc gathered k ts } } := by
  induction ts generalizing k p with
  | nil =>
    cases p with
    | mk =>
      simp only [writeAllTimes, timesChunks, List.append_nil] at *
      congr
      rename_i tf _ _ _
      cases tf
      simp_all
  | cons t ts ih =>
    have h1 := writeTimes_rank_zero_open (gathered k) t p hrank hopen hgood
    rw [writeAllTimes]
    have h2 := ih (k + 1) (writeTimes (gathered k) t p) (by rw [h1]; exact hrank)
      (by rw [h1]) (by rw [h1])
    rw [h2, h1]
    simp [timesChunks, timingChunks]

theorem count_newline_timesChunks (numProc : Nat) (gathered : Nat → List Int) (k : Nat)
    (ts : List Int) :
    (timesChunks numProc gathered k ts).count (Chunk.text "\n") = 0 := by
  induction ts generalizing k with
  | nil => rfl
  | cons t ts ih =>
    rw [timesChunks, List.count_append, ih]
    simp [timingChunks, List.count_cons]

theorem count_newline_benchmarkRow (gathered : Nat → List Int) (p : IsaacPlugin)
    (v : Visualization) :
    (benchmarkRow gathered p v).count (Chunk.text "\n") = 1 := by
  unfold benchmarkRow
  rw [List.count_append, List.count_append, count_newline_timesChunks]
  simp [List.count_cons]

/-- A call of `benchmark` that is not active (not recording, paused, or run
step counter below 0) does nothing. -/
theorem benchmark_inactive (gathered : Nat → List Int) (pause : Bool) (p : IsaacPlugin)
    (v : Visualization)
    (h : (p.recording && !pause && decide (0 ≤ p.runSteps)) = false) :
    benchmark gathered pause p v = (p, v) := by
  unfold benchmark
  rw [h]
  rfl

/-- An active call of `benchmark` on rank 0 with an open benchmark file writes
one data row; when the run step counter is 1440 it then closes the file and
ends the recording, otherwise file and recording stay as they are. -/
theorem benchmark_rank_zero_open (gathered : Nat → List Int) (p : IsaacPlugin)
    (v : Visualization) (hrec : p.recording = true) (hsteps : 0 ≤ p.runSteps)
    (hrank : p.rank = 0) (hopen : p.timingsFile.isOpen = true)
    (hgood : p.timingsFile.fail = false) :
    (benchmark gathered false p v).1
      = { p with
          gathers := p.gathers ++ benchmarkTimes p v
          timingsFile :=
            { isOpen := !decide (p.runSteps = 1440)
              fail := false
              content := p.timingsFile.content ++ benchmarkRow gathered p v }
          recording := !decide (p.runSteps = 1440) } := by
  have hc : (p.recording && !false && decide (0 ≤ p.runSteps)) = true := by
    simp [hrec, hsteps]
  have hhead : benchmarkHead p
      = { p with
          timingsFile :=
            { isOpen := true
              fail := false
              content := p.timingsFile.content ++ [Chunk.int p.runSteps, Chunk.text ","] } } := by
    unfold benchmarkHead
    rw [if_pos hrank, put_open _ _ hopen hgood, put_open _ _ rfl rfl]
    simp
  have hall := writeAllTimes_rank_zero_open gathered 0 (benchmarkTimes p v) (benchmarkHead p)
    (by rw [hhead]; exact hrank) (by rw [hhead]) (by rw [hhead])
  have hrow : endRow (writeAllTimes gathered 0 (benchmarkTimes p v) (benchmarkHead p))
      = { p with
          gathers := p.gathers ++ benchmarkTimes p v
          timingsFile :=
            { isOpen := true
              fail := false
              content := p.timingsFile.content ++ benchmarkRow gathered p v } } := by
    unfold endRow
    rw [hall, hhead, put_open _ _ rfl rfl]
    simp [benchmarkRow]
  unfold benchmark
  rw [if_pos hc, hrow]
  unfold benchmarkClose
  by_cases h1440 : p.runSteps = 1440
  · rw [if_pos ⟨hrank, rfl, h1440⟩]
    simp [h1440, OFStream.close]
  · rw [if_neg (fun h => h1440 h.2.2)]
    simp [h1440, hrec]

/-! ## The benchmark inside the loop -/

theorem benchmarkPass_paused (f : Frame) (s : LoopState)
    (h : (s.plugin.recording && !s.pause && decide (0 ≤ s.plugin.runSteps)) = false) :
    benchmarkPass f s = s := by
  unfold benchmarkPass
  rw [benchmark_inactive _ _ _ _ h]

/-- After a pass that goes on, the benchmark file, `recording` and the gather log
are as `benchmark` left them; rank, process count and run step counter are as
before the pass. -/
theorem renderPass_next_bench (grid : Grid) (currentStep : Nat) (f : Frame) (s s1 : LoopState)
    (h : renderPass grid currentStep f s = Decoded.next s1) :
    s1.plugin.timingsFile = (benchmarkPass f (beginPass grid currentStep f s)).plugin.timingsFile
      ∧ s1.plugin.recording
          = (benchmarkPass f (beginPass grid currentStep f s)).plugin.recording
      ∧ s1.plugin.gathers = (benchmarkPass f (beginPass grid currentStep f s)).plugin.gathers
      ∧ s1.plugin.runSteps = s.plugin.runSteps
      ∧ s1.plugin.rank = s.plugin.rank
      ∧ s1.plugin.numProc = s.plugin.numProc
      ∧ s1.plugin.step = s.plugin.step := by
  obtain ⟨⟨ri, dp, dt, file, r, g, hs1⟩, -, -⟩ := renderPass_next_frame grid currentStep f s s1 h
  unfold renderPass at h
  obtain ⟨⟨ri2, dp2, hplug⟩, -, -⟩ := finishPass_next_frame _ _ _ h
  refine ⟨?_, ?_, ?_, ?_, ?_, ?_, ?_⟩
  · rw [hplug]
  · rw [hplug]
  · rw [hplug]
  · rw [hs1]
  · rw [hs1]
  · rw [hs1]
  · rw [hs1]

/-- A loop entered with `pause` set leaves the benchmark file, `recording`, the
gather log and the run step counter alone. -/
theorem renderLoop_paused_bench (grid : Grid) (currentStep : Nat) (frames : List Frame)
    (s : LoopState) (p2 : IsaacPlugin) (hpause : s.pause = true)
    (h : renderLoop grid currentStep frames s = Outcome.returned p2) :
    p2.timingsFile = s.plugin.timingsFile ∧ p2.recording = s.plugin.recording
      ∧ p2.gathers = s.plugin.gathers := by
  induction frames generalizing s with
  | nil => simp [renderLoop] at h
  | cons f fs ih =>
    rw [renderLoop] at h
    cases hp : renderPass grid currentStep f s with
    | exit s1 => rw [hp] at h; cases h
    | next s1 =>
      rw [hp] at h
      obtain ⟨h1, h2, h3, -⟩ := renderPass_next_bench grid currentStep f s s1 hp
      have hb : benchmarkPass f (beginPass grid currentStep f s)
          = beginPass grid currentStep f s := by
        apply benchmarkPass_paused
        rw [beginPass_pause, hpause]
        simp
      rw [hb, beginPass_plugin] at h1 h2 h3
      simp only [] at h
      by_cases hpause1 : s1.pause = true
      · rw [if_pos hpause1] at h
        obtain ⟨i1, i2, i3⟩ := ih s1 hpause1 h
        exact ⟨i1.trans h1, i2.trans h2, i3.trans h3⟩
      · rw [if_neg hpause1] at h
        injection h with h
        subst h
        exact ⟨h1, h2, h3⟩

/-- A loop entered with `pause` clear that returns has made its first pass on
the first frame; the benchmark file, `recording` and the gather log are as the
`benchmark` call of that pass left them. -/
theorem renderLoop_first_bench (grid : Grid) (currentStep : Nat) (frames : List Frame)
    (s : LoopState) (p2 : IsaacPlugin)
    (h : renderLoop grid currentStep frames s = Outcome.returned p2) :
    ∃ f fs, frames = f :: fs
      ∧ p2.timingsFile = (benchmarkPass f (beginPass grid currentStep f s)).plugin.timingsFile
      ∧ p2.recording = (benchmarkPass f (beginPass grid currentStep f s)).plugin.recording
      ∧ p2.gathers = (benchmarkPass f (beginPass grid currentStep f s)).plugin.gathers := by
  cases frames with
  | nil => simp [renderLoop] at h
  | cons f fs =>
    refine ⟨f, fs, rfl, ?_⟩
    rw [renderLoop] at h
    cases hp : renderPass grid currentStep f s with
    | exit s1 => rw [hp] at h; cases h
    | next s1 =>
      rw [hp] at h
      obtain ⟨h1, h2, h3, -⟩ := renderPass_next_bench grid currentStep f s s1 hp
      simp only [] at h
      by_cases hpause1 : s1.pause = true
      · rw [if_pos hpause1] at h
        obtain ⟨i1, i2, i3⟩ := renderLoop_paused_bench grid currentStep fs s1 p2 hpause1 h
        exact ⟨i1.trans h1, i2.trans h2, i3.trans h3⟩
      · rw [if_neg hpause1] at h
        injection h with h
        subst h
        exact ⟨h1, h2, h3⟩

/-! ## The benchmark seen from `notify` -/

theorem finishNotify_frame (ticksExit : Nat) (p : IsaacPlugin) :
    finishNotify ticksExit p
      = { p with runSteps := wrapInt32 (p.runSteps + 1), lastNotify := ticksExit } := rfl

/-- One call of `notify` that returns, seen from the benchmark.  The run step
counter advances by one.  When the render cycle is not due nothing of the
benchmark changes; when it is due, the file, `recording` and the gather log
are as the `benchmark` call of the first pass left them, and that call saw the
file, `recording`, counter, rank and gather log of the plugin before. -/
theorem notify_returned_bench (env : NotifyEnv) (currentStep : Nat) (p q : IsaacPlugin)
    (n : Nat) (hn32 : n < 4294967296) (hint : p.renderInterval = n) (hstep : p.step < n)
    (h : notify env currentStep p = Outcome.returned q) :
    q.runSteps = wrapInt32 (p.runSteps + 1) ∧ q.rank = p.rank ∧ q.numProc = p.numProc
      ∧ (p.step + 1 < n →
          q.timingsFile = p.timingsFile ∧ q.recording = p.recording ∧ q.gathers = p.gathers)
      ∧ (p.step + 1 = n →
          ∃ f fs p1 v1, env.frames = f :: fs
            ∧ p1.timingsFile = p.timingsFile ∧ p1.recording = p.recording
            ∧ p1.gathers = p.gathers ∧ p1.runSteps = p.runSteps ∧ p1.rank = p.rank
            ∧ p1.numProc = p.numProc
            ∧ q.timingsFile = (benchmark f.gathered false p1 v1).1.timingsFile
            ∧ q.recording = (benchmark f.gathered false p1 v1).1.recording
            ∧ q.gathers = (benchmark f.gathered false p1 v1).1.gathers) := by
  have hs : (enterNotify env p).step = p.step + 1 := enterNotify_step env p (by omega)
  have hr : (enterNotify env p).renderInterval = n := hint
  by_cases hdue : p.step + 1 ≥ n
  · have heq : p.step + 1 = n := by omega
    have hdue1 : (enterNotify env p).step ≥ (enterNotify env p).renderInterval := by
      rw [hs, hr]; exact hdue
    cases hv : p.visualization with
    | none =>
      have hv1 : (enterNotify env p).visualization = none := hv
      unfold notify at h
      rw [if_pos hdue1] at h
      split at h
      · cases h
      · rename_i w hw; rw [hv1] at hw; cases hw
    | some v =>
      rw [notify_due env currentStep p v hdue1 hv] at h
      cases hl : renderLoop env.grid currentStep env.frames (startCycle (enterNotify env p) v) with
      | returned p2 =>
        rw [hl] at h
        injection h with h
        obtain ⟨⟨ri, dp, dt, file, r, g, v2, hp2, -⟩, -⟩ :=
          renderLoop_returned_frame _ _ _ _ _ hl
        obtain ⟨f, fs, hframes, h1, h2, h3⟩ := renderLoop_first_bench _ _ _ _ _ hl
        subst h
        rw [finishNotify_frame]
        refine ⟨?_, ?_, ?_, ?_, ?_⟩
        · rw [hp2]; rfl
        · rw [hp2]; rfl
        · rw [hp2]; rfl
        · intro hlt; omega
        · intro _
          refine ⟨f, fs,
            (beginPass env.grid currentStep f (startCycle (enterNotify env p) v)).plugin,
            (beginPass env.grid currentStep f (startCycle (enterNotify env p) v)).vis,
            hframes, ?_, ?_, ?_, ?_, ?_, ?_, h1, h2, h3⟩
          all_goals (rw [beginPass_plugin]; rfl)
      | exited c p2 => rw [hl] at h; cases h
      | blocked p2 => rw [hl] at h; cases h
      | fault p2 => rw [hl] at h; cases h
  · have hidle : ¬ (enterNotify env p).step ≥ (enterNotify env p).renderInterval := by
      rw [hs, hr]; exact hdue
    rw [notify_idle env currentStep p hidle] at h
    injection h with h
    subst h
    refine ⟨rfl, rfl, rfl, ?_, ?_⟩
    · intro _
      exact ⟨rfl, rfl, rfl⟩
    · intro heq
      omega

set_option maxRecDepth 20000 in
/-- C9 (the code breaks the claim): two ranks of the same benchmark run at run
step counter 1440, driven by the same `notify` calls without pause.  In the
call with counter 1440 both make eleven gathers; rank 0 then ends its
recording, rank 1 does not, and in the next call (counter 1441) rank 0 makes
no gather while rank 1 makes eleven more. -/
theorem gather_counts_diverge_after_budget :
    (benchAt 0 1440).recording = true ∧ (benchAt 1 1440).recording = true
      ∧ gatherCalls (benchAt 0 1440) = 0 ∧ gatherCalls (benchAt 1 1440) = 0
      ∧ (benchNext 0 1440).runSteps = 1441 ∧ (benchNext 1 1440).runSteps = 1441
      ∧ gatherCalls (benchNext 0 1440) = 11 ∧ gatherCalls (benchNext 1 1440) = 11
      ∧ (benchNext 0 1440).recording = false ∧ (benchNext 1 1440).recording = true
      ∧ (benchNextNext 0 1440).runSteps = 1442 ∧ (benchNextNext 1 1440).runSteps = 1442
      ∧ gatherCalls (benchNextNext 0 1440) = 11 ∧ gatherCalls (benchNextNext 1 1440) = 22 := by
  refine ⟨by decide, by decide, by decide, by decide, by decide, by decide, by decide,
    by decide, by decide, by decide, by decide, by decide, by decide, by decide⟩

/-! ## A benchmark run that renders on every step -/

theorem lineCount_append_row (f : OFStream) (b : Bool) (gathered : Nat → List Int)
    (p : IsaacPlugin) (v : Visualization) :
    OFStream.lineCount
        { isOpen := b, fail := false, content := f.content ++ benchmarkRow gathered p v }
      = f.lineCount + 1 := by
  unfold OFStream.lineCount
  rw [List.count_append, count_newline_benchmarkRow]

/-- C10 (what the code does): a benchmark run on rank 0 with render interval 1,
started with run step counter -10, an open benchmark file and the recording
on, in which no message changes the interval.  After `k ≤ 1450` calls of
`notify` the counter is `k - 10`, the file is still open and holds
`max (k - 10) 0` data rows; the call number 1451 (counter 1440) writes one more
row and closes the file, so that the closed file holds 1441 data rows, one for
each counter value from 0 to 1440; every later call leaves the row count and
the closed file as they are. -/
theorem benchmark_rows_at_close (calls : List (NotifyEnv × Nat)) (p : IsaacPlugin)
    (hrank : p.rank = 0) (hrec : p.recording = true) (hopen : p.timingsFile.isOpen = true)
    (hgood : p.timingsFile.fail = false) (hstep : p.step = 0) (hint : p.renderInterval = 1)
    (hsteps : p.runSteps = -10)
    (hkeep : ∀ e ∈ calls, ∀ f ∈ e.1.frames, ∀ js,
      json_object_get f.message "interval" = some js → requestedInterval js = 1)
    (k : Nat) (hk : k ≤ calls.length) (q : IsaacPlugin)
    (hq : runNotify (calls.take k) p = some q) :
    q.rank = 0
      ∧ (k ≤ 1450 →
          q.runSteps = -10 + (k : Int) ∧ q.recording = true ∧ q.timingsFile.isOpen = true
            ∧ q.timingsFile.fail = false
            ∧ q.timingsFile.lineCount = p.timingsFile.lineCount + (k - 10))
      ∧ (1451 ≤ k →
          q.recording = false ∧ q.timingsFile.isOpen = false
            ∧ q.timingsFile.lineCount = p.timingsFile.lineCount + 1441) := by
  induction k generalizing q with
  | zero =>
    simp [runNotify] at hq
    subst hq
    exact ⟨hrank, fun _ => ⟨by simpa using hsteps, hrec, hopen, hgood, by simp⟩,
      fun h => absurd h (by omega)⟩
  | succ k ih =>
    have hlt : k < calls.length := hk
    rw [runNotify_take_succ calls k hlt] at hq
    cases hq0 : runNotify (calls.take k) p with
    | none => rw [hq0] at hq; simp at hq
    | some q0 =>
      rw [hq0] at hq
      simp only [Option.bind] at hq
      obtain ⟨ihrank, ihopen, ihclosed⟩ := ih (by omega) q0 hq0
      obtain ⟨hqi, hqs⟩ := runNotify_step 1 (by omega) (by omega) calls p hstep hint hkeep k
        (by omega) q0 hq0
      have hqs0 : q0.step = 0 := by rw [hqs]; exact Nat.mod_one k
      cases ho : notify calls[k].1 calls[k].2 q0 with
      | exited c p1 => rw [ho] at hq; simp at hq
      | blocked p1 => rw [ho] at hq; simp at hq
      | fault p1 => rw [ho] at hq; simp at hq
      | returned p1 =>
        rw [ho] at hq
        injection hq with hq
        subst hq
        obtain ⟨hrs, hrk, -, -, hdue⟩ := notify_returned_bench calls[k].1 calls[k].2 q0 p1 1
          (by omega) hqi (by omega) ho
        obtain ⟨f, fs, p2, v2, -, e1, e2, -, e4, e5, -, b1, b2, -⟩ := hdue (by omega)
        refine ⟨hrk.trans ihrank, ?_, ?_⟩
        · intro hk1
          obtain ⟨i1, i2, i3, i4, i5⟩ := ihopen (by omega)
          have hrs2 : p1.runSteps = -10 + ((k + 1 : Nat) : Int) := by
            rw [hrs, i1]
            push_cast
            rw [wrapInt32_of_isInt32 (by unfold isInt32 INT_MIN INT_MAX; omega)]
            ring
          by_cases hpre : k < 10
          · have hin : (p2.recording && !false && decide (0 ≤ p2.runSteps)) = false := by
              have : ¬ (0 ≤ p2.runSteps) := by rw [e4, i1]; omega
              simp [this]
            rw [benchmark_inactive _ _ _ _ hin] at b1 b2
            refine ⟨hrs2, ?_, ?_, ?_, ?_⟩
            · rw [b2, e2]; exact i2
            · rw [b1, e1]; exact i3
            · rw [b1, e1]; exact i4
            · rw [b1, e1, i5]; omega
          · have hact := benchmark_rank_zero_open f.gathered p2 v2 (by rw [e2]; exact i2)
              (by rw [e4, i1]; omega) (by rw [e5]; exact ihrank) (by rw [e1]; exact i3)
              (by rw [e1]; exact i4)
            have hne : ¬ (p2.runSteps = 1440) := by rw [e4, i1]; omega
            rw [hact] at b1 b2
            simp only [hne, decide_False, Bool.not_false] at b1 b2
            refine ⟨hrs2, b2, ?_, ?_, ?_⟩
            · rw [b1]
            · rw [b1]
            · rw [b1, lineCount_append_row, e1, i5]; omega
        · intro hk1
          by_cases hlast : k = 1450
          · obtain ⟨i1, i2, i3, i4, i5⟩ := ihopen (by omega)
            have hact := benchmark_rank_zero_open f.gathered p2 v2 (by rw [e2]; exact i2)
              (by rw [e4, i1]; omega) (by rw [e5]; exact ihrank) (by rw [e1]; exact i3)
              (by rw [e1]; exact i4)
            have heq : p2.runSteps = 1440 := by rw [e4, i1]; omega
            rw [hact] at b1 b2
            simp only [heq, decide_True, Bool.not_true] at b1 b2
            refine ⟨b2, ?_, ?_⟩
            · rw [b1]
            · rw [b1, lineCount_append_row, e1, i5]; omega
          · obtain ⟨i1, i2, i3⟩ := ihclosed (by omega)
            have hin : (p2.recording && !false && decide (0 ≤ p2.runSteps)) = false := by
              rw [e2, i1]; rfl
            rw [benchmark_inactive _ _ _ _ hin] at b1 b2
            refine ⟨?_, ?_, ?_⟩
            · rw [b2, e2]; exact i1
            · rw [b1, e1]; exact i2
            · rw [b1, e1]; exact i3

/-! ## Calls of `notify` whose frames carry no message -/

theorem benchmarkPass_directPause (f : Frame) (s : LoopState) :
    (benchmarkPass f s).plugin.directPause = s.plugin.directPause
      ∧ (benchmarkPass f s).pause = s.pause := by
  obtain ⟨file, r, ms, h⟩ := benchmarkPass_frame f s
  rw [h]
  exact ⟨rfl, rfl⟩

/-- A call of `notify` with a single frame that carries no message returns when
the visualization exists and `directPause` is not set, and both stay so. -/
theorem notify_quiet_returns (env : NotifyEnv) (currentStep : Nat) (p : IsaacPlugin)
    (f : Frame) (hframes : env.frames = [f]) (hmsg : f.message = none)
    (hv : p.visualization.isSome = true) (hd : p.directPause = false) :
    ∃ q, notify env currentStep p = Outcome.returned q
      ∧ q.visualization.isSome = true ∧ q.directPause = false := by
  by_cases hdue : (enterNotify env p).step ≥ (enterNotify env p).renderInterval
  · cases hvis : p.visualization with
    | none => rw [hvis] at hv; cases hv
    | some v =>
      rw [notify_due env currentStep p v hdue hvis, hframes, renderLoop, renderPass, hmsg]
      obtain ⟨hbd, hbp⟩ := benchmarkPass_directPause f
        (beginPass env.grid currentStep f (startCycle (enterNotify env p) v))
      have hd1 : (benchmarkPass f
          (beginPass env.grid currentStep f (startCycle (enterNotify env p) v))
          ).plugin.directPause = false := by
        rw [hbd, beginPass_plugin]
        exact hd
      have hp1 : (benchmarkPass f
          (beginPass env.grid currentStep f (startCycle (enterNotify env p) v))).pause
          = false := by
        rw [hbp, beginPass_pause]
        rfl
      rw [(absent_keys_keep_state none _ hd1).2.2 (Or.inl rfl)]
      simp only [hp1, Bool.false_eq_true, if_false]
      exact ⟨_, rfl, rfl, hd1⟩
  · rw [notify_idle env currentStep p hdue]
    exact ⟨_, rfl, hv, hd⟩

theorem runNotify_quiet_isSome (calls : List (NotifyEnv × Nat)) (p : IsaacPlugin)
    (hquiet : ∀ e ∈ calls, ∃ f, e.1.frames = [f] ∧ f.message = none)
    (hv : p.visualization.isSome = true) (hd : p.directPause = false) :
    (runNotify calls p).isSome = true := by
  induction calls generalizing p with
  | nil => rfl
  | cons e rest ih =>
    obtain ⟨env, c⟩ := e
    obtain ⟨f, hf, hm⟩ := hquiet (env, c) (List.mem_cons_self _ _)
    obtain ⟨q, hq, hqv, hqd⟩ := notify_quiet_returns env c p f hf hm hv hd
    rw [runNotify, hq]
    exact ih q (fun e he => hquiet e (List.mem_cons_of_mem _ he)) hqv hqd

set_option maxRecDepth 20000 in
/-- C10 on the example benchmark run: it starts with the header line in the open
file and run step counter -10; after its 1451 `notify` calls the file is
closed, the recording is off and the file holds the header and 1441 data
rows, one more than the step count 1440 at which the file is closed. -/
theorem benchmark_rows_at_close_witness :
    (benchStart 0).timingsFile.lineCount = 1
      ∧ ((runNotify budgetCalls (benchStart 0)).getD (benchStart 0)).rank = 0
      ∧ (1451 ≤ 1450 →
          ((runNotify budgetCalls (benchStart 0)).getD (benchStart 0)).runSteps
              = -10 + ((1451 : Nat) : Int)
            ∧ ((runNotify budgetCalls (benchStart 0)).getD (benchStart 0)).recording = true
            ∧ ((runNotify budgetCalls (benchStart 0)).getD (benchStart 0)).timingsFile.isOpen
                = true
            ∧ ((runNotify budgetCalls (benchStart 0)).getD (benchStart 0)).timingsFile.fail
                = false
            ∧ ((runNotify budgetCalls (benchStart 0)).getD (benchStart 0)).timingsFile.lineCount
                = (benchStart 0).timingsFile.lineCount + (1451 - 10))
      ∧ (1451 ≤ 1451 →
          ((runNotify budgetCalls (benchStart 0)).getD (benchStart 0)).recording = false
            ∧ ((runNotify budgetCalls (benchStart 0)).getD (benchStart 0)).timingsFile.isOpen
                = false
            ∧ ((runNotify budgetCalls (benchStart 0)).getD (benchStart 0)).timingsFile.lineCount
                = (benchStart 0).timingsFile.lineCount + 1441) :=
  ⟨by decide,
   benchmark_rows_at_close budgetCalls (benchStart 0) (by decide) (by decide) (by decide)
     (by decide) (by decide) (by decide) (by decide)
     (by
       intro e he f hf js hjs
       rw [budgetCalls, List.mem_replicate] at he
       rw [he.2] at hf
       simp only [quietEnv, sampleEnv, List.mem_singleton] at hf
       subst hf
       simp [sampleFrame, json_object_get] at hjs)
     1451 (by simp [budgetCalls])
     ((runNotify budgetCalls (benchStart 0)).getD (benchStart 0))
     (by
       have htake : budgetCalls.take 1451 = budgetCalls := by
         apply List.take_of_length_le
         simp [budgetCalls]
       rw [htake]
       exact eq_some_getD _ _ (runNotify_quiet_isSome budgetCalls (benchStart 0)
         (by
           intro e he
           rw [budgetCalls, List.mem_replicate] at he
           rw [he.2]
           exact ⟨sampleFrame none, rfl, rfl⟩)
         (by decide) (by decide)))⟩

/-! ## A benchmark run that does not render on every step -/

theorem succ_mod_of_mod_succ (k n : Nat) : (k + 1) % n = (k % n + 1) % n := by
  conv_lhs => rw [← Nat.div_add_mod k n]
  rw [Nat.add_assoc, Nat.mul_add_mod]

/-- C11 (the code breaks the claim): a benchmark run on rank 0 at a moment at
which the step counter is 0, the file is open and the recording is on, with
render interval `n` and a run step counter `r` such that `n` does not divide
`1441 - r`, and no later message changes the interval.  (A run is in such a
state when a message sets the interval 2 in a render cycle with an odd run
step counter.)  The render cycles then fall on counter values `r + j n - 1`,
none of which is 1440: the test `runSteps == 1440` never succeeds, and after
every number `k` of further `notify` calls the counter is `r + k`, the
recording is still on and the file is still open, also when the counter has
passed 1440. -/
theorem recording_never_ends (n : Nat) (hn : 1 ≤ n) (hn32 : n < 4294967296)
    (calls : List (NotifyEnv × Nat)) (p : IsaacPlugin)
    (hrank : p.rank = 0) (hrec : p.recording = true) (hopen : p.timingsFile.isOpen = true)
    (hgood : p.timingsFile.fail = false) (hstep : p.step = 0) (hint : p.renderInterval = n)
    (hndvd : ¬ (n : Int) ∣ 1441 - p.runSteps) (hlow : -2147483648 ≤ p.runSteps)
    (hkeep : ∀ e ∈ calls, ∀ f ∈ e.1.frames, ∀ js,
      json_object_get f.message "interval" = some js → requestedInterval js = n)
    (k : Nat) (hk : k ≤ calls.length) (hk32 : p.runSteps + (k : Int) ≤ 2147483647)
    (q : IsaacPlugin) (hq : runNotify (calls.take k) p = some q) :
    q.rank = 0 ∧ q.runSteps = p.runSteps + (k : Int) ∧ q.recording = true
      ∧ q.timingsFile.isOpen = true ∧ q.timingsFile.fail = false := by
  induction k generalizing q with
  | zero =>
    simp [runNotify] at hq
    subst hq
    exact ⟨hrank, by simp, hrec, hopen, hgood⟩
  | succ k ih =>
    have hlt : k < calls.length := hk
    rw [runNotify_take_succ calls k hlt] at hq
    cases hq0 : runNotify (calls.take k) p with
    | none => rw [hq0] at hq; simp at hq
    | some q0 =>
      rw [hq0] at hq
      simp only [Option.bind] at hq
      have hk32b : p.runSteps + ((k + 1 : Nat) : Int) ≤ 2147483647 := hk32
      push_cast at hk32b
      obtain ⟨i0, i1, i2, i3, i4⟩ := ih (by omega) (by omega) q0 hq0
      obtain ⟨hqi, hqs⟩ := runNotify_step n hn hn32 calls p hstep hint hkeep k
        (by omega) q0 hq0
      have hmod : k % n < n := Nat.mod_lt _ (by omega)
      cases ho : notify calls[k].1 calls[k].2 q0 with
      | exited c p1 => rw [ho] at hq; simp at hq
      | blocked p1 => rw [ho] at hq; simp at hq
      | fault p1 => rw [ho] at hq; simp at hq
      | returned p1 =>
        rw [ho] at hq
        injection hq with hq
        subst hq
        obtain ⟨hrs, hrk, -, hidle, hdue⟩ := notify_returned_bench calls[k].1 calls[k].2 q0 p1 n
          hn32 hqi (by omega) ho
        have hrs2 : p1.runSteps = p.runSteps + ((k + 1 : Nat) : Int) := by
          rw [hrs, i1]
          push_cast
          rw [wrapInt32_of_isInt32 (by unfold isInt32 INT_MIN INT_MAX; omega)]
          ring
        refine ⟨hrk.trans i0, hrs2, ?_⟩
        by_cases hc : q0.step + 1 = n
        · obtain ⟨f, fs, p2, v2, -, e1, e2, -, e4, e5, -, b1, b2, -⟩ := hdue hc
          have hk1 : n ∣ k + 1 := by
            apply Nat.dvd_of_mod_eq_zero
            rw [succ_mod_of_mod_succ, ← hqs, hc, Nat.mod_self]
          have hne2 : ¬ (p2.runSteps = 1440) := by
            rw [e4, i1]
            intro h
            apply hndvd
            have hk2 : (n : Int) ∣ ((k + 1 : Nat) : Int) := Int.natCast_dvd_natCast.mpr hk1
            have he : (1441 : Int) - p.runSteps = ((k + 1 : Nat) : Int) := by
              push_cast
              omega
            rw [he]
            exact hk2
          by_cases hpre : 0 ≤ p2.runSteps
          · have hact := benchmark_rank_zero_open f.gathered p2 v2 (by rw [e2]; exact i2)
              hpre (by rw [e5]; exact i0) (by rw [e1]; exact i3)
              (by rw [e1]; exact i4)
            rw [hact] at b1 b2
            simp only [hne2, decide_False, Bool.not_false] at b1 b2
            refine ⟨b2, ?_, ?_⟩
            · rw [b1]
            · rw [b1]
          · have hin : (p2.recording && !false && decide (0 ≤ p2.runSteps)) = false := by
              simp [hpre]
            rw [benchmark_inactive _ _ _ _ hin] at b1 b2
            refine ⟨?_, ?_, ?_⟩
            · rw [b2, e2]; exact i2
            · rw [b1, e1]; exact i3
            · rw [b1, e1]; exact i4
        · obtain ⟨e1, e2, -⟩ := hidle (by omega)
          refine ⟨?_, ?_, ?_⟩
          · rw [e2]; exact i2
          · rw [e1]; exact i3
          · rw [e1]; exact i4

set_option maxRecDepth 20000 in
/-- C11 on the example benchmark run on rank 0, from `pluginLoad` on: the first
`notify` call has no message, the message of the second (run step counter -9)
sets the render interval 2, and 1450 calls without message follow.  The two
first calls return and leave interval 2, step counter 0 and run step counter
-8; after all 1452 calls the run step counter is 1442, beyond 1440, while the
recording is on and the benchmark file is open. -/
theorem recording_never_ends_witness :
    (benchStart 0).renderInterval = 1 ∧ (benchStart 0).runSteps = -10
      ∧ (runNotify intervalTwoCalls (benchStart 0)).isSome = true
      ∧ benchIntervalTwo.renderInterval = 2 ∧ benchIntervalTwo.runSteps = -8
      ∧ runNotify intervalTwoRun (benchStart 0) = runNotify laterCalls benchIntervalTwo
      ∧ ((runNotify laterCalls benchIntervalTwo).getD benchIntervalTwo).rank = 0
      ∧ ((runNotify laterCalls benchIntervalTwo).getD benchIntervalTwo).runSteps
          = benchIntervalTwo.runSteps + ((1450 : Nat) : Int)
      ∧ ((runNotify laterCalls benchIntervalTwo).getD benchIntervalTwo).recording = true
      ∧ ((runNotify laterCalls benchIntervalTwo).getD benchIntervalTwo).timingsFile.isOpen
          = true
      ∧ ((runNotify laterCalls benchIntervalTwo).getD benchIntervalTwo).timingsFile.fail
          = false :=
  ⟨by decide, by decide, by decide, by decide, by decide,
   (by
      have h1 : runNotify intervalTwoCalls (benchStart 0) = some benchIntervalTwo :=
        eq_some_getD _ _ (by decide)
      rw [intervalTwoRun, runNotify_append, h1, Option.some_bind]),
   recording_never_ends 2 (by decide) (by decide) laterCalls benchIntervalTwo
    (by decide) (by decide) (by decide) (by decide) (by decide) (by decide) (by decide)
    (by decide)
    (by
      intro e he f hf js hjs
      rw [laterCalls, List.mem_replicate] at he
      rw [he.2] at hf
      simp only [quietEnv, sampleEnv, List.mem_singleton] at hf
      subst hf
      simp [sampleFrame, json_object_get] at hjs)
    1450 (by simp [laterCalls]) (by decide)
    ((runNotify laterCalls benchIntervalTwo).getD benchIntervalTwo)
    (by
      have htake : laterCalls.take 1450 = laterCalls := by
        apply List.take_of_length_le
        simp [laterCalls]
      rw [htake]
      exact eq_some_getD _ _ (runNotify_quiet_isSome laterCalls benchIntervalTwo
        (by
          intro e he
          rw [laterCalls, List.mem_replicate] at he
          rw [he.2]
          exact ⟨sampleFrame none, rfl, rfl⟩)
        (by decide) (by decide)))⟩

/-! ## Source adapters -/

/-- C12: for each of the four source adapters, `update` with `enabled = false`
returns the adapter and the simulation data exactly as they were (no null
dereference, no recomputation, no wait), so every sample lookup and every
particle iterator obtained afterwards is what it was before the call. -/
theorem update_disabled_keeps_state {F Box Frame : Type} (env : SourceEnv F)
    (currentStep : Nat) (sim : SimData F Box) (psim : SimData F (ParticlesBox Frame))
    (field : TFieldSource F) (derived : TFieldTmpSource F) (vector : TVectorFieldSource F)
    (particle : ParticleSource Frame) :
    TFieldSource.update false env sim field = some (field, sim)
      ∧ TFieldTmpSource.update false currentStep env sim derived = some (derived, sim)
      ∧ TVectorFieldSource.update false env sim vector = some (vector, sim)
      ∧ ParticleSource.update false env psim particle = (particle, psim)
      ∧ (∀ s1 sim1, TFieldSource.update false env sim field = some (s1, sim1) →
          ∀ i, s1.sample i = field.sample i)
      ∧ (∀ s1 sim1, TFieldTmpSource.update false currentStep env sim derived = some (s1, sim1) →
          ∀ i, s1.sample i = derived.sample i)
      ∧ (∀ s1 sim1, TVectorFieldSource.update false env sim vector = some (s1, sim1) →
          ∀ i, s1.sample i = vector.sample i)
      ∧ (∀ frameSize coord,
          (ParticleSource.update false env psim particle).1.getIterator frameSize coord
            = particle.getIterator frameSize coord) := by
  refine ⟨rfl, rfl, rfl, rfl, ?_, ?_, ?_, fun _ _ => rfl⟩
  · intro s1 sim1 h i
    have h2 : some (field, sim) = some (s1, sim1) := h
    injection h2 with h2
    injection h2 with h3 h4
    rw [← h3]
  · intro s1 sim1 h i
    have h2 : some (derived, sim) = some (s1, sim1) := h
    injection h2 with h2
    injection h2 with h3 h4
    rw [← h3]
  · intro s1 sim1 h i
    have h2 : some (vector, sim) = some (s1, sim1) := h
    injection h2 with h2
    injection h2 with h3 h4
    rw [← h3]

/-! ## The particle iterator -/

theorem advance_spec {Frame : Type} (it : ParticleIterator Frame) (F : Nat) (hF : 1 ≤ F)
    (hF32 : F ≤ 2147483647) (hsize : it.frameSize = (F : Int)) (hi : it.i = 0) (k : Nat) :
    (ParticleIterator.advance k it).i = ((k % F : Nat) : Int)
      ∧ (ParticleIterator.advance k it).frame = (it.pb.getNextFrame)^[k / F] it.frame
      ∧ (ParticleIterator.advance k it).frameSize = (F : Int)
      ∧ (ParticleIterator.advance k it).pb = it.pb := by
  induction k with
  | zero =>
    simp [ParticleIterator.advance, hi, hsize]
  | succ k ih =>
    obtain ⟨h1, h2, h3, h4⟩ := ih
    have hmod : k % F < F := Nat.mod_lt _ (by omega)
    have hw : wrapInt32 ((ParticleIterator.advance k it).i + 1) = ((k % F : Nat) : Int) + 1 := by
      rw [h1]
      apply wrapInt32_of_isInt32
      unfold isInt32 INT_MIN INT_MAX
      omega
    rw [ParticleIterator.advance]
    unfold ParticleIterator.next
    rw [hw, h3]
    by_cases hc : k % F + 1 = F
    · have hge : ((k % F : Nat) : Int) + 1 ≥ (F : Int) := by omega
      rw [if_pos hge]
      have hm : (k + 1) % F = 0 := by
        rw [succ_mod_of_mod_succ, hc, Nat.mod_self]
      have hd : (k + 1) / F = k / F + 1 := by
        have e1 := Nat.div_add_mod k F
        have e2 := Nat.div_add_mod (k + 1) F
        rw [hm] at e2
        have e3 : F * ((k + 1) / F) = F * (k / F + 1) := by
          rw [Nat.mul_add, Nat.mul_one]
          omega
        exact Nat.eq_of_mul_eq_mul_left (by omega) e3
      refine ⟨?_, ?_, rfl, h4⟩
      · show (0 : Int) = _
        rw [hm]
        rfl
      · show (ParticleIterator.advance k it).pb.getNextFrame (ParticleIterator.advance k it).frame
          = _
        rw [h4, h2, hd, Function.iterate_succ_apply']
    · have hlt : ¬ (((k % F : Nat) : Int) + 1 ≥ (F : Int)) := by omega
      rw [if_neg hlt]
      have hm : (k + 1) % F = k % F + 1 := by
        rw [succ_mod_of_mod_succ, Nat.mod_eq_of_lt (by omega)]
      have hd : (k + 1) / F = k / F := by
        have e1 := Nat.div_add_mod k F
        have e2 := Nat.div_add_mod (k + 1) F
        rw [hm] at e2
        have e3 : F * ((k + 1) / F) = F * (k / F) := by omega
        exact Nat.eq_of_mul_eq_mul_left (by omega) e3
      refine ⟨?_, ?_, rfl, h4⟩
      · show ((k % F : Nat) : Int) + 1 = _
        rw [hm]
        push_cast
        rfl
      · show (ParticleIterator.advance k it).frame = _
        rw [h2, hd]

/-- C17: for a frame capacity `frameSize` from 1 up to the largest `int`, `k`
calls of `next()` on the iterator `getIterator` returns leave the cursor at the
in-frame index `k mod frameSize`, which lies in `[0, frameSize)`, of the frame
reached from the first frame of the cell by `k / frameSize` applications of
`getNextFrame`. -/
theorem iterator_after_k_next {Frame : Type} (source : ParticleSource Frame)
    (local_grid_coord : Vec3) (frameSize : Nat) (hF : 1 ≤ frameSize)
    (hF32 : frameSize ≤ 2147483647) (k : Nat) :
    (ParticleIterator.advance k (source.getIterator frameSize local_grid_coord)).i
        = ((k % frameSize : Nat) : Int)
      ∧ (ParticleIterator.advance k (source.getIterator frameSize local_grid_coord)).frame
        = (source.pb.getNextFrame)^[k / frameSize]
            (source.pb.getFirstFrame (local_grid_coord.add source.guarding))
      ∧ 0 ≤ (ParticleIterator.advance k (source.getIterator frameSize local_grid_coord)).i
      ∧ (ParticleIterator.advance k (source.getIterator frameSize local_grid_coord)).i
        < (frameSize : Int) := by
  have hsize : (source.getIterator frameSize local_grid_coord).frameSize = (frameSize : Int) := by
    show wrapInt32 (frameSize : Int) = _
    apply wrapInt32_of_isInt32
    unfold isInt32 INT_MIN INT_MAX
    omega
  obtain ⟨h1, h2, -, -⟩ := advance_spec (source.getIterator frameSize local_grid_coord)
    frameSize hF hF32 hsize rfl k
  have hmod : k % frameSize < frameSize := Nat.mod_lt _ (by omega)
  refine ⟨h1, h2, ?_, ?_⟩
  · rw [h1]; omega
  · rw [h1]; omega

/-- C17 on numbered frames with capacity 256: after 600 calls of `next()` the
cursor is at index 88 of frame 2. -/
theorem iterator_after_k_next_witness :
    (ParticleIterator.advance 600
        (sampleParticleSource.getIterator 256 { x := 0, y := 0, z := 0 })).i
        = ((600 % 256 : Nat) : Int)
      ∧ (ParticleIterator.advance 600
          (sampleParticleSource.getIterator 256 { x := 0, y := 0, z := 0 })).frame
        = (sampleParticleSource.pb.getNextFrame)^[600 / 256]
            (sampleParticleSource.pb.getFirstFrame
              (Vec3.add { x := 0, y := 0, z := 0 } sampleParticleSource.guarding))
      ∧ 0 ≤ (ParticleIterator.advance 600
          (sampleParticleSource.getIterator 256 { x := 0, y := 0, z := 0 })).i
      ∧ (ParticleIterator.advance 600
          (sampleParticleSource.getIterator 256 { x := 0, y := 0, z := 0 })).i
        < ((256 : Nat) : Int) :=
  iterator_after_k_next sampleParticleSource { x := 0, y := 0, z := 0 } 256 (by decide)
    (by decide) 600

/-! ## The messages of `pluginLoad` -/

theorem loadInit_frame (env : LoadEnv) (p : IsaacPlugin) :
    (loadInit env p).rank = p.rank ∧ (loadInit env p).timingsFilename = p.timingsFilename := by
  unfold loadInit
  split <;> exact ⟨rfl, rfl⟩

theorem loadVisualization_messages (env : LoadEnv) (p : IsaacPlugin) :
    (loadVisualization env p).messages = [] := by
  unfold loadVisualization
  dsimp only
  split <;> rfl

theorem loadRankZero_messages (env : LoadEnv) (p : IsaacPlugin) (v : Visualization) :
    (loadRankZero env p v).2.messages
      = if p.rank = 0 then
          v.messages ++ [initialAxisMessage]
            ++ (if p.timingsFilename ≠ "" then [benchmarkSetupMessage] else [])
        else v.messages := by
  unfold loadRankZero
  split
  · split
    · rfl
    · simp
  · rfl

theorem pluginLoad_visualization (env : LoadEnv) (p : IsaacPlugin) (hp : p.notifyPeriod ≠ "") :
    (pluginLoad env p).visualization
      = some (loadRankZero env (loadInit env (loadIdentity env p))
          (loadVisualization env (loadIdentity env p))).2 := by
  obtain ⟨r, hr⟩ := loadRecording_frame
    { (loadRankZero env (loadInit env (loadIdentity env p))
        (loadVisualization env (loadIdentity env p))).1 with
      visualization := some (loadRankZero env (loadInit env (loadIdentity env p))
        (loadVisualization env (loadIdentity env p))).2 }
  unfold pluginLoad
  rw [if_pos hp]
  unfold loadEnabled
  simp only []
  rw [hr]
  rfl

/-- C13 (amended): when the plugin is enabled, `pluginLoad` on rank 0 always sets
the message with the initial rotation axis; the message with the channel
weights, the iso thresholds, the interpolation flag and the relative distance
follows exactly when a benchmark file name is configured; on any other rank
no message is set. -/
theorem handshake_messages (env : LoadEnv) (p : IsaacPlugin) (hp : p.notifyPeriod ≠ "") :
    ∃ v, (pluginLoad env p).visualization = some v
      ∧ (env.rank = 0 → p.timingsFilename ≠ "" →
          v.messages = [initialAxisMessage, benchmarkSetupMessage])
      ∧ (env.rank = 0 → p.timingsFilename = "" → v.messages = [initialAxisMessage])
      ∧ (env.rank ≠ 0 → v.messages = [])
      ∧ initialAxisMessage.keys = ["rotation axis"]
      ∧ benchmarkSetupMessage.keys
          = ["weight", "iso threshold", "interpolation", "distance relative"] := by
  refine ⟨_, pluginLoad_visualization env p hp, ?_, ?_, ?_, rfl, rfl⟩
  · intro hrank hfile
    rw [loadRankZero_messages, loadVisualization_messages]
    have h1 : (loadInit env (loadIdentity env p)).rank = 0 := by
      rw [(loadInit_frame env _).1]; exact hrank
    have h2 : (loadInit env (loadIdentity env p)).timingsFilename ≠ "" := by
      rw [(loadInit_frame env _).2]; exact hfile
    rw [if_pos h1, if_pos h2]
    rfl
  · intro hrank hfile
    rw [loadRankZero_messages, loadVisualization_messages]
    have h1 : (loadInit env (loadIdentity env p)).rank = 0 := by
      rw [(loadInit_frame env _).1]; exact hrank
    have h2 : ¬ (loadInit env (loadIdentity env p)).timingsFilename ≠ "" := by
      rw [(loadInit_frame env _).2]; exact fun h => h hfile
    rw [if_pos h1, if_neg h2]
    rfl
  · intro hrank
    rw [loadRankZero_messages, loadVisualization_messages]
    have h1 : ¬ (loadInit env (loadIdentity env p)).rank = 0 := by
      rw [(loadInit_frame env _).1]; exact hrank
    rw [if_neg h1]

/-- C13 on the example benchmark start on rank 0: both messages are set. -/
theorem handshake_messages_witness :
    messageKeys (benchStart 0)
        = [["rotation axis"], ["weight", "iso threshold", "interpolation", "distance relative"]]
      ∧ ∃ v, (benchStart 0).visualization = some v
        ∧ ((0 : Int) = 0 → "timings.csv" ≠ "" →
            v.messages = [initialAxisMessage, benchmarkSetupMessage])
        ∧ ((0 : Int) = 0 → "timings.csv" = "" → v.messages = [initialAxisMessage])
        ∧ ((0 : Int) ≠ 0 → v.messages = [])
        ∧ initialAxisMessage.keys = ["rotation axis"]
        ∧ benchmarkSetupMessage.keys
            = ["weight", "iso threshold", "interpolation", "distance relative"] :=
  ⟨by decide,
   handshake_messages (sampleLoadEnv 0 0)
     { IsaacPlugin.new with notifyPeriod := "1", timingsFilename := "timings.csv" }
     (by decide)⟩

/-- C13 (as stated it fails): the example start on rank 0 without a benchmark
file sets one message only, the rotation axis; no weights, iso thresholds,
interpolation flag or relative distance are sent. -/
theorem handshake_without_benchmark_file :
    sampleStarted.notifyPeriod = "1" ∧ sampleStarted.rank = 0
      ∧ sampleStarted.timingsFilename = ""
      ∧ messageKeys sampleStarted = [["rotation axis"]] := by
  refine ⟨by decide, by decide, by decide, by decide⟩

/-! ## `pluginUnload` -/

/-- C14 (the code breaks the claim): after the example start with a failing
`init` the visualization object exists and the notification period is empty,
so `pluginUnload` skips the release and the object is still there afterwards.
What does hold: a second `pluginUnload` changes nothing, and whenever the
notification period is not empty the visualization is released. -/
theorem unload_after_failed_init_keeps_session :
    sampleFailed.visualization.isSome = true
      ∧ sampleFailed.notifyPeriod = ""
      ∧ (pluginUnload sampleFailed).visualization.isSome = true
      ∧ (pluginUnload sampleStarted).visualization.isSome = false
      ∧ (∀ p : IsaacPlugin, pluginUnload (pluginUnload p) = pluginUnload p)
      ∧ (∀ p : IsaacPlugin, p.notifyPeriod ≠ "" → (pluginUnload p).visualization = none) := by
  refine ⟨by decide, by decide, by decide, by decide, ?_, ?_⟩
  · intro p
    by_cases h : p.notifyPeriod ≠ ""
    · have h1 : pluginUnload p = { p with visualization := none } := by
        unfold pluginUnload; rw [if_pos h]
      rw [h1]
      unfold pluginUnload
      rw [if_pos (show ({ p with visualization := none } : IsaacPlugin).notifyPeriod ≠ "" from h)]
    · have h1 : pluginUnload p = p := by
        unfold pluginUnload; rw [if_neg h]
      rw [h1, h1]
  · intro p h
    unfold pluginUnload
    rw [if_pos h]

/-! ## The moving window block -/

theorem beginPass_window (grid : Grid) (currentStep : Nat) (f : Frame) (s : LoopState)
    (hmw : s.plugin.movingWindow = true) :
    (beginPass grid currentStep f s).vis.position = windowPosition grid currentStep
      ∧ (beginPass grid currentStep f s).vis.neighbours = neighbourIds grid := by
  unfold beginPass
  dsimp only
  rw [if_pos hmw]
  split <;> exact ⟨rfl, rfl⟩

theorem Vec3.ofFn_get (v : Vec3) : Vec3.ofFn (fun i => v.get i) = v := by
  cases v
  rfl

/-- C15: in a pass of a moving window run the position forwarded to the
visualization is `windowPosition`.  For a process whose grid position along
`y` (the axis the window advances along) is not 0 it is the local offset of
the window on all three axes.  For a process at position 0 it is, on each
axis, local offset plus local size of the window minus the size of the local
domain, as long as these `int` values and the intermediate sum fit in an
`int`. -/
theorem window_position (grid : Grid) (currentStep : Nat) (f : Frame) (s : LoopState)
    (hmw : s.plugin.movingWindow = true)
    (hfit : ∀ i, i < 3 → isInt32 ((grid.windowLocalOffset currentStep).get i
        + (grid.windowLocalSize currentStep).get i)
      ∧ isInt32 ((grid.windowLocalOffset currentStep).get i
        + (grid.windowLocalSize currentStep).get i - grid.localDomainSize.get i)) :
    (beginPass grid currentStep f s).vis.position = windowPosition grid currentStep
      ∧ (grid.gcPosition.get 1 ≠ 0 →
          (beginPass grid currentStep f s).vis.position = grid.windowLocalOffset currentStep)
      ∧ (grid.gcPosition.get 1 = 0 →
          (beginPass grid currentStep f s).vis.position
            = { x := (grid.windowLocalOffset currentStep).x
                  + (grid.windowLocalSize currentStep).x - grid.localDomainSize.x
                y := (grid.windowLocalOffset currentStep).y
                  + (grid.windowLocalSize currentStep).y - grid.localDomainSize.y
                z := (grid.windowLocalOffset currentStep).z
                  + (grid.windowLocalSize currentStep).z - grid.localDomainSize.z }) := by
  have hpos := (beginPass_window grid currentStep f s hmw).1
  refine ⟨hpos, ?_, ?_⟩
  · intro hne
    rw [hpos]
    unfold windowPosition
    simp only [hne, if_false]
    exact Vec3.ofFn_get _
  · intro heq
    rw [hpos]
    unfold windowPosition
    simp only [heq, if_true]
    have h0 := hfit 0 (by decide)
    have h1 := hfit 1 (by decide)
    have h2 := hfit 2 (by decide)
    unfold Vec3.ofFn
    dsimp only
    rw [wrapInt32_of_isInt32 h0.1, wrapInt32_of_isInt32 h0.2, wrapInt32_of_isInt32 h1.1,
      wrapInt32_of_isInt32 h1.2, wrapInt32_of_isInt32 h2.1, wrapInt32_of_isInt32 h2.2]
    rfl

/-- C15 on the example window at the leading edge: offset 32 plus size 96 minus
the 128 cells of the local domain gives position 0 along `y`. -/
theorem window_position_witness :
    windowPosition (sampleWindowGrid 0) 7 = { x := 0, y := 0, z := 0 }
      ∧ windowPosition (sampleWindowGrid 1) 7 = { x := 0, y := 32, z := 0 }
      ∧ (beginPass (sampleWindowGrid 0) 7 (sampleFrame none) sampleWindowLoop).vis.position
          = windowPosition (sampleWindowGrid 0) 7
      ∧ ((sampleWindowGrid 0).gcPosition.get 1 ≠ 0 →
          (beginPass (sampleWindowGrid 0) 7 (sampleFrame none) sampleWindowLoop).vis.position
            = (sampleWindowGrid 0).windowLocalOffset 7)
      ∧ ((sampleWindowGrid 0).gcPosition.get 1 = 0 →
          (beginPass (sampleWindowGrid 0) 7 (sampleFrame none) sampleWindowLoop).vis.position
            = { x := ((sampleWindowGrid 0).windowLocalOffset 7).x
                  + ((sampleWindowGrid 0).windowLocalSize 7).x
                  - (sampleWindowGrid 0).localDomainSize.x
                y := ((sampleWindowGrid 0).windowLocalOffset 7).y
                  + ((sampleWindowGrid 0).windowLocalSize 7).y
                  - (sampleWindowGrid 0).localDomainSize.y
                z := ((sampleWindowGrid 0).windowLocalOffset 7).z
                  + ((sampleWindowGrid 0).windowLocalSize 7).z
                  - (sampleWindowGrid 0).localDomainSize.z }) :=
  ⟨by decide, by decide,
   window_position (sampleWindowGrid 0) 7 (sampleFrame none) sampleWindowLoop rfl
     (by decide)⟩

/-! ## The neighbour table -/

theorem neighbourIds_getElem (grid : Grid) (e : Nat) (he : e < 27) :
    (neighbourIds grid)[e]? = some (grid.exchangeTypeToRank e) := by
  unfold neighbourIds
  rw [List.getElem?_map, List.getElem?_range he]
  rfl

/-- C16: the neighbour table stored by a pass of a moving window run (and by
`pluginLoad`) is the list of `ExchangeTypeToRank(e)` for `e = 0 .. 26`.  So for
every slot `e < 27` (the 26 directions are `e = 1 .. 26`) the entry is the rank
the communicator maps `e` to; between the grid before and the grid after a
window advance an entry changes exactly when the mapped rank changes, and when
the mapping is the same on all slots the two tables are equal. -/
theorem neighbour_table (before after : Grid) (currentStep : Nat) (f : Frame) (s : LoopState)
    (env : LoadEnv) (p : IsaacPlugin) (e : Nat) (he : e < 27)
    (hmw : s.plugin.movingWindow = true) :
    (beginPass after currentStep f s).vis.neighbours = neighbourIds after
      ∧ (loadVisualization env p).neighbours = neighbourIds env.grid
      ∧ (neighbourIds after)[e]? = some (after.exchangeTypeToRank e)
      ∧ ((neighbourIds after)[e]? = (neighbourIds before)[e]?
          ↔ after.exchangeTypeToRank e = before.exchangeTypeToRank e)
      ∧ ((∀ e, e < 27 → after.exchangeTypeToRank e = before.exchangeTypeToRank e) →
          (beginPass after currentStep f s).vis.neighbours
            = (beginPass before currentStep f s).vis.neighbours) := by
  refine ⟨(beginPass_window after currentStep f s hmw).2, ?_, neighbourIds_getElem after e he,
    ?_, ?_⟩
  · unfold loadVisualization
    dsimp only
    split <;> rfl
  · rw [neighbourIds_getElem after e he, neighbourIds_getElem before e he]
    constructor
    · intro h
      injection h
    · intro h
      rw [h]
  · intro hall
    rw [(beginPass_window after currentStep f s hmw).2,
      (beginPass_window before currentStep f s hmw).2]
    unfold neighbourIds
    apply List.map_congr_left
    intro e he
    exact hall e (List.mem_range.mp he)

/-- C16 on the example window grids: slot 0 holds rank 0 and slot 13 holds the
value -1 the example communicator maps it to. -/
theorem neighbour_table_witness :
    (neighbourIds (sampleWindowGrid 0))[13]? = some (-1)
      ∧ (beginPass (sampleWindowGrid 0) 7 (sampleFrame none) sampleWindowLoop).vis.neighbours
          = neighbourIds (sampleWindowGrid 0)
      ∧ (loadVisualization (sampleLoadEnv 0 0) IsaacPlugin.new).neighbours
          = neighbourIds (sampleLoadEnv 0 0).grid
      ∧ (neighbourIds (sampleWindowGrid 0))[13]?
          = some ((sampleWindowGrid 0).exchangeTypeToRank 13)
      ∧ ((neighbourIds (sampleWindowGrid 0))[13]? = (neighbourIds (sampleWindowGrid 1))[13]?
          ↔ (sampleWindowGrid 0).exchangeTypeToRank 13
            = (sampleWindowGrid 1).exchangeTypeToRank 13)
      ∧ ((∀ e, e < 27 → (sampleWindowGrid 0).exchangeTypeToRank e
            = (sampleWindowGrid 1).exchangeTypeToRank e) →
          (beginPass (sampleWindowGrid 0) 7 (sampleFrame none) sampleWindowLoop).vis.neighbours
            = (beginPass (sampleWindowGrid 1) 7 (sampleFrame none)
                sampleWindowLoop).vis.neighbours) :=
  ⟨by decide,
   neighbour_table (sampleWindowGrid 1) (sampleWindowGrid 0) 7 (sampleFrame none)
     sampleWindowLoop (sampleLoadEnv 0 0) IsaacPlugin.new 13 (by decide) rfl⟩

/-! ## The rows of the benchmark file and the run step counter -/

theorem renderPass_exit_iff (grid : Grid) (currentStep : Nat) (f : Frame) (s : LoopState) :
    (∃ s1, renderPass grid currentStep f s = Decoded.exit s1)
      ↔ exitRequested f.message = true := by
  unfold renderPass
  cases hx : exitRequested f.message with
  | true =>
    rw [finishPass_exit _ _ hx]
    exact ⟨fun _ => rfl, fun _ => ⟨_, rfl⟩⟩
  | false =>
    rw [finishPass_next _ _ hx]
    constructor
    · rintro ⟨s1, h⟩
      cases h
    · intro h
      cases h

/-- A pass that starts with `directPause` set and does not end in `exit` ends
paused with the flag cleared. -/
theorem renderPass_directPause (grid : Grid) (currentStep : Nat) (f : Frame) (s s1 : LoopState)
    (hdp : s.plugin.directPause = true)
    (h : renderPass grid currentStep f s = Decoded.next s1) :
    s1.pause = true ∧ s1.plugin.directPause = false
      ∧ s1.vis.calls = s.vis.calls ++ [(currentStep, !s.pause)] := by
  have hcalls := (renderPass_next_frame grid currentStep f s s1 h).2.1
  have hexit : exitRequested f.message = false := by
    cases hx : exitRequested f.message with
    | false => rfl
    | true =>
      obtain ⟨s2, h2⟩ := (renderPass_exit_iff grid currentStep f s).mpr hx
      rw [h2] at h
      cases h
  unfold renderPass at h
  rw [finishPass_next _ _ hexit] at h
  injection h with h
  subst h
  refine ⟨?_, applyDirectPause_directPause _, hcalls⟩
  have hd : (decodeInterval f.message
      { benchmarkPass f (beginPass grid currentStep f s) with
        pause := decodePause f.message
          (benchmarkPass f (beginPass grid currentStep f s)).pause }).plugin.directPause
      = true := by
    rw [decodeInterval_directPause]
    show (benchmarkPass f (beginPass grid currentStep f s)).plugin.directPause = true
    rw [(benchmarkPass_directPause f _).1, beginPass_plugin]
    exact hdp
  unfold applyDirectPause
  rw [if_pos hd]

/-- A pass that starts with `directPause` cleared leaves it cleared, and ends
with the pause state the message gives. -/
theorem renderPass_directPause_cleared (grid : Grid) (currentStep : Nat) (f : Frame)
    (s s1 : LoopState) (hdp : s.plugin.directPause = false)
    (h : renderPass grid currentStep f s = Decoded.next s1) :
    s1.pause = decodePause f.message s.pause ∧ s1.plugin.directPause = false := by
  have hexit : exitRequested f.message = false := by
    cases hx : exitRequested f.message with
    | false => rfl
    | true =>
      obtain ⟨s2, h2⟩ := (renderPass_exit_iff grid currentStep f s).mpr hx
      rw [h2] at h
      cases h
  unfold renderPass at h
  rw [finishPass_next _ _ hexit] at h
  injection h with h
  subst h
  have hd : (decodeInterval f.message
      { benchmarkPass f (beginPass grid currentStep f s) with
        pause := decodePause f.message
          (benchmarkPass f (beginPass grid currentStep f s)).pause }).plugin.directPause
      = false := by
    rw [decodeInterval_directPause]
    show (benchmarkPass f (beginPass grid currentStep f s)).plugin.directPause = false
    rw [(benchmarkPass_directPause f _).1, beginPass_plugin]
    exact hdp
  rw [applyDirectPause_of_false _ hd]
  refine ⟨?_, hd⟩
  rw [decodeInterval_pause]
  show decodePause f.message (benchmarkPass f (beginPass grid currentStep f s)).pause = _
  rw [(benchmarkPass_directPause f _).2, beginPass_pause]

theorem renderLoop_directPause_cleared (grid : Grid) (currentStep : Nat) (frames : List Frame)
    (s : LoopState) (q : IsaacPlugin) (hdp : s.plugin.directPause = false)
    (h : renderLoop grid currentStep frames s = Outcome.returned q) :
    q.directPause = false := by
  induction frames generalizing s with
  | nil => simp [renderLoop] at h
  | cons f fs ih =>
    rw [renderLoop] at h
    cases hp : renderPass grid currentStep f s with
    | exit s1 => rw [hp] at h; simp at h
    | next s1 =>
      rw [hp] at h
      have h1 := (renderPass_directPause_cleared grid currentStep f s s1 hdp hp).2
      dsimp only at h
      split at h
      · exact ih s1 h1 h
      · injection h with h
        subst h
        exact h1

theorem notify_directPause_cleared (env : NotifyEnv) (currentStep : Nat) (p q : IsaacPlugin)
    (hdp : p.directPause = false) (h : notify env currentStep p = Outcome.returned q) :
    q.directPause = false := by
  by_cases hdue : (enterNotify env p).step ≥ (enterNotify env p).renderInterval
  · cases hv : p.visualization with
    | none =>
      have hv1 : (enterNotify env p).visualization = none := hv
      unfold notify at h
      rw [if_pos hdue, hv1] at h
      cases h
    | some v =>
      rw [notify_due env currentStep p v hdue hv] at h
      cases hl : renderLoop env.grid currentStep env.frames (startCycle (enterNotify env p) v) with
      | returned p2 =>
        rw [hl] at h
        injection h with h
        subst h
        exact renderLoop_directPause_cleared _ _ _ _ p2 hdp hl
      | exited c p2 => rw [hl] at h; cases h
      | blocked p2 => rw [hl] at h; cases h
      | fault p2 => rw [hl] at h; cases h
  · rw [notify_idle env currentStep p hdue] at h
    injection h with h
    subst h
    exact hdp

/-- C19: a loop that starts with `directPause` set.  Whatever message the first
`doVisualization` returns, the first pass either ends the process with `exit`
(exactly when the message requests it) or ends paused with the flag cleared,
and the loop goes on with the remaining frames.  Hence whenever the loop
returns (the simulation continues) `doVisualization` has been called at least
twice and the flag is cleared.  With the flag cleared a pass ends with the
pause state its message gives, and a `notify` call that returns leaves the
flag cleared: the flag forces the pause once. -/
theorem direct_pause_forces_one_pause (grid : Grid) (currentStep : Nat) (f : Frame)
    (fs : List Frame) (s : LoopState) (hdp : s.plugin.directPause = true) :
    ((∃ s1, renderPass grid currentStep f s = Decoded.exit s1)
        ↔ exitRequested f.message = true)
      ∧ (∀ s1, renderPass grid currentStep f s = Decoded.next s1 →
          s1.pause = true ∧ s1.plugin.directPause = false
            ∧ s1.vis.calls = s.vis.calls ++ [(currentStep, !s.pause)]
            ∧ renderLoop grid currentStep (f :: fs) s = renderLoop grid currentStep fs s1)
      ∧ (∀ q, renderLoop grid currentStep (f :: fs) s = Outcome.returned q →
          s.vis.calls.length + 2 ≤ visCalls q ∧ q.directPause = false)
      ∧ (∀ g s2 s3, s2.plugin.directPause = false →
          renderPass grid currentStep g s2 = Decoded.next s3 →
          s3.pause = decodePause g.message s2.pause ∧ s3.plugin.directPause = false)
      ∧ (∀ env step p q, p.directPause = false →
          notify env step p = Outcome.returned q → q.directPause = false) := by
  have hfirst : ∀ s1, renderPass grid currentStep f s = Decoded.next s1 →
      s1.pause = true ∧ s1.plugin.directPause = false
        ∧ s1.vis.calls = s.vis.calls ++ [(currentStep, !s.pause)]
        ∧ renderLoop grid currentStep (f :: fs) s = renderLoop grid currentStep fs s1 := by
    intro s1 h1
    obtain ⟨hp, hd, hc⟩ := renderPass_directPause grid currentStep f s s1 hdp h1
    refine ⟨hp, hd, hc, ?_⟩
    rw [renderLoop, h1]
    dsimp only
    rw [if_pos hp]
  refine ⟨renderPass_exit_iff grid currentStep f s, hfirst, ?_,
    fun g s2 s3 h2 h3 => renderPass_directPause_cleared grid currentStep g s2 s3 h2 h3,
    fun env step p q hp hq => notify_directPause_cleared env step p q hp hq⟩
  intro q hq
  cases hp : renderPass grid currentStep f s with
  | exit s1 =>
    rw [renderLoop, hp] at hq
    cases hq
  | next s1 =>
    obtain ⟨_, hd, hc, hloop⟩ := hfirst s1 hp
    rw [hloop] at hq
    obtain ⟨⟨ri, dp, dt, file, r, g, v2, hq2, hlen⟩, _⟩ :=
      renderLoop_returned_frame grid currentStep fs s1 q hq
    refine ⟨?_, renderLoop_directPause_cleared grid currentStep fs s1 q hd hq⟩
    have hv : visCalls q = v2.calls.length := by
      rw [hq2]
      rfl
    rw [hv]
    rw [hc, List.length_append] at hlen
    simp only [List.length_singleton] at hlen
    omega

/-- C19 on the examples: with `directPause` set, the loop whose first frame
carries no message and whose second frame toggles the pause returns after two
calls of `doVisualization`; a first message that toggles the pause does not
end the pause either. -/
theorem direct_pause_forces_one_pause_witness :
    sampleDirectPause.plugin.directPause = true
      ∧ (renderLoop sampleGrid 0 sampleResumeFrames sampleDirectPause).isReturned = true
      ∧ visCalls (renderLoop sampleGrid 0 sampleResumeFrames sampleDirectPause).plugin = 2
      ∧ (renderPass sampleGrid 0 (sampleFrame pauseMessage) sampleDirectPause).state.pause = true
      ∧ (((∃ s1, renderPass sampleGrid 0 (sampleFrame none) sampleDirectPause = Decoded.exit s1)
            ↔ exitRequested (sampleFrame none).message = true)
        ∧ (∀ s1, renderPass sampleGrid 0 (sampleFrame none) sampleDirectPause = Decoded.next s1 →
            s1.pause = true ∧ s1.plugin.directPause = false
              ∧ s1.vis.calls = sampleDirectPause.vis.calls ++ [(0, !sampleDirectPause.pause)]
              ∧ renderLoop sampleGrid 0 (sampleFrame none :: [sampleFrame pauseMessage])
                    sampleDirectPause
                  = renderLoop sampleGrid 0 [sampleFrame pauseMessage] s1)
        ∧ (∀ q, renderLoop sampleGrid 0 (sampleFrame none :: [sampleFrame pauseMessage])
              sampleDirectPause = Outcome.returned q →
            sampleDirectPause.vis.calls.length + 2 ≤ visCalls q ∧ q.directPause = false)
        ∧ (∀ g s2 s3, s2.plugin.directPause = false →
            renderPass sampleGrid 0 g s2 = Decoded.next s3 →
            s3.pause = decodePause g.message s2.pause ∧ s3.plugin.directPause = false)
        ∧ (∀ env step p q, p.directPause = false →
            notify env step p = Outcome.returned q → q.directPause = false)) :=
  ⟨by decide, by decide, by decide, by decide,
   direct_pause_forces_one_pause sampleGrid 0 (sampleFrame none) [sampleFrame pauseMessage]
     sampleDirectPause (by decide)⟩

/-! ## The keys of the periodically sent metadata -/

set_option maxRecDepth 20000 in
/-- C20 fails in the code: `pluginLoad` defines the metadata entries `time step`,
`drawing time`, `simulation time`, `cell count` and `particle count`, but the
loop of `notify` sets `drawing_time` and `simulation_time` (with an underscore).
These two keys are not among the defined ones, so the update adds two members
to the meta root, and the entries `drawing time` and `simulation time` keep
their description texts for ever.  The same is seen in the example run: after
`pluginLoad` the meta root has the five defined keys, after two `notify` calls
it has seven. -/
theorem metadata_update_adds_keys (currentStep : Nat) (p : IsaacPlugin) :
    (defineMeta []).map Prod.fst
        = ["time step", "drawing time", "simulation time", "cell count", "particle count"]
      ∧ (updateMeta currentStep p (defineMeta [])).map Prod.fst
        = ["time step", "drawing time", "simulation time", "cell count", "particle count",
            "drawing_time", "simulation_time"]
      ∧ lookupKey "drawing_time" (defineMeta []) = none
      ∧ lookupKey "simulation_time" (defineMeta []) = none
      ∧ lookupKey "drawing_time" (updateMeta currentStep p (defineMeta []))
        = some (Json.integer p.drawingTime)
      ∧ lookupKey "simulation_time" (updateMeta currentStep p (defineMeta []))
        = some (Json.integer p.simulationTime)
      ∧ lookupKey "drawing time" (updateMeta currentStep p (defineMeta []))
        = some (Json.string "Drawing time in us")
      ∧ lookupKey "simulation time" (updateMeta currentStep p (defineMeta []))
        = some (Json.string "Simulation time in us")
      ∧ lookupKey "time step" (updateMeta currentStep p (defineMeta []))
        = some (Json.integer currentStep)
      ∧ metaKeys sampleStarted
        = ["time step", "drawing time", "simulation time", "cell count", "particle count"]
      ∧ metaKeys ((runNotify (sampleCalls.take 2) sampleStarted).getD sampleStarted)
        = ["time step", "drawing time", "simulation time", "cell count", "particle count",
            "drawing_time", "simulation_time"] := by
  refine ⟨by decide, ?_, ?_, ?_, ?_, ?_, ?_, ?_, ?_, by decide, by decide⟩ <;>
    simp [updateMeta, defineMeta, json_object_set_new, lookupKey, replaceKey]

/-! ## `CartNavigator` -/

theorem wrapInt32_congr {x y : Int} (h : x % 4294967296 = y % 4294967296) :
    wrapInt32 x = wrapInt32 y := by
  unfold wrapInt32
  rw [h]

theorem wrapInt32_emod (x : Int) : wrapInt32 x % 4294967296 = x % 4294967296 := by
  rw [wrapInt32_eq]
  omega

theorem foldl_dot_wrap {α : Type} (g : α → Int) (l : List α) (acc : Int) :
    wrapInt32 (l.foldl (fun result i => wrapInt32 (result + wrapInt32 (g i))) acc)
      = wrapInt32 (acc + (l.map g).sum) := by
  induction l generalizing acc with
  | nil => simp
  | cons i l ih =>
    rw [List.foldl_cons, ih, List.map_cons, List.sum_cons]
    apply wrapInt32_congr
    have h1 := wrapInt32_emod (acc + wrapInt32 (g i))
    have h2 := wrapInt32_emod (g i)
    omega

theorem foldl_dot_isInt32 {α : Type} (g : α → Int) (l : List α) (acc : Int)
    (hacc : isInt32 acc) :
    isInt32 (l.foldl (fun result i => wrapInt32 (result + wrapInt32 (g i))) acc) := by
  induction l generalizing acc with
  | nil => exact hacc
  | cons i l ih =>
    rw [List.foldl_cons]
    exact ih _ (isInt32_wrapInt32 _)

/-- The value of `dot` is the sum of the products reduced to the range of `int`. -/
theorem dot_eq_wrap {dim : Nat} (lhs rhs : IntVec dim) :
    math.dot lhs rhs = wrapInt32 (byteOffset lhs rhs) := by
  have h1 := foldl_dot_wrap (fun i => lhs i * rhs i) (List.finRange dim) 0
  have h2 := foldl_dot_isInt32 (fun i => lhs i * rhs i) (List.finRange dim) 0 (by decide)
  rw [wrapInt32_of_isInt32 h2, Int.zero_add] at h1
  exact h1

theorem sum_add_modEq {α : Type} (a b f : α → Int) (l : List α) :
    (l.map fun i => wrapInt32 (a i + b i) * f i).sum % 4294967296
      = ((l.map fun i => a i * f i).sum + (l.map fun i => b i * f i).sum) % 4294967296 := by
  induction l with
  | nil => simp
  | cons i l ih =>
    simp only [List.map_cons, List.sum_cons]
    have h1 : Int.ModEq 4294967296 (wrapInt32 (a i + b i)) (a i + b i) := wrapInt32_emod _
    have h2 : Int.ModEq 4294967296 _ _ := (h1.mul_right (f i)).add ih
    have e : (a i + b i) * f i
          + ((l.map fun i => a i * f i).sum + (l.map fun i => b i * f i).sum)
        = a i * f i + (l.map fun i => a i * f i).sum
          + (b i * f i + (l.map fun i => b i * f i).sum) := by ring
    rw [e] at h2
    exact h2

theorem dot_add {dim : Nat} (a b factor : IntVec dim) :
    math.dot (a.add b) factor = wrapInt32 (byteOffset a factor + byteOffset b factor) := by
  rw [dot_eq_wrap]
  apply wrapInt32_congr
  exact sum_add_modEq a b factor (List.finRange dim)

theorem byteOffset_zero {dim : Nat} (factor : IntVec dim) :
    byteOffset IntVec.zero factor = 0 := by
  unfold byteOffset IntVec.zero
  simp

theorem wrapUInt64_add (x y : Int) :
    wrapUInt64 (((wrapUInt64 x : Nat) : Int) + y) = wrapUInt64 (x + y) := by
  unfold wrapUInt64
  have h : (((x % 18446744073709551616).toNat : Nat) : Int) = x % 18446744073709551616 :=
    Int.toNat_of_nonneg (Int.emod_nonneg _ (by decide))
  rw [h]
  congr 1
  omega

/-- C21 as stated fails: over rows of 1 MiB, a jump of 1536 rows stands for an
offset that fits in an `int`; two such jumps in a row move the address
4294967296 on by 3 GiB, to 7516192768, but the single jump by their sum, whose
offset does not fit in an `int`, moves it back by 1 GiB, to 3221225472. -/
theorem navigate_sum_beyond_int_range :
    isInt32 (byteOffset sampleJump sampleNavigator.factor)
      ∧ sampleNavigator.navigate (sampleNavigator.navigate 4294967296 sampleJump) sampleJump
          = 7516192768
      ∧ sampleNavigator.navigate 4294967296 (sampleJump.add sampleJump) = 3221225472
      ∧ byteOffset (sampleJump.add sampleJump) sampleNavigator.factor = 3221225472 := by
  decide

/-- C21 (amended): for a base address `d` (64 bits), a stride factor and jumps
`a` and `b` of the same dimension whose byte offsets (the sums of the products
of components and strides) and the sum of the two fit in an `int`:
`CartNavigator` returns `d` moved by the byte offset of the jump, which is the
value of `dot(jump, factor)`; navigating by `a` and then by `b` equals
navigating once by `a + b`; a zero jump returns `d`; `getFactor` returns the
factor given at construction. -/
theorem navigate_offsets {dim : Nat} (factor a b : IntVec dim) (d : Nat)
    (hd : d < 18446744073709551616)
    (ha : isInt32 (byteOffset a factor)) (hb : isInt32 (byteOffset b factor))
    (hab : isInt32 (byteOffset a factor + byteOffset b factor)) :
    math.dot a factor = byteOffset a factor
      ∧ (CartNavigator.new factor).navigate d a = wrapUInt64 ((d : Int) + byteOffset a factor)
      ∧ (CartNavigator.new factor).navigate ((CartNavigator.new factor).navigate d a) b
          = (CartNavigator.new factor).navigate d (a.add b)
      ∧ (CartNavigator.new factor).navigate d (a.add b)
          = wrapUInt64 ((d : Int) + (byteOffset a factor + byteOffset b factor))
      ∧ (CartNavigator.new factor).navigate d IntVec.zero = d
      ∧ (CartNavigator.new factor).getFactor = factor := by
  have hA : math.dot a factor = byteOffset a factor := by
    rw [dot_eq_wrap, wrapInt32_of_isInt32 ha]
  have hB : math.dot b factor = byteOffset b factor := by
    rw [dot_eq_wrap, wrapInt32_of_isInt32 hb]
  have hAB : math.dot (a.add b) factor = byteOffset a factor + byteOffset b factor := by
    rw [dot_add, wrapInt32_of_isInt32 hab]
  have hsum : (CartNavigator.new factor).navigate d (a.add b)
      = wrapUInt64 ((d : Int) + (byteOffset a factor + byteOffset b factor)) := by
    show wrapUInt64 ((d : Int) + math.dot (a.add b) factor) = _
    rw [hAB]
  refine ⟨hA, ?_, ?_, hsum, ?_, rfl⟩
  · show wrapUInt64 ((d : Int) + math.dot a factor) = _
    rw [hA]
  · rw [hsum]
    show wrapUInt64 (((wrapUInt64 ((d : Int) + math.dot a factor) : Nat) : Int)
      + math.dot b factor) = _
    rw [wrapUInt64_add, hA, hB, Int.add_assoc]
  · show wrapUInt64 ((d : Int) + math.dot IntVec.zero factor) = d
    rw [dot_eq_wrap, byteOffset_zero]
    have h0 : wrapInt32 0 = 0 := by decide
    rw [h0]
    unfold wrapUInt64
    omega

/-- C21 on the pitched example buffer: from address 4096, the jump by 3 elements
and 2 rows leads to 4620, the jump by -1 element and 1 row from there to 4872,
which is where the single jump by their sum, 2 elements and 3 rows, leads. -/
theorem navigate_offsets_witness :
    (CartNavigator.new samplePitch).navigate 4096 sampleJumpA = 4620
      ∧ (CartNavigator.new samplePitch).navigate 4620 sampleJumpB = 4872
      ∧ (math.dot sampleJumpA samplePitch = byteOffset sampleJumpA samplePitch
        ∧ (CartNavigator.new samplePitch).navigate 4096 sampleJumpA
            = wrapUInt64 (((4096 : Nat) : Int) + byteOffset sampleJumpA samplePitch)
        ∧ (CartNavigator.new samplePitch).navigate
              ((CartNavigator.new samplePitch).navigate 4096 sampleJumpA) sampleJumpB
            = (CartNavigator.new samplePitch).navigate 4096 (sampleJumpA.add sampleJumpB)
        ∧ (CartNavigator.new samplePitch).navigate 4096 (sampleJumpA.add sampleJumpB)
            = wrapUInt64 (((4096 : Nat) : Int)
                + (byteOffset sampleJumpA samplePitch + byteOffset sampleJumpB samplePitch))
        ∧ (CartNavigator.new samplePitch).navigate 4096 IntVec.zero = 4096
        ∧ (CartNavigator.new samplePitch).getFactor = samplePitch) :=
  ⟨by decide, by decide,
   navigate_offsets samplePitch sampleJumpA sampleJumpB 4096 (by decide) (by decide) (by decide)
     (by decide)⟩

/-! ## Values of `pause` other than `true` -/

/-- C4 (as stated it fails): `json_boolean_value` is true for the JSON value
`true` only.  A message whose `pause` member is the integer 1 or a non-empty
text, values that count as truthy, does not flip the pause flag: the decoding
and the whole end of the pass leave `pause` as it was, whereas the message with
the value `true` flips it. -/
theorem truthy_pause_value_keeps_flag :
    decodePause (integerMessage "pause" 1) false = false
      ∧ decodePause (integerMessage "pause" 1) true = true
      ∧ decodePause (some (Json.object [("pause", Json.string "true")])) false = false
      ∧ (finishPass (integerMessage "pause" 1) (sampleLoop 0)).state.pause
          = (sampleLoop 0).pause
      ∧ decodePause pauseMessage false = true := by
  decide

end isaacP
end picongpu
